import Mathlib

/-! # sanlock: watchdog multiplexer (wdmd), reset orchestrator (sanlk-reset), client library

A shallow embedding of the decision logic of `wdmd/main.c` and
`reset/sanlk_reset.c` and of the string conversions of `src/client.c`, with
theorems about it.

Conventions of the embedding.

* `uint64_t` values are natural numbers below `2 ^ 64`; a subtraction of two of
  them is `u64_sub`, which wraps the way the C subtraction does.  An `int` that
  is compared with a `uint64_t` is first converted with `u64_of_int`.
* `int` flags and counters are integers; the counters of the loops are far from
  the range where an `int` overflows (at most one increment per table slot).
* Everything the program reads from its surroundings (the monotonic clock, the
  result of a system call, the answer of the lease daemon) is an explicit
  argument of the function that reads it.
* The system calls a function issues are appended, in order, to the `log` field
  of the state.
* Logging macros (`log_debug`, `log_error`, ...) have no effect on the state
  and are left out.
* A C string is the list of its bytes; a buffer is the list of all its bytes and
  the string it holds ends at its first NUL byte.
-/

/-- Wrapping subtraction of two `uint64_t` values. -/
def u64_sub (a b : Nat) : Nat := (a % 2 ^ 64 + (2 ^ 64 - b % 2 ^ 64)) % 2 ^ 64

/-- Conversion of an `int` to `uint64_t` (the usual arithmetic conversion). -/
def u64_of_int (x : Int) : Nat := (x % 2 ^ 64).toNat

/-- The record `struct pollfd`. -/
structure pollfd_t where
  fd : Int
  events : Int
  revents : Int
deriving DecidableEq, Repr

namespace Wdmd

/-! ## Data model of `wdmd/main.c` -/

def DEFAULT_TEST_INTERVAL : Nat := 10
def RECOVER_TEST_INTERVAL : Nat := 1
def DEFAULT_FIRE_TIMEOUT : Nat := 60

/-- Values of `<signal.h>` on Linux. -/
def SIGHUP : Nat := 1
def SIGINT : Nat := 2
def SIGTERM : Nat := 15

/-- The value of `sizeof(struct signalfd_siginfo)`. -/
def sizeof_signalfd_siginfo : Int := 128

/-- The two sizes that `wdmd.h` and `wdmd_sock.h` define: the length of a client
name and the size of a message header.  The headers are not part of the
sources at hand, so the sizes are parameters. -/
structure wdmd_h where
  WDMD_NAME_SIZE : Nat
  sizeof_wdmd_header : Int
deriving DecidableEq, Repr

/-- The `workfn` pointer of a client slot. -/
inductive workfn_t where
  | null
  | process_listener
  | process_connection
  | process_signals
deriving DecidableEq, Repr

/-- The `deadfn` pointer of a client slot. -/
inductive deadfn_t where
  | null
  | client_pid_dead
deriving DecidableEq, Repr

/-- The record `struct client`. -/
structure client where
  used : Int
  fd : Int
  pid : Int
  pid_dead : Int
  refcount : Int
  renewal : Nat
  expire : Nat
  workfn : workfn_t
  deadfn : deadfn_t
  name : List Nat
deriving DecidableEq, Repr

/-- The opcode of a message header, as the `switch` of `process_connection`
distinguishes it. -/
inductive cmd_t where
  | CMD_REGISTER
  | CMD_REFCOUNT_SET
  | CMD_REFCOUNT_CLEAR
  | CMD_TEST_LIVE
  | CMD_STATUS
  | CMD_DUMP_DEBUG
  | other (n : Nat)
deriving DecidableEq, Repr

/-- The fields of `struct wdmd_header` that the daemon reads or writes. -/
structure wdmd_header where
  cmd : cmd_t
  test_interval : Int
  fire_timeout : Int
  last_keepalive : Nat
  renewal_time : Nat
  expire_time : Nat
  name : List Nat
deriving DecidableEq, Repr

/-- System calls with an effect outside the process, in the order issued. -/
inductive sys_op where
  | open_wd (path : String)
  | ioctl_keepalive (fd : Int)
  | write_V (fd : Int)
  | close (fd : Int)
  | send_header (fd : Int) (h : wdmd_header)
  | send_debug (fd : Int)
  | stat (path : String)
  | ioctl_gettimeout (fd : Int)
  | ioctl_settimeout (fd : Int) (timeout : Int)
deriving DecidableEq, Repr

/-- The global variables of the daemon that the modelled functions use;
`test_time` is the local variable of `test_loop` that lives across its
iterations. -/
structure wdmd_state where
  test_interval : Int
  fire_timeout : Int
  daemon_quit : Int
  last_keepalive : Nat
  last_closeunclean : Nat
  dev_fd : Int
  watchdog_path : String
  client : List client
  pollfd : List pollfd_t
  test_time : Nat
  log : List sys_op
deriving DecidableEq, Repr

/-! ## Client table -/

/-- What `memset(&client[ci], 0, sizeof(struct client))` leaves. -/
def client_zero (K : wdmd_h) : client :=
  { used := 0, fd := 0, pid := 0, pid_dead := 0, refcount := 0, renewal := 0, expire := 0,
    workfn := workfn_t.null, deadfn := deadfn_t.null,
    name := List.replicate K.WDMD_NAME_SIZE 0 }

/-- The function `client_pid_dead(ci)`. -/
def client_pid_dead (K : wdmd_h) (ci : Nat) (s : wdmd_state) : wdmd_state :=
  match s.client[ci]?, s.pollfd[ci]? with
  | some c, some p =>
    if c.expire = 0 then
      { s with
        log := s.log ++ [sys_op.close c.fd]
        client := s.client.set ci { client_zero K with fd := -1 }
        pollfd := s.pollfd.set ci { p with fd := -1, events := 0 } }
    else
      { s with
        log := s.log ++ [sys_op.close c.fd]
        client := s.client.set ci { c with pid_dead := 1, fd := -1 }
        pollfd := s.pollfd.set ci { p with fd := -1, events := 0 } }
  | _, _ => s

/-- The loop of `test_clients`, over the slots from the current one on, with the
running `fail_count`; `t` is the value `monotime()` returned. -/
def test_clients_loop (t : Nat) : List client → Nat → Nat
  | [], fail_count => fail_count
  | c :: rest, fail_count =>
    if c.used = 0 then test_clients_loop t rest fail_count
    else if c.expire = 0 then test_clients_loop t rest fail_count
    else if t ≥ c.expire then test_clients_loop t rest (fail_count + 1)
    else if t ≥ u64_sub c.expire DEFAULT_TEST_INTERVAL then
      test_clients_loop t rest (fail_count + 1)
    else test_clients_loop t rest fail_count

/-- The function `test_clients()`; `t` is the value `monotime()` returned. -/
def test_clients (t : Nat) (cl : List client) : Nat :=
  test_clients_loop t cl 0

/-- The function `active_clients()`. -/
def active_clients : List client → Int
  | [] => 0
  | c :: rest => if c.refcount ≠ 0 then 1 else active_clients rest

/-! ## Watchdog device -/

/-- The function `open_dev()`; `fd` is what `open(watchdog_path, ...)` returns
when it is called.  The result is the state and the return value. -/
def open_dev (fd : Int) (s : wdmd_state) : wdmd_state × Int :=
  if s.dev_fd ≠ -1 then (s, -1)
  else
    let s1 := { s with log := s.log ++ [sys_op.open_wd s.watchdog_path] }
    if fd < 0 then (s1, fd)
    else ({ s1 with dev_fd := fd }, 0)

/-- The function `close_watchdog_unclean()`; `now` is the value of `monotime()`. -/
def close_watchdog_unclean (now : Nat) (s : wdmd_state) : wdmd_state :=
  if s.dev_fd = -1 then s
  else
    { s with
      log := s.log ++ [sys_op.close s.dev_fd]
      dev_fd := -1
      last_closeunclean := now }

/-- The function `close_watchdog()`: the disarming close. -/
def close_watchdog (s : wdmd_state) : wdmd_state :=
  if s.dev_fd = -1 then s
  else
    { s with
      log := s.log ++ [sys_op.write_V s.dev_fd, sys_op.close s.dev_fd]
      dev_fd := -1 }

/-- The function `pet_watchdog()`; `now` is the value of `monotime()`. -/
def pet_watchdog (now : Nat) (s : wdmd_state) : wdmd_state :=
  { s with
    log := s.log ++ [sys_op.ioctl_keepalive s.dev_fd]
    last_keepalive := now }

/-! ## Connections and signals -/

/-- What `process_connection` reads: the result `rv` of `recv` with the header
received, and the result of `get_peer_pid` with the pid it stores. -/
structure conn_input where
  rv : Int
  h : wdmd_header
  peer_rv : Int
  peer_pid : Int
deriving DecidableEq, Repr

/-- The label `dead:` of `process_connection`: call the slot's `deadfn`. -/
def process_connection_dead (K : wdmd_h) (ci : Nat) (s : wdmd_state) : wdmd_state :=
  match s.client[ci]? with
  | some c =>
    match c.deadfn with
    | deadfn_t.null => s
    | deadfn_t.client_pid_dead => client_pid_dead K ci s
  | none => s

/-- The bytes that `strncpy(name, "dump", WDMD_NAME_SIZE)` writes. -/
def strncpy_dump (K : wdmd_h) : List Nat :=
  ([100, 117, 109, 112] ++ List.replicate (K.WDMD_NAME_SIZE - 4) 0).take K.WDMD_NAME_SIZE

/-- The function `process_connection(ci)`. -/
def process_connection (K : wdmd_h) (inp : conn_input) (ci : Nat) (s : wdmd_state) :
    wdmd_state :=
  match s.client[ci]? with
  | none => s
  | some c =>
    if inp.rv = 0 then s
    else if inp.rv < 0 then process_connection_dead K ci s
    else if inp.rv ≠ K.sizeof_wdmd_header then process_connection_dead K ci s
    else
      match inp.h.cmd with
      | cmd_t.CMD_REGISTER =>
        if inp.peer_rv < 0 then process_connection_dead K ci s
        else { s with client := s.client.set ci { c with pid := inp.peer_pid, name := inp.h.name } }
      | cmd_t.CMD_REFCOUNT_SET =>
        { s with client := s.client.set ci { c with refcount := 1 } }
      | cmd_t.CMD_REFCOUNT_CLEAR =>
        { s with client := s.client.set ci { c with refcount := 0 } }
      | cmd_t.CMD_TEST_LIVE =>
        { s with
          client := s.client.set ci
            { c with renewal := inp.h.renewal_time, expire := inp.h.expire_time } }
      | cmd_t.CMD_STATUS =>
        { s with
          log := s.log ++ [sys_op.send_header c.fd
            { inp.h with
              test_interval := s.test_interval
              fire_timeout := s.fire_timeout
              last_keepalive := s.last_keepalive }] }
      | cmd_t.CMD_DUMP_DEBUG =>
        { s with
          client := s.client.set ci { c with name := strncpy_dump K }
          log := s.log ++ [sys_op.send_debug c.fd] }
      | cmd_t.other _ => s

/-- The function `process_signals(ci)`: `rv` is the result of the `read` from the
signal descriptor and `ssi_signo` the signal number read.  The `SIGHUP`
branch calls `setup_scripts()`, which changes the script table only. -/
def process_signals (rv : Int) (ssi_signo : Nat) (s : wdmd_state) : wdmd_state :=
  if rv ≠ sizeof_signalfd_siginfo then s
  else if ssi_signo = SIGTERM ∨ ssi_signo = SIGINT then
    if active_clients s.client = 0 then { s with daemon_quit := 1 } else s
  else s

/-! ## The test loop -/

/-- The condition under which `test_loop` leaves its loop:
`daemon_quit && !active_clients()`. -/
def test_loop_quits (s : wdmd_state) : Bool :=
  decide (s.daemon_quit ≠ 0) && decide (active_clients s.client = 0)

/-- What one test pass reads: the results of `test_files()` and `test_scripts()`
(they depend on the file system and on child processes), the clock value that
`test_clients` reads, the result of `open` if the device is reopened, and the
clock value that `pet_watchdog` or `close_watchdog_unclean` reads. -/
structure pass_input where
  test_files : Nat
  test_scripts : Nat
  t_clients : Nat
  open_fd : Int
  t_dev : Nat
deriving DecidableEq, Repr

/-- The sum `fail_count` of one test pass. -/
def pass_fail_count (inp : pass_input) (s : wdmd_state) : Nat :=
  0 + inp.test_files + inp.test_scripts + test_clients inp.t_clients s.client

/-- The body of the test pass of `test_loop`, from `fail_count = 0` on. -/
def test_pass (inp : pass_input) (s : wdmd_state) : wdmd_state :=
  let fail_count := pass_fail_count inp s
  if fail_count = 0 then
    let s1 :=
      if s.dev_fd = -1 then pet_watchdog inp.t_dev (open_dev inp.open_fd s).1
      else pet_watchdog inp.t_dev s
    { s1 with test_interval := DEFAULT_TEST_INTERVAL }
  else
    let s1 := close_watchdog_unclean inp.t_dev s
    { s1 with test_interval := RECOVER_TEST_INTERVAL }

/-- One iteration of `test_loop` after the clients have been served: the exit
test, then the test pass if the boundary is reached.  `t0` is the clock value
of the boundary test and `t1` the one stored in `test_time`.  The result is
`none` when the loop is left. -/
def test_loop_step (t0 t1 : Nat) (inp : pass_input) (s : wdmd_state) : Option wdmd_state :=
  if test_loop_quits s then none
  else if u64_sub t0 s.test_time ≥ u64_of_int s.test_interval then
    some (test_pass inp { s with test_time := t1 })
  else some s

/-! ## Specification-side definitions and sample values -/

/-- The failure test of one client in the words of the specification: the slot
is used, `expire` is not 0, and `now ≥ expire` or `now ≥ expire - TEST_INTERVAL`
with the subtraction taken over the integers. -/
def client_fails_spec (now : Nat) (c : client) : Bool :=
  decide (c.used ≠ 0 ∧ c.expire ≠ 0 ∧
    ((now : Int) ≥ (c.expire : Int) ∨ (now : Int) ≥ (c.expire : Int) - 10))

/-- The number of failed clients in the words of the specification. -/
def test_clients_spec (now : Nat) (cl : List client) : Nat :=
  cl.countP (client_fails_spec now)

/-- The failure test of one client as `test_clients` computes it. -/
def client_fails (t : Nat) (c : client) : Bool :=
  decide (c.used ≠ 0 ∧ c.expire ≠ 0 ∧
    (t ≥ c.expire ∨ t ≥ u64_sub c.expire DEFAULT_TEST_INTERVAL))

/-- A used slot of a connection, with the given descriptor, flags and times. -/
def sample_client (fd pid_dead refcount : Int) (renewal expire : Nat) : client :=
  { used := 1, fd := fd, pid := 4242, pid_dead := pid_dead, refcount := refcount,
    renewal := renewal, expire := expire,
    workfn := workfn_t.process_connection, deadfn := deadfn_t.client_pid_dead,
    name := [99, 49] }

/-- A daemon state with an open device and the given client table. -/
def sample_state (cl : List client) : wdmd_state :=
  { test_interval := 10, fire_timeout := 60, daemon_quit := 0, last_keepalive := 1000,
    last_closeunclean := 0, dev_fd := 3, watchdog_path := "/dev/watchdog0",
    client := cl, pollfd := cl.map (fun c => { fd := c.fd, events := 1, revents := 0 }),
    test_time := 1000, log := [] }

/-- The sizes of the released headers: names of 128 bytes, headers of 176. -/
def sample_h : wdmd_h := { WDMD_NAME_SIZE := 128, sizeof_wdmd_header := 176 }

/-- A complete `TEST_LIVE` message carrying the given times. -/
def sample_test_live (renewal_time expire_time : Nat) : conn_input :=
  { rv := 176,
    h := { cmd := cmd_t.CMD_TEST_LIVE, test_interval := 0, fire_timeout := 0,
           last_keepalive := 0, renewal_time := renewal_time, expire_time := expire_time,
           name := [] },
    peer_rv := 0, peer_pid := 4242 }


/-! ## Choosing the watchdog device -/

def WDPATH_SIZE : Nat := 64

/-- What the system calls of `_setup_watchdog` return for one device path: the
results of `stat` and `open`, the result of `WDIOC_GETTIMEOUT` with the timeout
it reports, and the result of `WDIOC_SETTIMEOUT` with the timeout the driver
stores back. -/
structure wd_probe where
  stat_rv : Int
  open_fd : Int
  get_rv : Int
  get_timeout : Int
  set_rv : Int
  set_timeout : Int
deriving DecidableEq, Repr

/-- The string that `strncpy(watchdog_path, path, WDPATH_SIZE)` followed by
`watchdog_path[WDPATH_SIZE - 1] = 0` leaves in `watchdog_path`. -/
def strncpy_path (path : String) : String :=
  ⟨path.data.take (WDPATH_SIZE - 1)⟩

/-- The function `_setup_watchdog(path)`; `env` gives the outcome of the system
calls on a device path.  The result is the state and the return value. -/
def _setup_watchdog (env : String → wd_probe) (path : String) (s : wdmd_state) :
    wdmd_state × Int :=
  let s1 := { s with watchdog_path := strncpy_path path }
  let p := env s1.watchdog_path
  let s2 := { s1 with log := s1.log ++ [sys_op.stat s1.watchdog_path] }
  if p.stat_rv < 0 then (s2, -1)
  else
    let o := open_dev p.open_fd s2
    if o.2 < 0 then (o.1, -1)
    else
      let s3 := { o.1 with log := o.1.log ++ [sys_op.ioctl_gettimeout o.1.dev_fd] }
      if p.get_rv < 0 then (close_watchdog s3, -1)
      else if p.get_timeout = s3.fire_timeout then (s3, 0)
      else
        let s4 :=
          { s3 with log := s3.log ++ [sys_op.ioctl_settimeout s3.dev_fd s3.fire_timeout] }
        if p.set_rv < 0 then (close_watchdog s4, -1)
        else if p.set_timeout ≠ s4.fire_timeout then (close_watchdog s4, -1)
        else (s4, 0)

/-- The part of `setup_watchdog` from the label `old` on. -/
def setup_watchdog_old (env : String → wd_probe) (saved_path option_path : String)
    (s : wdmd_state) : wdmd_state × Int :=
  if saved_path = "/dev/watchdog" ∨ option_path = "/dev/watchdog" then (s, -1)
  else
    let r := _setup_watchdog env "/dev/watchdog" s
    if r.2 = 0 then (r.1, 0) else (r.1, -1)

/-- The part of `setup_watchdog` from the label `one` on. -/
def setup_watchdog_one (env : String → wd_probe) (saved_path option_path : String)
    (s : wdmd_state) : wdmd_state × Int :=
  if saved_path = "/dev/watchdog1" ∨ option_path = "/dev/watchdog1" then
    setup_watchdog_old env saved_path option_path s
  else
    let r := _setup_watchdog env "/dev/watchdog1" s
    if r.2 = 0 then (r.1, 0) else setup_watchdog_old env saved_path option_path r.1

/-- The part of `setup_watchdog` from the label `zero` on. -/
def setup_watchdog_zero (env : String → wd_probe) (saved_path option_path : String)
    (s : wdmd_state) : wdmd_state × Int :=
  if saved_path = "/dev/watchdog0" ∨ option_path = "/dev/watchdog0" then
    setup_watchdog_one env saved_path option_path s
  else
    let r := _setup_watchdog env "/dev/watchdog0" s
    if r.2 = 0 then (r.1, 0) else setup_watchdog_one env saved_path option_path r.1

/-- The part of `setup_watchdog` from the label `opt` on. -/
def setup_watchdog_opt (env : String → wd_probe) (saved_path option_path : String)
    (s : wdmd_state) : wdmd_state × Int :=
  if option_path = "" ∨ saved_path = option_path then
    setup_watchdog_zero env saved_path option_path s
  else
    let r := _setup_watchdog env option_path s
    if r.2 = 0 then (r.1, 0) else setup_watchdog_zero env saved_path option_path r.1

/-- The function `setup_watchdog()`, with the global strings `saved_path` and
`option_path` as arguments. -/
def setup_watchdog (env : String → wd_probe) (saved_path option_path : String)
    (s : wdmd_state) : wdmd_state × Int :=
  if saved_path = "" then setup_watchdog_opt env saved_path option_path s
  else
    let r := _setup_watchdog env saved_path s
    if r.2 = 0 then (r.1, 0) else setup_watchdog_opt env saved_path option_path r.1

/-- The outcome of `_setup_watchdog` in the words of the specification: the
device opens and accepts `fire_timeout`. -/
def probe_ok (fire_timeout : Int) (p : wd_probe) : Bool :=
  decide (0 ≤ p.stat_rv ∧ 0 ≤ p.open_fd ∧ 0 ≤ p.get_rv ∧
    (p.get_timeout = fire_timeout ∨ (0 ≤ p.set_rv ∧ p.set_timeout = fire_timeout)))

/-- The order of preference of the specification: the saved path, the path of
the command line, then the three standard devices; an empty saved or
command-line path is left out. -/
def watchdog_candidates (saved_path option_path : String) : List String :=
  (if saved_path = "" then [] else [saved_path]) ++
  (if option_path = "" then [] else [option_path]) ++
  ["/dev/watchdog0", "/dev/watchdog1", "/dev/watchdog"]

/-- The device of the specification: the first candidate that is accepted. -/
def setup_watchdog_spec (env : String → wd_probe) (fire_timeout : Int)
    (saved_path option_path : String) : Option String :=
  (watchdog_candidates saved_path option_path).find? (fun p => probe_ok fire_timeout (env p))

/-- The paths on which `stat` has been called, in order. -/
def stat_paths : List sys_op → List String
  | [] => []
  | sys_op.stat p :: rest => p :: stat_paths rest
  | _ :: rest => stat_paths rest

/-- A device that reports the timeout 60 on `/dev/watchdog1` and does not exist
elsewhere. -/
def sample_env (path : String) : wd_probe :=
  if path = "/dev/watchdog1" then
    { stat_rv := 0, open_fd := 4, get_rv := 0, get_timeout := 60, set_rv := 0, set_timeout := 60 }
  else
    { stat_rv := -1, open_fd := -1, get_rv := -1, get_timeout := 0, set_rv := -1,
      set_timeout := 0 }


/-- Trying the paths of a list in order with `_setup_watchdog`, up to the first
success; -1 when every attempt fails. -/
def try_paths (env : String → wd_probe) : List String → wdmd_state → wdmd_state × Int
  | [], s => (s, -1)
  | p :: rest, s =>
    let r := _setup_watchdog env p s
    if r.2 = 0 then (r.1, 0) else try_paths env rest r.1

/-- The paths that `setup_watchdog` goes through: each of the five is left out
under the condition of the `goto` that jumps over it. -/
def watchdog_tries (saved_path option_path : String) : List String :=
  (if saved_path = "" then [] else [saved_path]) ++
  (if option_path = "" ∨ saved_path = option_path then [] else [option_path]) ++
  (if saved_path = "/dev/watchdog0" ∨ option_path = "/dev/watchdog0" then []
    else ["/dev/watchdog0"]) ++
  (if saved_path = "/dev/watchdog1" ∨ option_path = "/dev/watchdog1" then []
    else ["/dev/watchdog1"]) ++
  (if saved_path = "/dev/watchdog" ∨ option_path = "/dev/watchdog" then []
    else ["/dev/watchdog"])

/-- A list without the entries that occur in `seen` or earlier in the list. -/
def keep_first : List String → List String → List String
  | _, [] => []
  | seen, p :: rest =>
    if p ∈ seen then keep_first seen rest else p :: keep_first (p :: seen) rest


/-- The state in which `main` calls `setup_watchdog`: no device open, no path
chosen, `fire_timeout` 60. -/
def sample_start : wdmd_state :=
  { sample_state [] with dev_fd := -1, watchdog_path := "" }

/-- A sequence of test passes of `test_loop`, one input for each pass. -/
def run_passes : List pass_input → wdmd_state → wdmd_state
  | [], s => s
  | inp :: rest, s => run_passes rest (test_pass inp s)

/-- A test pass in which `test_files` and `test_scripts` report no failure and
every clock reading is `t`. -/
def sample_pass_at (t : Nat) : pass_input :=
  { test_files := 0, test_scripts := 0, t_clients := t, open_fd := 3, t_dev := t }

/-! ## Test scripts -/

/-- The size of the table `scripts`. -/
def MAX_SCRIPTS : Nat := 8

/-- The value of `EINTR` on Linux. -/
def EINTR : Int := 4

/-- The record `struct script_status`; `name` is the whole buffer of `PATH_MAX`
bytes. -/
structure script_status where
  start : Nat
  pid : Int
  last_result : Int
  run_count : Nat
  fail_count : Nat
  good_count : Nat
  kill_count : Nat
  long_count : Nat
  name : List Nat
deriving DecidableEq, Repr

/-- What `memset(&scripts[i], 0, sizeof(struct script_status))` leaves; `P` is
`PATH_MAX` of the system headers. -/
def script_zero (P : Nat) : script_status :=
  { start := 0, pid := 0, last_result := 0, run_count := 0, fail_count := 0,
    good_count := 0, kill_count := 0, long_count := 0, name := List.replicate P 0 }

/-- What `run_script(i)` meets in the daemon process: the result of `stat` on
the path of the script with its `errno`, the two tests on `st_mode`, and the
result of `fork` with its `errno`. -/
structure script_probe where
  stat_rv : Int
  stat_errno : Int
  is_reg : Bool
  is_xusr : Bool
  fork_rv : Int
  fork_errno : Int
deriving DecidableEq, Repr

/-- The function `check_path(path)`. -/
def check_path (p : script_probe) : Int :=
  if p.stat_rv < 0 then - p.stat_errno
  else if p.is_reg = false then -1
  else if p.is_xusr = false then -1
  else 0

/-- The function `run_script(i)` as it returns in the daemon process; the child
process that `fork` creates does not return from it: it becomes the script, or
leaves with `exit(EXIT_FAILURE)` when `execlp` fails. -/
def run_script (p : script_probe) : Int :=
  let rv := check_path p
  if rv < 0 then rv
  else if p.fork_rv < 0 then - p.fork_errno
  else p.fork_rv

/-- The state a child is reported in, as `WIFEXITED` with `WEXITSTATUS` and
`WIFSIGNALED` with `WTERMSIG` read it from `status`. -/
inductive wait_status where
  | exited (code : Nat)
  | signaled (sig : Nat)
  | other
deriving DecidableEq, Repr

/-- The result of one `waitpid(pid, &status, WNOHANG)`. -/
structure wait_result where
  rv : Int
  status : wait_status
deriving DecidableEq, Repr

/-- What one round of the waiting loop of `test_scripts` reads: for the script
of each index the answer of `waitpid` and the clock value of the kill test, and
the clock value of the test that ends the round. -/
structure wait_round where
  waitpid : Nat → wait_result
  t_kill : Nat → Nat
  t_end : Nat

/-- What one call of `test_scripts` reads: the clock value `begin`, what
`run_script(i)` meets for each index, and the rounds of the waiting loop. -/
structure scripts_input where
  begin : Nat
  probe : Nat → script_probe
  rounds : List wait_round

/-- The globals of the scripts, and the pids that were sent `SIGKILL`, in the
order of the calls of `kill`. -/
structure scripts_state where
  allow_scripts : Int
  kill_script_sec : Int
  scripts : List script_status
  kills : List Int
deriving DecidableEq, Repr

/-- The body of the first loop of `test_scripts` for the script of index `i`. -/
def start_script (P : Nat) (inp : scripts_input) (i : Nat) (sc : script_status) :
    script_status :=
  if sc.name.headD 0 = 0 then sc
  else if sc.pid ≠ 0 then sc
  else if sc.last_result = 0 ∧ u64_sub inp.begin sc.start < DEFAULT_TEST_INTERVAL - 1 then sc
  else
    let pid := run_script (inp.probe i)
    if pid ≤ 0 then script_zero P
    else { sc with pid := pid, start := inp.begin, run_count := (sc.run_count + 1) % 2 ^ 32 }

/-- The first loop of `test_scripts`, over the entries from index `i` on. -/
def start_loop (P : Nat) (inp : scripts_input) : Nat → List script_status → List script_status
  | _, [] => []
  | i, sc :: rest => start_script P inp i sc :: start_loop P inp (i + 1) rest

/-- The locals `running` and `fail_count` of `test_scripts`, with the pids sent
`SIGKILL`. -/
structure wait_acc where
  running : Nat
  fail_count : Nat
  kills : List Int
deriving DecidableEq, Repr

/-- The body of the inner loop of the waiting loop for one script: `w` is the
answer of `waitpid` and `t_kill` the clock value of the kill test. -/
def wait_script (kill_script_sec : Int) (w : wait_result) (t_kill : Nat)
    (sc : script_status) (a : wait_acc) : script_status × wait_acc :=
  if sc.name.headD 0 = 0 then (sc, a)
  else if sc.pid = 0 then (sc, a)
  else
    let r : script_status × wait_acc :=
      if w.rv < 0 then (sc, { a with running := a.running + 1 })
      else if w.rv = 0 then (sc, { a with running := a.running + 1 })
      else if w.rv = sc.pid then
        match w.status with
        | wait_status.exited code =>
          if code ≠ 0 then
            ({ sc with
               fail_count := (sc.fail_count + 1) % 2 ^ 32, last_result := code, pid := 0 },
             { a with fail_count := a.fail_count + 1 })
          else
            ({ sc with
               good_count := (sc.good_count + 1) % 2 ^ 32, last_result := 0, pid := 0 }, a)
        | wait_status.signaled _ =>
          ({ sc with
             kill_count := (sc.kill_count + 1) % 2 ^ 32, last_result := EINTR, pid := 0 },
           { a with fail_count := a.fail_count + 1 })
        | wait_status.other => (sc, { a with running := a.running + 1 })
      else (sc, { a with running := a.running + 1 })
    if r.1.pid ≠ 0 ∧ kill_script_sec ≠ 0 ∧
        u64_sub t_kill r.1.start ≥ u64_of_int kill_script_sec then
      (r.1, { r.2 with kills := r.2.kills ++ [r.1.pid] })
    else r

/-- The inner loop of the waiting loop, over the entries from index `i` on. -/
def wait_round_loop (kill_script_sec : Int) (r : wait_round) :
    Nat → List script_status → wait_acc → List script_status × wait_acc
  | _, [], a => ([], a)
  | i, sc :: rest, a =>
    let x := wait_script kill_script_sec (r.waitpid i) (r.t_kill i) sc a
    let y := wait_round_loop kill_script_sec r (i + 1) rest x.2
    (x.1 :: y.1, y.2)

/-- The waiting loop `while (1)` of `test_scripts`, one element of the list for
each round; the result is `none` when the rounds given end before the loop
does. -/
def wait_loop (kill_script_sec : Int) (begin : Nat) :
    List wait_round → List script_status → wait_acc → Option (List script_status × wait_acc)
  | [], _, _ => none
  | r :: rest, scripts, a =>
    let x := wait_round_loop kill_script_sec r 0 scripts { a with running := 0 }
    if x.2.running = 0 then some x
    else if u64_sub r.t_end begin ≥ DEFAULT_TEST_INTERVAL - 1 then some x
    else wait_loop kill_script_sec begin rest x.1 x.2

/-- The body of the last loop of `test_scripts` for one script. -/
def long_script (sc : script_status) (fail_count : Nat) : script_status × Nat :=
  if sc.name.headD 0 = 0 then (sc, fail_count)
  else if sc.pid = 0 then (sc, fail_count)
  else ({ sc with long_count := (sc.long_count + 1) % 2 ^ 32 }, fail_count + 1)

/-- The last loop of `test_scripts`. -/
def long_loop : List script_status → Nat → List script_status × Nat
  | [], fail_count => ([], fail_count)
  | sc :: rest, fail_count =>
    let x := long_script sc fail_count
    let y := long_loop rest x.2
    (x.1 :: y.1, y.2)

/-- The function `test_scripts()`: the new state and the returned `fail_count`.
The table `scripts` is the list of its entries. -/
def test_scripts (P : Nat) (inp : scripts_input) (s : scripts_state) :
    Option (scripts_state × Nat) :=
  if s.allow_scripts = 0 then some (s, 0)
  else
    let started := start_loop P inp 0 s.scripts
    match wait_loop s.kill_script_sec inp.begin inp.rounds started
        { running := 0, fail_count := 0, kills := s.kills } with
    | none => none
    | some x =>
      if x.2.running = 0 then
        some ({ s with scripts := x.1, kills := x.2.kills }, x.2.fail_count)
      else
        let y := long_loop x.1 x.2.fail_count
        some ({ s with scripts := y.1, kills := x.2.kills }, y.2)

/-- The value of `PATH_MAX` on Linux. -/
def sample_path_max : Nat := 4096

/-- A registered script `chk` that is not running and last failed. -/
def sample_script : script_status :=
  { start := 990, pid := 0, last_result := 1, run_count := 3, fail_count := 1,
    good_count := 2, kill_count := 0, long_count := 0,
    name := [99, 104, 107] ++ List.replicate 4093 0 }

/-- A table with `sample_script` in its first entry and scripts allowed. -/
def sample_scripts : scripts_state :=
  { allow_scripts := 1, kill_script_sec := 0,
    scripts := sample_script :: List.replicate 7 (script_zero sample_path_max), kills := [] }

/-- A script file that `stat` does not find (`ENOENT`). -/
def sample_probe_missing : script_probe :=
  { stat_rv := -1, stat_errno := 2, is_reg := false, is_xusr := false,
    fork_rv := 0, fork_errno := 0 }

/-- A script file that is started as the process 501. -/
def sample_probe_started : script_probe :=
  { stat_rv := 0, stat_errno := 0, is_reg := true, is_xusr := true,
    fork_rv := 501, fork_errno := 0 }

/-- A round in which `waitpid` reports for every script that the child 501 has
left with the exit status `code`, read at the time `t`. -/
def sample_round (code t : Nat) : wait_round :=
  { waitpid := fun _ => { rv := 501, status := wait_status.exited code },
    t_kill := fun _ => t, t_end := t }

/-- A call of `test_scripts` at the time 1000 with the given findings of
`run_script` and one round of waiting. -/
def sample_scripts_input (p : script_probe) : scripts_input :=
  { begin := 1000, probe := fun _ => p, rounds := [sample_round 1 1000] }

/-- The part of a test pass of `test_loop` from `test_scripts()` on: the count
that `test_scripts` returns is the one the pass adds to its `fail_count`. -/
def test_pass_scripts (P : Nat) (si : scripts_input) (inp : pass_input)
    (ss : scripts_state) (s : wdmd_state) : Option (scripts_state × wdmd_state) :=
  (test_scripts P si ss).map
    (fun r => (r.1, test_pass { inp with test_scripts := r.2 } s))

end Wdmd

namespace SanlkReset

/-! ## Data model of `reset/sanlk_reset.c` -/

def MAX_LS : Nat := 64
def NATIVE_TIMEOUT_SECONDS : Int := 90
def NATIVE_RENEWAL_SECONDS : Int := 70

/-- The host state constants of `sanlock.h` that `reset_done` uses.  The header
is not part of the sources at hand, so the values are parameters. -/
structure sanlock_h where
  SANLK_HOST_MASK : Nat
  SANLK_HOST_FREE : Nat
  SANLK_HOST_DEAD : Nat
deriving DecidableEq, Repr

/-- The fields of `struct sanlk_host` that `reset_done` reads. -/
structure sanlk_host where
  host_id : Nat
  generation : Nat
  timestamp : Nat
  io_timeout : Nat
  flags : Nat
deriving DecidableEq, Repr

/-- What a call of `sanlock_get_hosts` hands back: the return value, the pointer
`hs` (`none` for `NULL`, otherwise the first record) and `hs_count`. -/
structure hosts_reply where
  rv : Int
  hs : Option sanlk_host
  hs_count : Int
deriving DecidableEq, Repr

/-- Entry `i` of the parallel arrays `ls_names`, `ls_hostids`, `ls_fd`, ... and
of `pollfd`, put together in one record; `ls_names` is `none` for `NULL`. -/
structure ls_slot where
  ls_names : Option String
  ls_hostids : Int
  ls_fd : Int
  ls_resetting_begin_timestamp : Nat
  ls_resetting_begin_local : Nat
  ls_timestamp : Nat
  ls_host_flags : Nat
  ls_is_resetting : Int
  ls_is_dead : Int
  ls_is_free : Int
  ls_renewals : Int
  pollfd : pollfd_t
deriving DecidableEq, Repr

/-- The global variables of the program that the modelled functions use; `ls`
holds the `MAX_LS` entries of the per-lockspace arrays. -/
structure reset_state where
  begin : Nat
  resource_mode : Int
  native_timeout : Int
  native_renewal : Int
  watchdog_failed_to_fire : Int
  ls_count : Int
  ls : List ls_slot
deriving DecidableEq, Repr

/-- What a pass of `reset_done` reads: the answer of `sanlock_get_hosts` for
entry `i`, and the value `monotime()` returns in the native timeout check of
entry `i`. -/
structure done_input where
  get_hosts : Nat → hosts_reply
  now : Nat → Nat

/-! ## `reset_done` -/

/-- The body of the first loop of `reset_done` for one entry; the second
component is `native_timeout`. -/
def get_hosts_step (r : hosts_reply) (sl : ls_slot) (native_timeout : Int) : ls_slot × Int :=
  match sl.ls_names with
  | none => (sl, native_timeout)
  | some _ =>
    if r.rv < 0 then (sl, native_timeout)
    else
      match r.hs with
      | none => (sl, native_timeout)
      | some hs =>
        if r.hs_count ≠ 1 then (sl, native_timeout)
        else if hs.host_id ≠ u64_of_int sl.ls_hostids then (sl, native_timeout)
        else
          let sl1 :=
            if sl.ls_timestamp ≠ 0 ∧ sl.ls_timestamp ≠ hs.timestamp then
              { sl with ls_renewals := sl.ls_renewals + 1 }
            else sl
          let sl2 := { sl1 with ls_timestamp := hs.timestamp, ls_host_flags := hs.flags }
          if hs.timestamp ≠ 0 ∧ hs.io_timeout ≠ 10 ∧ native_timeout ≠ 0 then (sl2, 0)
          else (sl2, native_timeout)

/-- The first loop of `reset_done`, from entry `i` on. -/
def get_hosts_loop (inp : done_input) : Nat → List ls_slot → Int → List ls_slot × Int
  | _, [], native_timeout => ([], native_timeout)
  | i, sl :: rest, native_timeout =>
    let r := get_hosts_step (inp.get_hosts i) sl native_timeout
    let r2 := get_hosts_loop inp (i + 1) rest r.2
    (r.1 :: r2.1, r2.2)

/-- The outcome of the native timeout loop so far: the two variables
`watchdog_failed_to_fire` and `is_done`. -/
structure native_acc where
  watchdog_failed_to_fire : Int
  is_done : Int
deriving DecidableEq, Repr

/-- The body of the native timeout loop of `reset_done` for one entry; `now` is
the value of `monotime()`. -/
def native_timeout_step (now : Nat) (native_timeout native_renewal : Int) (sl : ls_slot)
    (acc : native_acc) : ls_slot × native_acc :=
  match sl.ls_names with
  | none => (sl, acc)
  | some _ =>
    if sl.ls_is_resetting = 0 then (sl, acc)
    else
      let sl1 :=
        if sl.ls_resetting_begin_local = 0 then
          { sl with
            ls_resetting_begin_timestamp := sl.ls_timestamp
            ls_resetting_begin_local := now }
        else sl
      if u64_sub now sl1.ls_resetting_begin_local > u64_of_int native_timeout then
        if u64_sub sl1.ls_timestamp sl1.ls_resetting_begin_timestamp
            > u64_of_int native_renewal then
          (sl1, { acc with watchdog_failed_to_fire := 1 })
        else (sl1, { acc with is_done := 1 })
      else (sl1, acc)

/-- The native timeout loop of `reset_done`, from entry `i` on. -/
def native_timeout_loop (inp : done_input) (native_timeout native_renewal : Int) :
    Nat → List ls_slot → native_acc → List ls_slot × native_acc
  | _, [], acc => ([], acc)
  | i, sl :: rest, acc =>
    let r := native_timeout_step (inp.now i) native_timeout native_renewal sl acc
    let r2 := native_timeout_loop inp native_timeout native_renewal (i + 1) rest r.2
    (r.1 :: r2.1, r2.2)

/-- The body of the host status loop of `reset_done` for one entry; the second
component is `is_done`. -/
def host_status_step (K : sanlock_h) (resource_mode : Int) (sl : ls_slot) (is_done : Int) :
    ls_slot × Int :=
  match sl.ls_names with
  | none => (sl, is_done)
  | some _ =>
    let state := sl.ls_host_flags &&& K.SANLK_HOST_MASK
    let sl1 :=
      if state = K.SANLK_HOST_DEAD ∧ sl.ls_is_dead = 0 then { sl with ls_is_dead := 1 } else sl
    let sl2 :=
      if state = K.SANLK_HOST_FREE ∧ sl1.ls_is_free = 0 then { sl1 with ls_is_free := 1 }
      else sl1
    let d1 := if resource_mode ≠ 0 ∧ sl2.ls_is_dead ≠ 0 then 1 else is_done
    let d2 :=
      if resource_mode = 0 ∧ sl2.ls_is_dead ≠ 0 ∧ sl2.ls_is_resetting ≠ 0 then 1 else d1
    (sl2, d2)

/-- The host status loop of `reset_done`. -/
def host_status_loop (K : sanlock_h) (resource_mode : Int) :
    List ls_slot → Int → List ls_slot × Int
  | [], is_done => ([], is_done)
  | sl :: rest, is_done =>
    let r := host_status_step K resource_mode sl is_done
    let r2 := host_status_loop K resource_mode rest r.2
    (r.1 :: r2.1, r2.2)

/-- The part of `reset_done` from the label `check_host_status` on. -/
def check_host_status (K : sanlock_h) (s : reset_state) (is_done : Int) : reset_state × Int :=
  let r := host_status_loop K s.resource_mode s.ls is_done
  ({ s with ls := r.1 }, r.2)

/-- The function `reset_done()`: the state it leaves and its return value. -/
def reset_done (K : sanlock_h) (inp : done_input) (s : reset_state) : reset_state × Int :=
  let r1 := get_hosts_loop inp 0 s.ls s.native_timeout
  let s1 := { s with ls := r1.1, native_timeout := r1.2 }
  if s1.native_timeout = 0 then check_host_status K s1 0
  else
    let r2 := native_timeout_loop inp s1.native_timeout s1.native_renewal 0 s1.ls
      { watchdog_failed_to_fire := s1.watchdog_failed_to_fire, is_done := 0 }
    let s2 := { s1 with ls := r2.1, watchdog_failed_to_fire := r2.2.watchdog_failed_to_fire }
    if s2.watchdog_failed_to_fire ≠ 0 then (s2, 0)
    else check_host_status K s2 r2.2.is_done

/-! ## `reset_fail` -/

/-- The two counters `cmd_fail` and `cmd_wait` of `reset_fail`. -/
structure fail_acc where
  cmd_fail : Int
  cmd_wait : Int
deriving DecidableEq, Repr

/-- The body of the loop of `reset_fail` for one entry; `now` is the value of
`monotime()` and `begin` the start of the operation. -/
def reset_fail_step (now begin : Nat) (sl : ls_slot) (acc : fail_acc) : fail_acc :=
  match sl.ls_names with
  | none => acc
  | some _ =>
    if sl.ls_is_resetting ≠ 0 then
      if u64_sub now begin > 300 then { acc with cmd_fail := acc.cmd_fail + 1 }
      else { acc with cmd_wait := acc.cmd_wait + 1 }
    else if sl.ls_is_dead ≠ 0 then { acc with cmd_fail := acc.cmd_fail + 1 }
    else if sl.ls_is_free ≠ 0 then { acc with cmd_fail := acc.cmd_fail + 1 }
    else if sl.ls_renewals ≥ 4 then { acc with cmd_fail := acc.cmd_fail + 1 }
    else { acc with cmd_wait := acc.cmd_wait + 1 }

/-- The loop of `reset_fail`, from entry `i` on; `now i` is the value
`monotime()` returns for entry `i`. -/
def reset_fail_loop (now : Nat → Nat) (begin : Nat) : Nat → List ls_slot → fail_acc → fail_acc
  | _, [], acc => acc
  | i, sl :: rest, acc =>
    reset_fail_loop now begin (i + 1) rest (reset_fail_step (now i) begin sl acc)

/-- The function `reset_fail()`. -/
def reset_fail (now : Nat → Nat) (s : reset_state) : Int :=
  if s.watchdog_failed_to_fire ≠ 0 then 1
  else
    let acc := reset_fail_loop now s.begin 0 s.ls { cmd_fail := 0, cmd_wait := 0 }
    if acc.cmd_fail ≠ 0 ∧ ¬ (acc.cmd_wait ≠ 0) then 1 else 0

/-- The verdict of the loop body of `reset_fail` for an open entry: `FAIL` when it
increments `cmd_fail`, `WAIT` when it increments `cmd_wait`. -/
inductive ls_verdict where
  | FAIL
  | WAIT
deriving DecidableEq, Repr

/-- The branch the loop body of `reset_fail` takes for an open entry. -/
def ls_classify (now begin : Nat) (sl : ls_slot) : ls_verdict :=
  if sl.ls_is_resetting ≠ 0 then
    if u64_sub now begin > 300 then ls_verdict.FAIL else ls_verdict.WAIT
  else if sl.ls_is_dead ≠ 0 then ls_verdict.FAIL
  else if sl.ls_is_free ≠ 0 then ls_verdict.FAIL
  else if sl.ls_renewals ≥ 4 then ls_verdict.FAIL
  else ls_verdict.WAIT

/-! ## Sample values -/

/-- The values of the released `sanlock.h`. -/
def sample_K : sanlock_h :=
  { SANLK_HOST_MASK := 15, SANLK_HOST_FREE := 2, SANLK_HOST_DEAD := 5 }

/-- An entry that is not in use: `ls_names[i]` is `NULL`. -/
def closed_slot : ls_slot :=
  { ls_names := none, ls_hostids := 0, ls_fd := -1, ls_resetting_begin_timestamp := 0,
    ls_resetting_begin_local := 0, ls_timestamp := 0, ls_host_flags := 0,
    ls_is_resetting := 0, ls_is_dead := 0, ls_is_free := 0, ls_renewals := 0,
    pollfd := { fd := -1, events := 0, revents := 0 } }

/-- An open channel to host 2 with the given flags, counters and times. -/
def sample_slot (resetting dead renewals : Int) (begin_local begin_timestamp timestamp
    host_flags : Nat) : ls_slot :=
  { ls_names := some "ls1", ls_hostids := 2, ls_fd := 7,
    ls_resetting_begin_timestamp := begin_timestamp,
    ls_resetting_begin_local := begin_local, ls_timestamp := timestamp,
    ls_host_flags := host_flags, ls_is_resetting := resetting, ls_is_dead := dead,
    ls_is_free := 0, ls_renewals := renewals,
    pollfd := { fd := 7, events := 1, revents := 0 } }

/-- The `MAX_LS` entries: the given open channels, then unused entries. -/
def sample_ls (open_slots : List ls_slot) : List ls_slot :=
  open_slots ++ List.replicate (MAX_LS - open_slots.length) closed_slot

/-- A state of the program that started at time 1000. -/
def sample_reset (resource_mode native_timeout : Int) (open_slots : List ls_slot) :
    reset_state :=
  { begin := 1000, resource_mode := resource_mode, native_timeout := native_timeout,
    native_renewal := NATIVE_RENEWAL_SECONDS, watchdog_failed_to_fire := 0,
    ls_count := open_slots.length, ls := sample_ls open_slots }

/-- A pass in which every `sanlock_get_hosts` call answers with one record of
host 2 that has the given timestamp and flags, and the clock reads `now`. -/
def sample_pass (timestamp flags now : Nat) : done_input :=
  { get_hosts := fun _ =>
      { rv := 0,
        hs := some { host_id := 2, generation := 1, timestamp := timestamp,
                     io_timeout := 10, flags := flags },
        hs_count := 1 },
    now := fun _ => now }

/-- A pass in which every `sanlock_get_hosts` call fails. -/
def sample_pass_error (now : Nat) : done_input :=
  { get_hosts := fun _ => { rv := -1, hs := none, hs_count := 0 },
    now := fun _ => now }


/-! ## Events and the poll loop of `main` -/

/-- The event bits of `sanlk_reset.h`.  The header is not part of the sources at
hand, so the values are parameters. -/
structure sanlk_reset_h where
  EVENT_RESET : Nat
  EVENT_RESETTING : Nat
  EVENT_REBOOT : Nat
  EVENT_REBOOTING : Nat
deriving DecidableEq, Repr

/-- The value of `EAGAIN` in `<errno.h>` on Linux. -/
def EAGAIN : Int := 11

/-- Values of `<poll.h>` on Linux. -/
def POLLIN : Nat := 1
def POLLERR : Nat := 8
def POLLHUP : Nat := 16
def POLLNVAL : Nat := 32

def EXIT_SUCCESS : Int := 0
def EXIT_FAILURE : Int := 1

/-- Conversion of a `uint64_t` to `int`: the low 32 bits, read as signed. -/
def int_of_u64 (x : Nat) : Int :=
  if x % 2 ^ 32 < 2 ^ 31 then (x % 2 ^ 32 : Nat) else (x % 2 ^ 32 : Nat) - 2 ^ 32

/-- What a call of `sanlock_get_event` hands back: the return value, the event
word and the sender. -/
structure event_reply where
  rv : Int
  event : Nat
  data : Nat
  from_host : Nat
  from_gen : Nat
deriving DecidableEq, Repr

/-- The function `unregister_ls(i)`. -/
def unregister_ls (i : Nat) (s : reset_state) : reset_state :=
  match s.ls[i]? with
  | none => s
  | some sl =>
    { s with
      ls := s.ls.set i
        { sl with ls_names := none, ls_fd := -1, pollfd := { sl.pollfd with fd := -1, events := 0 } }
      ls_count := s.ls_count - 1 }

/-- The loop of `get_events(i)`.  The list holds the answers of the successive
`sanlock_get_event` calls; after the last of them the call answers `-EAGAIN`. -/
def get_events_loop (E : sanlk_reset_h) (i : Nat) : List event_reply → reset_state → reset_state
  | [], s => s
  | r :: rest, s =>
    if r.rv = -EAGAIN then s
    else if r.rv < 0 then unregister_ls i s
    else
      match s.ls[i]? with
      | none => get_events_loop E i rest s
      | some sl =>
        let resetting := int_of_u64 (r.event &&& E.EVENT_RESETTING)
        let rebooting := int_of_u64 (r.event &&& E.EVENT_REBOOTING)
        if r.from_host = u64_of_int sl.ls_hostids ∧ (resetting ≠ 0 ∨ rebooting ≠ 0) then
          if resetting ≠ 0 then
            get_events_loop E i rest { s with ls := s.ls.set i { sl with ls_is_resetting := 1 } }
          else get_events_loop E i rest s
        else get_events_loop E i rest s

/-- The function `get_events(i)`. -/
def get_events (E : sanlk_reset_h) (i : Nat) (replies : List event_reply) (s : reset_state) :
    reset_state :=
  get_events_loop E i replies s

/-- What one pass of the poll loop of `main` reads: the result of `poll` (with
`errno == EINTR` or not) and the `revents` it stores for entry `i`, the input of
`reset_done`, the clock values of `reset_fail`, and the answers of
`sanlock_get_event` on channel `i`. -/
structure loop_input where
  poll_rv : Int
  poll_eintr : Bool
  revents : Nat → Nat
  done_in : done_input
  fail_now : Nat → Nat
  events : Nat → List event_reply

/-- The body of the last loop of a pass of `main` for entry `i`. -/
def dispatch_step (E : sanlk_reset_h) (inp : loop_input) (i : Nat) (s : reset_state) :
    reset_state :=
  match s.ls[i]? with
  | none => s
  | some sl =>
    if sl.pollfd.fd < 0 then s
    else
      let s1 := if inp.revents i &&& POLLIN ≠ 0 then get_events E i (inp.events i) s else s
      if inp.revents i &&& (POLLERR ||| POLLHUP ||| POLLNVAL) ≠ 0 then unregister_ls i s1
      else s1

/-- The last loop of a pass of `main`, over the entries `i`, `i + 1`, ... -/
def dispatch_loop (E : sanlk_reset_h) (inp : loop_input) : List Nat → reset_state → reset_state
  | [], s => s
  | i :: rest, s => dispatch_loop E inp rest (dispatch_step E inp i s)

/-- One pass of the poll loop of `main`: the state it leaves, and the exit status
when the loop is left in this pass (`none` when the loop goes on).  The loop is
left with `done` set after `reset_done` returned non-zero, and with `done = 0`
after `reset_fail` returned non-zero or `poll` failed; `main` then exits with
`EXIT_SUCCESS` if `done` is set and `EXIT_FAILURE` otherwise. -/
def main_pass (K : sanlock_h) (E : sanlk_reset_h) (inp : loop_input) (s : reset_state) :
    reset_state × Option Int :=
  if inp.poll_rv = -1 ∧ inp.poll_eintr = true then (s, none)
  else if inp.poll_rv < 0 then (s, some EXIT_FAILURE)
  else
    let d := reset_done K inp.done_in s
    if d.2 ≠ 0 then (d.1, some EXIT_SUCCESS)
    else if reset_fail inp.fail_now d.1 ≠ 0 then (d.1, some EXIT_FAILURE)
    else (dispatch_loop E inp (List.range MAX_LS) d.1, none)

/-- One step of the operation, as far as the per-lockspace state goes: a call of
`reset_done`, of `reset_fail`, of `get_events(i)` or of `unregister_ls(i)`. -/
inductive reset_op where
  | done (inp : done_input)
  | fail (now : Nat → Nat)
  | events (i : Nat) (replies : List event_reply)
  | unregister (i : Nat)

/-- The state after one step; `reset_fail` only reads the state. -/
def run_op (K : sanlock_h) (E : sanlk_reset_h) (op : reset_op) (s : reset_state) : reset_state :=
  match op with
  | reset_op.done inp => (reset_done K inp s).1
  | reset_op.fail _ => s
  | reset_op.events i replies => get_events E i replies s
  | reset_op.unregister i => unregister_ls i s

/-- The state after a sequence of steps. -/
def run_ops (K : sanlock_h) (E : sanlk_reset_h) : List reset_op → reset_state → reset_state
  | [], s => s
  | op :: rest, s => run_ops K E rest (run_op K E op s)

/-- The event bits of the released `sanlk_reset.h`. -/
def sample_E : sanlk_reset_h :=
  { EVENT_RESET := 1, EVENT_RESETTING := 2, EVENT_REBOOT := 4, EVENT_REBOOTING := 8 }

/-- A pass in which `sanlock_get_hosts` answers for host 2 with the given
timestamp, `io_timeout` and flags. -/
def sample_pass_io (timestamp io_timeout flags now : Nat) : done_input :=
  { get_hosts := fun _ =>
      { rv := 0,
        hs := some { host_id := 2, generation := 1, timestamp := timestamp,
                     io_timeout := io_timeout, flags := flags },
        hs_count := 1 },
    now := fun _ => now }


/-- The entry that the body of the native timeout loop leaves: the first time it
sees an open channel with `ls_is_resetting` set and `ls_resetting_begin_local`
zero, it records the timestamp and the clock. -/
def native_begin (now : Nat) (sl : ls_slot) : ls_slot :=
  if sl.ls_names ≠ none ∧ sl.ls_is_resetting ≠ 0 ∧ sl.ls_resetting_begin_local = 0 then
    { sl with
      ls_resetting_begin_timestamp := sl.ls_timestamp
      ls_resetting_begin_local := now }
  else sl


/-- The fields of an entry that neither `get_events` nor `unregister_ls` writes:
`ls_hostids`, `ls_resetting_begin_timestamp`, `ls_resetting_begin_local`,
`ls_timestamp`, `ls_host_flags`, `ls_is_dead`, `ls_is_free`, `ls_renewals`. -/
def ls_kept (sl : ls_slot) : Int × Nat × Nat × Nat × Nat × Int × Int × Int :=
  (sl.ls_hostids, sl.ls_resetting_begin_timestamp, sl.ls_resetting_begin_local,
    sl.ls_timestamp, sl.ls_host_flags, sl.ls_is_dead, sl.ls_is_free, sl.ls_renewals)


/-- A pass of the poll loop in which `poll` returns 0 and no event is pending. -/
def sample_loop (d : done_input) : loop_input :=
  { poll_rv := 0, poll_eintr := false, revents := fun _ => 0, done_in := d,
    fail_now := d.now, events := fun _ => [] }


/-- The number of renewals that a sequence of observed timestamps adds to
`ls_renewals`, from the timestamp stored before: one for every observation that
differs from a non-zero timestamp stored by the one before it. -/
def count_renewals : Nat → List Nat → Nat
  | _, [] => 0
  | stored, t :: rest => (if stored ≠ 0 ∧ stored ≠ t then 1 else 0) + count_renewals t rest


/-- A record of host 2 with the given timestamp, `io_timeout` and flags. -/
def sample_host (timestamp io_timeout flags : Nat) : sanlk_host :=
  { host_id := 2, generation := 1, timestamp := timestamp, io_timeout := io_timeout,
    flags := flags }

/-- The answers that `get_events` gets to process: those before the first
answer that is `-EAGAIN` or another error. -/
def drained_events (rs : List event_reply) : List event_reply :=
  rs.takeWhile (fun r => decide (0 ≤ r.rv))

/-- An event from the host `hostid` that has the bit `EVENT_RESETTING`, in the
words of the specification. -/
def resetting_reply (E : sanlk_reset_h) (hostid : Int) (r : event_reply) : Bool :=
  decide (r.from_host = u64_of_int hostid ∧ r.event &&& E.EVENT_RESETTING ≠ 0)

/-- A channel to host 2 on which two events wait: one from host 3 with
`RESETTING`, one from host 2 with `REBOOTING` only. -/
def sample_other_events : List event_reply :=
  [{ rv := 0, event := 2, data := 0, from_host := 3, from_gen := 1 },
   { rv := 0, event := 8, data := 0, from_host := 2, from_gen := 1 },
   { rv := -11, event := 0, data := 0, from_host := 0, from_gen := 0 }]

/-- A `RESETTING` event from host 2, then `-EAGAIN`. -/
def sample_resetting_events : List event_reply :=
  [{ rv := 0, event := 2, data := 0, from_host := 2, from_gen := 1 },
   { rv := -11, event := 0, data := 0, from_host := 0, from_gen := 0 }]
/-- A pass of the poll loop in which `poll` reports entry 0 readable and the
given events wait on it. -/
def sample_loop_events (d : done_input) (events : List event_reply) : loop_input :=
  { poll_rv := 1, poll_eintr := false, revents := fun i => if i = 0 then POLLIN else 0,
    done_in := d, fail_now := d.now, events := fun i => if i = 0 then events else [] }
/-! ## Posting the reset event -/

/-- The flag of `sanlock_admin.h` that `main` passes to `sanlock_set_event`.  The
header is not part of the sources at hand, so the value is a parameter. -/
structure sanlock_admin_h where
  SANLK_SETEV_CUR_GENERATION : Nat
deriving DecidableEq, Repr

/-- The record `struct sanlk_host_event`. -/
structure sanlk_host_event where
  host_id : Nat
  generation : Nat
  event : Nat
  data : Nat
deriving DecidableEq, Repr

/-- A call `sanlock_set_event(ls_name, &he, flags)`. -/
structure set_event_call where
  ls_name : String
  he : sanlk_host_event
  flags : Nat
deriving DecidableEq, Repr

/-- The event word that `main` builds from `use_watchdog` and
`use_sysrq_reboot`. -/
def reset_event (E : sanlk_reset_h) (use_watchdog use_sysrq_reboot : Int) : Nat :=
  let e1 := if use_watchdog ≠ 0 then 0 ||| E.EVENT_RESET else 0
  if use_sysrq_reboot ≠ 0 then e1 ||| E.EVENT_REBOOT else e1

/-- The body of the loop of `main` that posts the event, for entry `i`: `rv` is
what `sanlock_set_event` returns.  The calls made are collected in the second
component. -/
def set_event_step (A : sanlock_admin_h) (event target_generation : Nat) (rv : Int)
    (i : Nat) (st : reset_state × List set_event_call) : reset_state × List set_event_call :=
  match st.1.ls[i]? with
  | none => st
  | some sl =>
    match sl.ls_names with
    | none => st
    | some nm =>
      if sl.ls_fd = -1 then st
      else
        let he : sanlk_host_event :=
          { host_id := u64_of_int sl.ls_hostids, generation := target_generation,
            event := event, data := 0 }
        let flags := if target_generation ≠ 0 then A.SANLK_SETEV_CUR_GENERATION else 0
        let call : set_event_call := { ls_name := nm, he := he, flags := flags }
        if rv < 0 then (unregister_ls i st.1, st.2 ++ [call])
        else (st.1, st.2 ++ [call])

/-- The loop of `main` that posts the event, over the entries of the list. -/
def set_event_loop (A : sanlock_admin_h) (event target_generation : Nat) (rv : Nat → Int) :
    List Nat → reset_state × List set_event_call → reset_state × List set_event_call
  | [], st => st
  | i :: rest, st =>
    set_event_loop A event target_generation rv rest
      (set_event_step A event target_generation (rv i) i st)

/-- The part of `main` that posts the event in every registered lockspace: the
state afterwards and the calls of `sanlock_set_event`, in order. -/
def post_events (A : sanlock_admin_h) (E : sanlk_reset_h) (use_watchdog use_sysrq_reboot : Int)
    (target_generation : Nat) (rv : Nat → Int) (s : reset_state) :
    reset_state × List set_event_call :=
  set_event_loop A (reset_event E use_watchdog use_sysrq_reboot) target_generation rv
    (List.range MAX_LS) (s, [])

/-- The value of the released `sanlock_admin.h`. -/
def sample_A : sanlock_admin_h := { SANLK_SETEV_CUR_GENERATION := 1 }

end SanlkReset

namespace Client

/-! ## Path strings of `src/client.c`

A `char *` argument is the list of the bytes from the pointer on; the string it
holds ends at the first NUL byte (or at the end of the list).  The bytes are
natural numbers: 92 is the backslash, 32 the space, 58 the colon. -/

/-- The string held in a buffer: the bytes before the first NUL. -/
def cstr (buf : List Nat) : List Nat := buf.takeWhile (fun b => b ≠ 0)

/-- The function `strlen`. -/
def strlen (buf : List Nat) : Nat := (cstr buf).length

/-- The call `memset(dst, 0, n)`. -/
def memset_zero (dst : List Nat) (n : Nat) : List Nat :=
  List.replicate n 0 ++ dst.drop n

/-- The loop of `sanlock_path_export`: the first argument is the source from
`src[i]` on, `j` is the position in `dst`.  The result is `dst` at the label
`out`.  The comparisons `j > dstlen - 3` and `j > dstlen - 2` are made in
`size_t`.  The `int` counters `i` and `j` are natural numbers (they stay below
twice the length of the source), and a write past the end of `dst`, which C
leaves undefined, changes nothing. -/
def path_export_loop (dstlen : Nat) : List Nat → Nat → List Nat → List Nat
  | [], _, dst => dst
  | c :: rest, j, dst =>
    if c = 0 then dst
    else if c = 92 then
      if j > u64_sub dstlen 3 then dst
      else
        match rest with
        | [] => (dst.set j c).set (j + 1) 0
        | c2 :: rest2 =>
          let dst2 := (dst.set j c).set (j + 1) c2
          if dst2.getD (j + 1) 0 = 0 then dst2
          else path_export_loop dstlen rest2 (j + 2) dst2
    else if c = 32 ∨ c = 58 then
      if j > u64_sub dstlen 3 then dst
      else
        let dst2 := (dst.set j 92).set (j + 1) c
        if dst2.getD (j + 1) 0 = 0 then dst2
        else path_export_loop dstlen rest (j + 2) dst2
    else
      if j > u64_sub dstlen 2 then dst
      else
        let dst1 := dst.set j c
        if dst1.getD j 0 = 0 then dst1
        else path_export_loop dstlen rest (j + 1) dst1

/-- The function `sanlock_path_export(dst, src, dstlen)`: the buffer `dst`
afterwards and the return value `strlen(dst)`. -/
def sanlock_path_export (dst src : List Nat) (dstlen : Nat) : List Nat × Nat :=
  let out := path_export_loop dstlen src 0 (memset_zero dst dstlen)
  (out, strlen out)

/-- The loop of `sanlock_path_import`: the first argument is the source from
`*p` on, `j` is the position in `dst`.  The result is `dst` and the return
value. -/
def path_import_loop (dstlen : Nat) : List Nat → Nat → List Nat → List Nat × Nat
  | [], j, dst => if j < dstlen then (dst.set j 0, j) else (dst, 0)
  | c :: rest, j, dst =>
    if j < dstlen then
      if c = 92 then path_import_loop dstlen rest j dst
      else if c = 0 then (dst.set j c, j)
      else path_import_loop dstlen rest (j + 1) (dst.set j c)
    else (dst, 0)

/-- The function `sanlock_path_import(dst, src, dstlen)`: the buffer `dst`
afterwards and the return value. -/
def sanlock_path_import (dst src : List Nat) (dstlen : Nat) : List Nat × Nat :=
  path_import_loop dstlen src 0 dst

/-- What `sanlock_path_export` writes for a source string when `dst` has room:
a backslash is copied together with the byte after it, a space or a colon gets
a backslash in front, any other byte is copied. -/
def path_escape : List Nat → List Nat
  | [] => []
  | c :: rest =>
    if c = 92 then
      match rest with
      | [] => [92]
      | c2 :: rest2 => 92 :: c2 :: path_escape rest2
    else if c = 32 ∨ c = 58 then 92 :: c :: path_escape rest
    else c :: path_escape rest

/-- A string without its backslashes. -/
def drop_backslashes (p : List Nat) : List Nat := p.filter (fun b => b ≠ 92)

/-! ## Resource strings of `src/client.c`

The array fields of `struct sanlk_resource` and `struct sanlk_disk` are
represented by the strings they hold.  Only the fields that
`sanlock_res_to_str` and `sanlock_str_to_res` read or write are kept. -/

deriving instance DecidableEq for Except

/-- The constants of `sanlock.h` and `sanlock_resource.h` that the two
conversions use. -/
structure sanlock_resource_h where
  SANLK_NAME_LEN : Nat
  SANLK_PATH_LEN : Nat
  SANLK_MAX_DISKS : Nat
  SANLK_MAX_RES_STR : Nat
  SANLK_RES_LVER : Nat
  SANLK_RES_SHARED : Nat
deriving Repr

def ENXIO : Int := 6
def ENOMEM : Int := 12
def EINVAL : Int := 22

/-- The record `struct sanlk_disk`. -/
structure sanlk_disk where
  path : List Nat
  offset : Nat
deriving DecidableEq, Repr

/-- The record `struct sanlk_resource`. -/
structure sanlk_resource where
  lockspace_name : List Nat
  name : List Nat
  lver : Nat
  flags : Nat
  num_disks : Nat
  disks : List sanlk_disk
deriving DecidableEq, Repr

/-! ### The C library -/

/-- The decimal digits of `n`, most significant first; `fuel` bounds their
number. -/
def fmt_digits : Nat → Nat → List Nat
  | 0, _ => []
  | fuel + 1, n => if n < 10 then [48 + n] else fmt_digits fuel (n / 10) ++ [48 + n % 10]

/-- The text that `%llu` prints for an `unsigned long long`. -/
def fmt_llu (n : Nat) : List Nat := fmt_digits 20 (n % 2 ^ 64)

/-- The function `isspace` in the C locale. -/
def isspace (c : Nat) : Bool := decide (c = 32 ∨ (9 ≤ c ∧ c ≤ 13))

/-- The value of a byte as a digit of a number, for bases up to 36. -/
def digit_value (c : Nat) : Option Nat :=
  if 48 ≤ c ∧ c ≤ 57 then some (c - 48)
  else if 97 ≤ c ∧ c ≤ 122 then some (c - 87)
  else if 65 ≤ c ∧ c ≤ 90 then some (c - 55)
  else none

/-- The value of the longest run of digits of the base at the start of a
string, on top of `acc`. -/
def parse_digits (base : Nat) : List Nat → Nat → Nat
  | [], acc => acc
  | c :: rest, acc =>
    match digit_value c with
    | some v => if v < base then parse_digits base rest (acc * base + v) else acc
    | none => acc

/-- Whether a string starts with a digit of the base. -/
def has_digit (base : Nat) : List Nat → Bool
  | [] => false
  | c :: _ =>
    match digit_value c with
    | some v => decide (v < base)
    | none => false

/-- The `unsigned long long` that `strtoull` returns for a magnitude and a
sign: `ULLONG_MAX` when the magnitude does not fit, the negation in 64 bits
after a minus sign. -/
def ull_result (neg : Bool) (m : Nat) : Nat :=
  if m ≥ 2 ^ 64 then 2 ^ 64 - 1 else if neg then (2 ^ 64 - m) % 2 ^ 64 else m

/-- An optional sign at the start of a string: whether it is a minus, and the
rest. -/
def take_sign : List Nat → Bool × List Nat
  | 45 :: rest => (true, rest)
  | 43 :: rest => (false, rest)
  | s => (false, s)

/-- The call `strtoull(s, NULL, 0)`: white space, an optional sign, then a
hexadecimal number after `0x`, an octal number after `0`, a decimal number
otherwise. -/
def strtoull0 (s : List Nat) : Nat :=
  let t := take_sign (s.dropWhile isspace)
  match t.2 with
  | 48 :: x :: rest =>
    if (x = 120 ∨ x = 88) ∧ has_digit 16 rest = true then
      ull_result t.1 (parse_digits 16 rest 0)
    else ull_result t.1 (parse_digits 8 (x :: rest) 0)
  | d => ull_result t.1 (parse_digits 10 d 0)

/-- The call `sscanf(s, "%llu", &v)`: the value stored when the call returns 1,
`none` when it returns something else (no decimal digit after white space and
an optional sign). -/
def sscanf_llu (s : List Nat) : Option Nat :=
  let t := take_sign (s.dropWhile isspace)
  if has_digit 10 t.2 = true then some (ull_result t.1 (parse_digits 10 t.2 0)) else none

/-- The call `snprintf(str + pos, size, ...)` where the format expands to
`text` and `str` holds a string of `pos` bytes: at most `size - 1` bytes of the
text are written; the return value is the length of the whole text. -/
def snprintf_at (str : List Nat) (pos size : Nat) (text : List Nat) : List Nat × Nat :=
  (if size = 0 then str else str.take pos ++ text.take (size - 1), text.length)

/-- The call `strncpy(dst, src, n)` into a zeroed array: the string left in
`dst`. -/
def strncpy (src : List Nat) (n : Nat) : List Nat := src.take n

/-! ### `sanlock_res_to_str` -/

/-- The loop over the disks in `sanlock_res_to_str`, from disk `d` on: `str` is
the string written so far and `pos` its length; `none` is the jump to `fail`. -/
def res_to_str_disks (K : sanlock_resource_h) :
    List sanlk_disk → List Nat → Nat → Option (List Nat × Nat)
  | [], str, pos => some (str, pos)
  | dk :: rest, str, pos =>
    let path := (sanlock_path_export (List.replicate (K.SANLK_PATH_LEN + 1) 0) dk.path
      (K.SANLK_PATH_LEN + 1)).1
    let r := snprintf_at str pos (K.SANLK_MAX_RES_STR - pos)
      ([58] ++ cstr path ++ [58] ++ fmt_llu dk.offset)
    if r.2 ≥ K.SANLK_MAX_RES_STR - pos then none
    else res_to_str_disks K rest r.1 (pos + r.2)

/-- The function `sanlock_res_to_str(res, &str)`: the string returned in `str`,
or the error.  `mem` is whether `malloc` returns memory. -/
def sanlock_res_to_str (K : sanlock_resource_h) (mem : Bool) (res : sanlk_resource) :
    Except Int (List Nat) :=
  if mem = false then Except.error (-ENOMEM)
  else
    let len := K.SANLK_MAX_RES_STR
    let r1 := snprintf_at [] 0 len (cstr res.lockspace_name ++ [58] ++ cstr res.name)
    if r1.2 ≥ len then Except.error (-EINVAL)
    else
      match res_to_str_disks K (res.disks.take res.num_disks) r1.1 r1.2 with
      | none => Except.error (-EINVAL)
      | some (str, pos) =>
        let r2 :=
          if res.flags &&& K.SANLK_RES_SHARED ≠ 0 then
            snprintf_at str pos (len - pos) [58, 83, 72]
          else snprintf_at str pos (len - pos) ([58] ++ fmt_llu res.lver)
        if r2.2 > len - pos then Except.error (-EINVAL)
        else if pos + r2.2 > len then Except.error (-EINVAL)
        else Except.ok r2.1

/-! ### `sanlock_str_to_res` -/

/-- The first loop of `sanlock_str_to_res`: the number of colons that no
backslash precedes, added to `colons`. -/
def count_colons : List Nat → Nat → Nat
  | [], colons => colons
  | c :: rest, colons =>
    if c = 92 then
      match rest with
      | [] => colons
      | _ :: rest2 => count_colons rest2 colons
    else if c = 58 then count_colons rest (colons + 1)
    else count_colons rest colons

/-- Applying `f` to the disk `d` of the array of disks. -/
def modify_disk (f : sanlk_disk → sanlk_disk) : Nat → List sanlk_disk → List sanlk_disk
  | _, [] => []
  | 0, x :: xs => f x :: xs
  | d + 1, x :: xs => x :: modify_disk f d xs

/-- What `sanlock_str_to_res` does with `sub` at a colon or at the end of the
string: the resource and `d` afterwards; `none` is the jump to `fail`. -/
def str_to_res_sub (K : sanlock_resource_h) (have_lver num_disks : Nat) (sub : List Nat)
    (sub_count d : Nat) (res : sanlk_resource) : Option (sanlk_resource × Nat) :=
  if sub_count < 2 ∧ sub.length > K.SANLK_NAME_LEN then none
  else if sub_count ≥ 2 ∧ (sub.length > K.SANLK_PATH_LEN - 1 ∨ sub.length < 1) then none
  else if sub_count = 0 then
    some ({ res with lockspace_name := strncpy sub K.SANLK_NAME_LEN }, d)
  else if sub_count = 1 then
    some ({ res with name := strncpy sub K.SANLK_NAME_LEN }, d)
  else if sub_count % 2 = 0 then
    if have_lver ≠ 0 ∧ d = num_disks then
      if sub.take 2 = [83, 72] then
        some ({ res with flags := res.flags ||| K.SANLK_RES_SHARED }, d)
      else
        some ({ res with flags := res.flags ||| K.SANLK_RES_LVER, lver := strtoull0 sub }, d)
    else
      let path := strncpy sub (K.SANLK_PATH_LEN - 1)
      some ({ res with disks := modify_disk (fun x => { x with path := path }) d res.disks }, d)
  else
    match sscanf_llu sub with
    | none => none
    | some v =>
      some ({ res with disks := modify_disk (fun x => { x with offset := v }) d res.disks }, d + 1)

/-- The second loop of `sanlock_str_to_res`: the first argument is the string
from `str[i]` on (its end is `i = len`), `sub` holds the `j` bytes collected so
far.  The result is the resource at the end of the loop; `none` is the jump to
`fail`. -/
def str_to_res_loop (K : sanlock_resource_h) (have_lver num_disks : Nat) :
    List Nat → List Nat → Nat → Nat → sanlk_resource → Option sanlk_resource
  | [], sub, sub_count, d, res =>
    (str_to_res_sub K have_lver num_disks sub sub_count d res).map (fun r => r.1)
  | c :: rest, sub, sub_count, d, res =>
    if c = 92 then
      match rest with
      | [] => none
      | c2 :: rest2 =>
        if sub.length ≥ K.SANLK_PATH_LEN then none
        else str_to_res_loop K have_lver num_disks rest2 (sub ++ [c2]) sub_count d res
    else if c ≠ 58 then
      if sub.length ≥ K.SANLK_PATH_LEN then none
      else str_to_res_loop K have_lver num_disks rest (sub ++ [c]) sub_count d res
    else
      match str_to_res_sub K have_lver num_disks sub sub_count d res with
      | none => none
      | some r => str_to_res_loop K have_lver num_disks rest [] (sub_count + 1) r.2 r.1

/-- The function `sanlock_str_to_res(str, &res)`: the resource returned in
`res`, or the error.  `mem` is whether `malloc` returns memory. -/
def sanlock_str_to_res (K : sanlock_resource_h) (mem : Bool) (str : List Nat) :
    Except Int sanlk_resource :=
  if strlen str < 3 then Except.error (- ENXIO)
  else
    let colons := count_colons (cstr str) 0
    if colons = 0 ∨ colons = 2 then Except.error (-1)
    else
      let num_disks := (colons - 1) / 2
      let have_lver := (colons - 1) % 2
      if num_disks > K.SANLK_MAX_DISKS then Except.error (-2)
      else if mem = false then Except.error (-ENOMEM)
      else
        let res : sanlk_resource :=
          { lockspace_name := [], name := [], lver := 0, flags := 0, num_disks := num_disks,
            disks := List.replicate num_disks { path := [], offset := 0 } }
        match str_to_res_loop K have_lver num_disks (cstr str) [] 0 0 res with
        | none => Except.error (-1)
        | some r => Except.ok r

/-! ### The format of a resource string -/

/-- Reading one field of a resource string the way the second loop of
`sanlock_str_to_res` does: a backslash is dropped and the byte after it is
taken as it is.  `none` when the text contains a colon that no backslash
precedes, or ends in a backslash with nothing after it. -/
def scan_field : List Nat → Option (List Nat)
  | [] => some []
  | c :: rest =>
    if c = 92 then
      match rest with
      | [] => none
      | c2 :: rest2 => (scan_field rest2).map (fun f => c2 :: f)
    else if c = 58 then none
    else (scan_field rest).map (fun f => c :: f)

/-- A path with every escaping backslash removed: a backslash is dropped and
the byte after it is kept. -/
def path_normal : List Nat → List Nat
  | [] => []
  | c :: rest =>
    if c = 92 then
      match rest with
      | [] => []
      | c2 :: rest2 => c2 :: path_normal rest2
    else c :: path_normal rest

/-- Whether a path ends in a backslash that escapes nothing. -/
def ends_in_escape : List Nat → Bool
  | [] => false
  | c :: rest =>
    if c = 92 then
      match rest with
      | [] => true
      | _ :: rest2 => ends_in_escape rest2
    else ends_in_escape rest

/-- The part of a resource string after the two names: for each disk a colon,
the escaped path, a colon and the offset. -/
def disks_text : List sanlk_disk → List Nat
  | [] => []
  | dk :: rest => 58 :: path_escape dk.path ++ 58 :: fmt_llu dk.offset ++ disks_text rest

/-- The fields of the disks after the colon that follows the resource name, up
to and with the colon before the last field, then `tail`. -/
def disks_fields (tail : List Nat) : List sanlk_disk → List Nat
  | [] => tail
  | dk :: rest =>
    path_escape dk.path ++ 58 :: fmt_llu dk.offset ++ 58 :: disks_fields tail rest

/-- The disk that `sanlock_str_to_res` reads back for a disk. -/
def disk_normal (dk : sanlk_disk) : sanlk_disk :=
  { path := path_normal dk.path, offset := dk.offset % 2 ^ 64 }

/-- The last field of a resource string: `SH` for a shared resource, the lease
version otherwise. -/
def lver_text (K : sanlock_resource_h) (res : sanlk_resource) : List Nat :=
  if res.flags &&& K.SANLK_RES_SHARED ≠ 0 then [83, 72] else fmt_llu res.lver

/-- The string form of a resource:
`<lockspace_name>:<resource_name>:<path>:<offset>[:<path>:<offset>...]:<lver>`. -/
def res_text (K : sanlock_resource_h) (res : sanlk_resource) : List Nat :=
  res.lockspace_name ++ 58 :: res.name ++ disks_text res.disks ++ 58 :: lver_text K res

/-- The values of the released headers. -/
def sample_resource_h : sanlock_resource_h :=
  { SANLK_NAME_LEN := 48, SANLK_PATH_LEN := 1024, SANLK_MAX_DISKS := 4,
    SANLK_MAX_RES_STR := 4600, SANLK_RES_LVER := 1, SANLK_RES_SHARED := 4 }

/-- A resource `ls:r1` with the given flags, lease version and disks. -/
def sample_res (flags lver : Nat) (disks : List sanlk_disk) : sanlk_resource :=
  { lockspace_name := [108, 115], name := [114, 49], lver := lver, flags := flags,
    num_disks := disks.length, disks := disks }

/-- The disk `/d x` (with a space in its path) at offset 1048576. -/
def sample_disk : sanlk_disk := { path := [47, 100, 32, 120], offset := 1048576 }

/-- A header with a small `SANLK_MAX_RES_STR`, the length of the string form of
`sample_res 0 17 [sample_disk]`. -/
def small_resource_h : sanlock_resource_h :=
  { sample_resource_h with SANLK_MAX_RES_STR := 22 }

/-! ## `sanlock_test_resource_owners` -/

/-- The host state constants and the test flag of `sanlock.h` and
`sanlock_resource.h` that `sanlock_test_resource_owners` uses.  The headers are
not part of the sources at hand, so the values are parameters. -/
structure sanlock_host_h where
  SANLK_HOST_MASK : Nat
  SANLK_HOST_UNKNOWN : Nat
  SANLK_HOST_FREE : Nat
  SANLK_HOST_LIVE : Nat
  SANLK_HOST_FAIL : Nat
  SANLK_HOST_DEAD : Nat
  SANLK_TRF_FAIL : Nat
deriving DecidableEq, Repr

/-- The inner loop of `sanlock_test_resource_owners`: the first entry of `hosts`
with the host id of the owner, `none` when `found` stays 0. -/
def find_host (owner : SanlkReset.sanlk_host) :
    List SanlkReset.sanlk_host → Option SanlkReset.sanlk_host
  | [] => none
  | host :: rest => if owner.host_id ≠ host.host_id then find_host owner rest else some host

/-- The outer loop of `sanlock_test_resource_owners` from the current owner on,
with the variable `fail`; the error is the value of an early `return`. -/
def test_owners_loop (H : sanlock_host_h) (hosts : List SanlkReset.sanlk_host) :
    List SanlkReset.sanlk_host → Int → Except Int Int
  | [], fail => Except.ok fail
  | owner :: rest, fail =>
    match find_host owner hosts with
    | none => test_owners_loop H hosts rest fail
    | some host =>
      if host.generation > owner.generation then test_owners_loop H hosts rest fail
      else if host.generation < owner.generation then Except.error (-EINVAL)
      else
        let state := host.flags &&& H.SANLK_HOST_MASK
        if state = H.SANLK_HOST_FREE ∨ state = H.SANLK_HOST_DEAD then
          test_owners_loop H hosts rest fail
        else if state = H.SANLK_HOST_LIVE ∨ state = H.SANLK_HOST_FAIL ∨
            state = H.SANLK_HOST_UNKNOWN then
          test_owners_loop H hosts rest 1
        else Except.error (-EINVAL)

/-- The function `sanlock_test_resource_owners`: the return value and what it
leaves in `*test_flags`.  The arrays `owners` and `hosts` with their counts are
lists; `res` and `flags` are not used. -/
def sanlock_test_resource_owners (H : sanlock_host_h)
    (owners hosts : List SanlkReset.sanlk_host) : Int × Nat :=
  match test_owners_loop H hosts owners 0 with
  | Except.error e => (e, 0)
  | Except.ok fail => (0, if fail ≠ 0 then 0 ||| H.SANLK_TRF_FAIL else 0)

/-- The host entry that the specification matches with an owner: the first one
with the same host id. -/
def matched_host (owner : SanlkReset.sanlk_host) (hosts : List SanlkReset.sanlk_host) :
    Option SanlkReset.sanlk_host :=
  hosts.find? (fun host => decide (host.host_id = owner.host_id))

/-- An owner for which the specification has the call return `-EINVAL`: its
matched host has a lower generation, or the same generation and a state
outside `FREE`, `DEAD`, `LIVE`, `FAIL`, `UNKNOWN`. -/
def owner_invalid (H : sanlock_host_h) (hosts : List SanlkReset.sanlk_host)
    (owner : SanlkReset.sanlk_host) : Bool :=
  match matched_host owner hosts with
  | none => false
  | some host =>
    decide (host.generation < owner.generation ∨
      (host.generation = owner.generation ∧
        host.flags &&& H.SANLK_HOST_MASK ∉
          [H.SANLK_HOST_FREE, H.SANLK_HOST_DEAD, H.SANLK_HOST_LIVE, H.SANLK_HOST_FAIL,
            H.SANLK_HOST_UNKNOWN]))

/-- An owner that makes the specification set `SANLK_TRF_FAIL`: its matched host
has the same generation and the state `LIVE`, `FAIL` or `UNKNOWN`. -/
def owner_fails (H : sanlock_host_h) (hosts : List SanlkReset.sanlk_host)
    (owner : SanlkReset.sanlk_host) : Bool :=
  match matched_host owner hosts with
  | none => false
  | some host =>
    decide (host.generation = owner.generation ∧
      host.flags &&& H.SANLK_HOST_MASK ∈
        [H.SANLK_HOST_LIVE, H.SANLK_HOST_FAIL, H.SANLK_HOST_UNKNOWN])

/-- The values of the released headers. -/
def sample_host_h : sanlock_host_h :=
  { SANLK_HOST_MASK := 15, SANLK_HOST_UNKNOWN := 1, SANLK_HOST_FREE := 2,
    SANLK_HOST_LIVE := 3, SANLK_HOST_FAIL := 4, SANLK_HOST_DEAD := 5, SANLK_TRF_FAIL := 1 }

/-- A host record with the given id, generation and flags. -/
def sample_owner (host_id generation flags : Nat) : SanlkReset.sanlk_host :=
  { host_id := host_id, generation := generation, timestamp := 0, io_timeout := 10,
    flags := flags }
/-- Whether a string has a space or a colon that no escaping backslash
precedes. -/
def unescaped_separator : List Nat → Bool
  | [] => false
  | c :: rest =>
    if c = 92 then
      match rest with
      | [] => false
      | _ :: rest2 => unescaped_separator rest2
    else if c = 32 ∨ c = 58 then true
    else unescaped_separator rest

end Client

/-! # Theorems -/

namespace Wdmd

/-! ## `test_clients` -/

theorem test_clients_loop_eq (t : Nat) (cl : List client) (n : Nat) :
    test_clients_loop t cl n = n + cl.countP (client_fails t) := by
  induction cl generalizing n with
  | nil => simp [test_clients_loop]
  | cons c rest ih =>
    simp only [test_clients_loop, List.countP_cons, client_fails, ih]
    by_cases hu : c.used = 0
    · simp [hu]
    · by_cases he : c.expire = 0
      · simp [hu, he]
      · by_cases h1 : t ≥ c.expire
        · simp [hu, he, h1]; omega
        · by_cases h2 : t ≥ u64_sub c.expire DEFAULT_TEST_INTERVAL
          · simp [hu, he, h1, h2]; omega
          · simp [hu, he, h1, h2]

/-- The count `test_clients` returns is the number of slots that pass the test
the code applies (with the wrapping subtraction). -/
theorem test_clients_eq_countP (t : Nat) (cl : List client) :
    test_clients t cl = cl.countP (client_fails t) := by
  simp [test_clients, test_clients_loop_eq]

/-- Where every armed slot has `10 ≤ expire < 2 ^ 64`, the count of the code is
the count of the specification. -/
theorem test_clients_eq_spec_of_no_wrap (t : Nat) (cl : List client)
    (h : ∀ c ∈ cl, c.used ≠ 0 → c.expire ≠ 0 → 10 ≤ c.expire ∧ c.expire < 2 ^ 64) :
    test_clients t cl = test_clients_spec t cl := by
  rw [test_clients_eq_countP, test_clients_spec]
  apply List.countP_congr
  intro c hc
  simp only [client_fails, client_fails_spec, decide_eq_true_eq, u64_sub, DEFAULT_TEST_INTERVAL]
  constructor
  · rintro ⟨hu, he, hb⟩
    have hr := h c hc hu he
    refine ⟨hu, he, ?_⟩
    omega
  · rintro ⟨hu, he, hb⟩
    have hr := h c hc hu he
    refine ⟨hu, he, ?_⟩
    omega

theorem test_clients_eq_spec_of_no_wrap_example :
    test_clients 95 [sample_client 5 0 1 90 100, sample_client 6 0 1 90 106]
      = test_clients_spec 95 [sample_client 5 0 1 90 100, sample_client 6 0 1 90 106] :=
  test_clients_eq_spec_of_no_wrap 95 _ (by decide)

/-- C2, evaluated at a failing input: a table with one used slot whose `expire` is 5,
tested at time 3.  The specification counts the slot, because `3 ≥ 5 - 10` over
the integers; `test_clients` returns 0, because `5 - 10` wraps to
`2 ^ 64 - 5` in `uint64_t`. -/
theorem test_clients_early_boundary_wraps :
    test_clients 3 [sample_client 5 0 1 1 5] = 0 ∧
    test_clients_spec 3 [sample_client 5 0 1 1 5] = 1 ∧
    u64_sub 5 DEFAULT_TEST_INTERVAL = 2 ^ 64 - 5 := by
  refine ⟨by decide, by decide, by decide⟩

/-- C3: both boundaries are inclusive.  A table with a used slot whose `expire`
is not 0 and equals `now`, or equals `now + DEFAULT_TEST_INTERVAL`, makes
`test_clients` at time `now` return at least 1. -/
theorem test_clients_boundaries_inclusive (now : Nat) (cl : List client) (c : client)
    (hc : c ∈ cl) (hu : c.used ≠ 0) (he : c.expire ≠ 0)
    (hb : c.expire = now ∨ c.expire = now + DEFAULT_TEST_INTERVAL) :
    1 ≤ test_clients now cl := by
  rw [test_clients_eq_countP]
  apply List.countP_pos_iff.mpr
  refine ⟨c, hc, ?_⟩
  simp only [client_fails, decide_eq_true_eq, u64_sub, DEFAULT_TEST_INTERVAL] at *
  refine ⟨hu, he, ?_⟩
  omega

theorem test_clients_boundaries_inclusive_witness :
    1 ≤ test_clients 100 [sample_client 5 0 1 90 100] ∧
    1 ≤ test_clients 100 [sample_client 5 0 1 90 110] :=
  ⟨test_clients_boundaries_inclusive 100 _ (sample_client 5 0 1 90 100)
      (List.mem_singleton.mpr rfl) (by decide) (by decide) (Or.inl (by decide)),
   test_clients_boundaries_inclusive 100 _ (sample_client 5 0 1 90 110)
      (List.mem_singleton.mpr rfl) (by decide) (by decide) (Or.inr (by decide))⟩

/-! ## The test pass -/

/-- C1: in a test pass the watchdog is petted exactly when the three tests report
0 failures in total.  With 0 failures the pass issues the keepalive (after an
`open` of the device if it was closed, which then holds the new descriptor when
the `open` succeeds), stores the clock in `last_keepalive` and sets
`test_interval` to 10.  With a failure it issues no keepalive and no write of
`V`, closes the device if it was open and then stores the clock in
`last_closeunclean`, leaves `dev_fd` at -1 and sets `test_interval` to 1. -/
theorem test_pass_pets_iff_no_failure (inp : pass_input) (s : wdmd_state) :
    ((∃ fd, sys_op.ioctl_keepalive fd ∈ (test_pass inp s).log.drop s.log.length) ↔
      inp.test_files + inp.test_scripts + test_clients inp.t_clients s.client = 0) ∧
    (test_pass inp s).log = s.log ++
      (if inp.test_files + inp.test_scripts + test_clients inp.t_clients s.client = 0 then
        (if s.dev_fd = -1 then
          [sys_op.open_wd s.watchdog_path,
           sys_op.ioctl_keepalive (if inp.open_fd < 0 then -1 else inp.open_fd)]
        else [sys_op.ioctl_keepalive s.dev_fd])
      else (if s.dev_fd = -1 then [] else [sys_op.close s.dev_fd])) ∧
    (test_pass inp s).last_keepalive =
      (if inp.test_files + inp.test_scripts + test_clients inp.t_clients s.client = 0 then
        inp.t_dev else s.last_keepalive) ∧
    (test_pass inp s).test_interval =
      (if inp.test_files + inp.test_scripts + test_clients inp.t_clients s.client = 0 then
        (DEFAULT_TEST_INTERVAL : Int) else (RECOVER_TEST_INTERVAL : Int)) ∧
    (test_pass inp s).dev_fd =
      (if inp.test_files + inp.test_scripts + test_clients inp.t_clients s.client = 0 then
        (if s.dev_fd = -1 then (if inp.open_fd < 0 then -1 else inp.open_fd) else s.dev_fd)
      else -1) ∧
    (test_pass inp s).last_closeunclean =
      (if inp.test_files + inp.test_scripts + test_clients inp.t_clients s.client = 0 then
        s.last_closeunclean
      else (if s.dev_fd = -1 then s.last_closeunclean else inp.t_dev)) ∧
    (test_pass inp s).client = s.client := by
  have hfc : pass_fail_count inp s
      = inp.test_files + inp.test_scripts + test_clients inp.t_clients s.client := by
    simp [pass_fail_count]
  by_cases h0 : inp.test_files + inp.test_scripts + test_clients inp.t_clients s.client = 0
  · by_cases hd : s.dev_fd = -1
    · by_cases ho : inp.open_fd < 0
      · simp [test_pass, hfc, h0, hd, ho, pet_watchdog, open_dev]
      · simp [test_pass, hfc, h0, hd, ho, pet_watchdog, open_dev]
    · simp [test_pass, hfc, h0, hd, pet_watchdog]
  · by_cases hd : s.dev_fd = -1
    · simp [test_pass, hfc, h0, hd, close_watchdog_unclean]
    · simp [test_pass, hfc, h0, hd, close_watchdog_unclean]

/-! ## Shutdown -/

theorem active_clients_eq_zero_iff (cl : List client) :
    active_clients cl = 0 ↔ ∀ c ∈ cl, c.refcount = 0 := by
  induction cl with
  | nil => simp [active_clients]
  | cons c rest ih =>
    by_cases h : c.refcount = 0
    · simp [active_clients, h, ih]
    · simp [active_clients, h]

theorem active_clients_ne_zero (cl : List client) (c : client) (hc : c ∈ cl)
    (hr : c.refcount ≠ 0) : active_clients cl ≠ 0 := by
  intro h
  exact hr ((active_clients_eq_zero_iff cl).mp h c hc)

/-- C4, counterexample: a table whose only slot is orphan-armed (used, `pid_dead = 1`,
`fd = -1`, `expire = 100`) with `refcount = 0`.  A `SIGTERM` sets `daemon_quit`
and `test_loop` leaves its loop. -/
theorem orphan_armed_without_refcount_quits :
    (process_signals sizeof_signalfd_siginfo SIGTERM
      (sample_state [sample_client (-1) 1 0 90 100])).daemon_quit = 1 ∧
    test_loop_quits (process_signals sizeof_signalfd_siginfo SIGTERM
      (sample_state [sample_client (-1) 1 0 90 100])) = true := by
  decide

/-- C4, amended: for every client table that contains a used slot whose connection
has been closed (`pid_dead = 1`, `fd = -1`) with `expire` not 0 and with `refcount`
not 0, a signal leaves `daemon_quit` as it is and the exit condition of
`test_loop` is false. -/
theorem orphan_armed_with_refcount_blocks_quit (s : wdmd_state) (c : client) (rv : Int)
    (signo : Nat) (hc : c ∈ s.client) (_hu : c.used ≠ 0) (_hd : c.pid_dead = 1)
    (_hfd : c.fd = -1) (_he : c.expire ≠ 0) (hr : c.refcount ≠ 0) :
    (process_signals rv signo s).daemon_quit = s.daemon_quit ∧
    test_loop_quits (process_signals rv signo s) = false := by
  have ha : active_clients s.client ≠ 0 := active_clients_ne_zero _ c hc hr
  have hs : process_signals rv signo s = s := by
    unfold process_signals
    split_ifs <;> rfl
  rw [hs]
  simp [test_loop_quits, ha]

theorem orphan_armed_with_refcount_blocks_quit_witness :
    (process_signals sizeof_signalfd_siginfo SIGTERM
      (sample_state [sample_client (-1) 1 1 90 100])).daemon_quit = 0 ∧
    test_loop_quits (process_signals sizeof_signalfd_siginfo SIGTERM
      (sample_state [sample_client (-1) 1 1 90 100])) = false :=
  orphan_armed_with_refcount_blocks_quit (sample_state [sample_client (-1) 1 1 90 100])
    (sample_client (-1) 1 1 90 100) sizeof_signalfd_siginfo SIGTERM
    (List.mem_singleton.mpr rfl) (by decide) (by decide) (by decide) (by decide) (by decide)

/-- C5: for every client table in which some slot has `refcount` not 0,
`process_signals` changes nothing, whatever was read, so a `SIGTERM` or `SIGINT`
is dropped; the exit condition of `test_loop` is false and the iteration does
not leave the loop, whatever `daemon_quit` is.  A call of `process_signals`
that changes `daemon_quit` sets it to 1, has read a complete `SIGTERM` or
`SIGINT`, and found no slot with `refcount` set. -/
theorem signal_dropped_while_refcount_set (s : wdmd_state) (rv : Int) (signo : Nat)
    (h : ∃ c ∈ s.client, c.refcount ≠ 0) :
    process_signals rv signo s = s ∧
    test_loop_quits s = false ∧
    test_loop_quits { s with daemon_quit := 1 } = false ∧
    (∀ t0 t1 inp, test_loop_step t0 t1 inp s ≠ none) ∧
    (∀ (s2 : wdmd_state) (rv2 : Int) (signo2 : Nat),
      (process_signals rv2 signo2 s2).daemon_quit ≠ s2.daemon_quit →
        (process_signals rv2 signo2 s2).daemon_quit = 1 ∧
        rv2 = sizeof_signalfd_siginfo ∧ (signo2 = SIGTERM ∨ signo2 = SIGINT) ∧
        ∀ c ∈ s2.client, c.refcount = 0) := by
  obtain ⟨c, hc, hr⟩ := h
  have ha : active_clients s.client ≠ 0 := active_clients_ne_zero _ c hc hr
  have hq : test_loop_quits s = false := by simp [test_loop_quits, ha]
  refine ⟨?_, hq, ?_, ?_, ?_⟩
  · unfold process_signals
    split_ifs <;> rfl
  · simp [test_loop_quits, ha]
  · intro t0 t1 inp
    simp only [test_loop_step, hq, Bool.false_eq_true, if_false]
    split_ifs <;> simp
  · intro s2 rv2 signo2
    unfold process_signals
    split_ifs with h1 h2 h3
    · simp
    · intro _
      exact ⟨rfl, not_not.mp h1, h2, (active_clients_eq_zero_iff _).mp h3⟩
    · simp
    · simp

theorem signal_dropped_while_refcount_set_witness :
    process_signals sizeof_signalfd_siginfo SIGINT (sample_state [sample_client 5 0 1 0 0])
      = sample_state [sample_client 5 0 1 0 0] :=
  (signal_dropped_while_refcount_set (sample_state [sample_client 5 0 1 0 0])
    sizeof_signalfd_siginfo SIGINT
    ⟨sample_client 5 0 1 0 0, List.mem_singleton.mpr rfl, by decide⟩).1

/-! ## Disconnect -/

theorem test_clients_loop_set (t : Nat) (cl : List client) (ci : Nat) (c c2 : client) (n : Nat)
    (hc : cl[ci]? = some c) (hu : c2.used = c.used) (he : c2.expire = c.expire) :
    test_clients_loop t (cl.set ci c2) n = test_clients_loop t cl n := by
  induction cl generalizing ci n with
  | nil => simp
  | cons a rest ih =>
    cases ci with
    | zero =>
      simp only [List.getElem?_cons_zero, Option.some.injEq] at hc
      subst hc
      simp only [List.set_cons_zero, test_clients_loop, hu, he]
    | succ k =>
      simp only [List.getElem?_cons_succ] at hc
      simp only [List.set_cons_succ, test_clients_loop]
      split_ifs <;> exact ih k _ hc

/-- C6: `client_pid_dead(ci)` on a slot of the table.  If `expire` is 0 the slot is
freed: every field is zero (the function pointers null), `fd` is -1.  If `expire`
is not 0 the slot keeps `used`, `expire`, `renewal`, `refcount`, `pid`, `name` and
its function pointers, `pid_dead` is 1 and `fd` is -1, and `test_clients` returns
for the new table what it returns for the old one at every time.  In both cases
the `pollfd` entry has `fd = -1` and `events = 0`, and every other entry of the
two tables is unchanged. -/
theorem client_pid_dead_slot (K : wdmd_h) (ci : Nat) (s : wdmd_state) (c : client)
    (p : pollfd_t) (hc : s.client[ci]? = some c) (hp : s.pollfd[ci]? = some p) :
    (∃ c2, (client_pid_dead K ci s).client[ci]? = some c2 ∧
      c2.fd = -1 ∧
      (if c.expire = 0 then
        c2.used = 0 ∧ c2.pid = 0 ∧ c2.pid_dead = 0 ∧ c2.refcount = 0 ∧ c2.renewal = 0 ∧
        c2.expire = 0 ∧ c2.workfn = workfn_t.null ∧ c2.deadfn = deadfn_t.null ∧
        c2.name = List.replicate K.WDMD_NAME_SIZE 0
      else
        c2.used = c.used ∧ c2.pid = c.pid ∧ c2.pid_dead = 1 ∧ c2.refcount = c.refcount ∧
        c2.renewal = c.renewal ∧ c2.expire = c.expire ∧ c2.workfn = c.workfn ∧
        c2.deadfn = c.deadfn ∧ c2.name = c.name ∧
        ∀ t, test_clients t (client_pid_dead K ci s).client = test_clients t s.client)) ∧
    (client_pid_dead K ci s).pollfd[ci]? = some { p with fd := -1, events := 0 } ∧
    (∀ j, j ≠ ci → (client_pid_dead K ci s).client[j]? = s.client[j]? ∧
      (client_pid_dead K ci s).pollfd[j]? = s.pollfd[j]?) ∧
    (client_pid_dead K ci s).client.length = s.client.length ∧
    (client_pid_dead K ci s).pollfd.length = s.pollfd.length ∧
    (client_pid_dead K ci s).log = s.log ++ [sys_op.close c.fd] := by
  have hlc : ci < s.client.length := (List.getElem?_eq_some_iff.mp hc).1
  have hlp : ci < s.pollfd.length := (List.getElem?_eq_some_iff.mp hp).1
  by_cases he : c.expire = 0
  · have hs : client_pid_dead K ci s =
        { s with
          log := s.log ++ [sys_op.close c.fd]
          client := s.client.set ci { client_zero K with fd := -1 }
          pollfd := s.pollfd.set ci { p with fd := -1, events := 0 } } := by
      simp [client_pid_dead, hc, hp, he]
    rw [hs]
    refine ⟨⟨{ client_zero K with fd := -1 }, List.getElem?_set_self hlc, rfl, ?_⟩,
      List.getElem?_set_self hlp, ?_, by simp, by simp, rfl⟩
    · simp [he, client_zero]
    · intro j hj
      exact ⟨List.getElem?_set_ne (Ne.symm hj), List.getElem?_set_ne (Ne.symm hj)⟩
  · have hs : client_pid_dead K ci s =
        { s with
          log := s.log ++ [sys_op.close c.fd]
          client := s.client.set ci { c with pid_dead := 1, fd := -1 }
          pollfd := s.pollfd.set ci { p with fd := -1, events := 0 } } := by
      simp [client_pid_dead, hc, hp, he]
    rw [hs]
    refine ⟨⟨{ c with pid_dead := 1, fd := -1 }, List.getElem?_set_self hlc, rfl, ?_⟩,
      List.getElem?_set_self hlp, ?_, by simp, by simp, rfl⟩
    · rw [if_neg he]
      refine ⟨rfl, rfl, rfl, rfl, rfl, rfl, rfl, rfl, rfl, ?_⟩
      intro t
      exact test_clients_loop_set t s.client ci c _ 0 hc rfl rfl
    · intro j hj
      exact ⟨List.getElem?_set_ne (Ne.symm hj), List.getElem?_set_ne (Ne.symm hj)⟩

theorem client_pid_dead_slot_witness :
    (client_pid_dead sample_h 0
      (sample_state [sample_client 5 0 1 90 100, sample_client 6 0 0 0 0])).client[1]?
      = some (sample_client 6 0 0 0 0) :=
  ((client_pid_dead_slot sample_h 0
      (sample_state [sample_client 5 0 1 90 100, sample_client 6 0 0 0 0])
      (sample_client 5 0 1 90 100) { fd := 5, events := 1, revents := 0 }
      (by decide) (by decide)).2.2.1 1 (by decide)).1

/-! ## Messages -/

theorem client_pid_dead_expire (K : wdmd_h) (ci : Nat) (s : wdmd_state) (c : client)
    (hc : s.client[ci]? = some c) (he : c.expire ≠ 0) :
    ((client_pid_dead K ci s).client[ci]?).map client.expire = some c.expire := by
  have hlc : ci < s.client.length := (List.getElem?_eq_some_iff.mp hc).1
  unfold client_pid_dead
  rw [hc]
  cases hp : s.pollfd[ci]? with
  | none => simp [hc]
  | some p => simp [he, List.getElem?_set_self hlc]

theorem process_connection_dead_expire (K : wdmd_h) (ci : Nat) (s : wdmd_state) (c : client)
    (hc : s.client[ci]? = some c) (he : c.expire ≠ 0) :
    ((process_connection_dead K ci s).client[ci]?).map client.expire = some c.expire := by
  unfold process_connection_dead
  rw [hc]
  simp only
  cases hdf : c.deadfn with
  | null => simp [hc]
  | client_pid_dead => exact client_pid_dead_expire K ci s c hc he

/-- C7, counterexample: a slot with `expire = 100` receives a complete `TEST_LIVE`
message with `expire_time = 50`, and another one with `expire_time = 0`.
Afterwards its `expire` is 50, respectively 0: neither 100 nor greater. -/
theorem test_live_lowers_expire :
    ((process_connection sample_h (sample_test_live 95 50) 0
      (sample_state [sample_client 5 0 1 90 100])).client[0]?).map client.expire = some 50 ∧
    ((process_connection sample_h (sample_test_live 0 0) 0
      (sample_state [sample_client 5 0 1 90 100])).client[0]?).map client.expire = some 0 := by
  decide

/-- C7, amended: for every client slot whose `expire` is `e`, not 0, and every
message processed by `process_connection` on that slot, the slot's `expire`
afterwards is still `e` unless the message is a complete `TEST_LIVE`; a complete
`TEST_LIVE` replaces it by the `expire_time` it carries, whatever that value
is. -/
theorem process_connection_expire (K : wdmd_h) (inp : conn_input) (ci : Nat) (s : wdmd_state)
    (c : client) (hc : s.client[ci]? = some c) (he : c.expire ≠ 0) :
    ((process_connection K inp ci s).client[ci]?).map client.expire =
      some (if 0 < inp.rv ∧ inp.rv = K.sizeof_wdmd_header ∧ inp.h.cmd = cmd_t.CMD_TEST_LIVE
        then inp.h.expire_time else c.expire) := by
  have hlc : ci < s.client.length := (List.getElem?_eq_some_iff.mp hc).1
  have hd := process_connection_dead_expire K ci s c hc he
  by_cases hT : 0 < inp.rv ∧ inp.rv = K.sizeof_wdmd_header ∧ inp.h.cmd = cmd_t.CMD_TEST_LIVE
  · rw [if_pos hT]
    obtain ⟨hp, hsz, hcmd⟩ := hT
    unfold process_connection
    rw [hc]
    simp only
    rw [if_neg (show ¬ inp.rv = 0 by omega), if_neg (show ¬ inp.rv < 0 by omega),
      if_neg (not_not.mpr hsz), hcmd]
    simp [List.getElem?_set_self hlc]
  · rw [if_neg hT]
    unfold process_connection
    rw [hc]
    simp only
    by_cases h0 : inp.rv = 0
    · rw [if_pos h0, hc]
      rfl
    · rw [if_neg h0]
      by_cases h1 : inp.rv < 0
      · rw [if_pos h1, hd]
      · rw [if_neg h1]
        by_cases h2 : inp.rv = K.sizeof_wdmd_header
        · rw [if_neg (not_not.mpr h2)]
          cases hcmd : inp.h.cmd with
          | CMD_REGISTER =>
            by_cases h3 : inp.peer_rv < 0
            · simp only [h3, if_true, hd]
            · simp [h3, List.getElem?_set_self hlc]
          | CMD_REFCOUNT_SET => simp [List.getElem?_set_self hlc]
          | CMD_REFCOUNT_CLEAR => simp [List.getElem?_set_self hlc]
          | CMD_TEST_LIVE => exact absurd ⟨by omega, h2, hcmd⟩ hT
          | CMD_STATUS => simp [hc]
          | CMD_DUMP_DEBUG => simp [List.getElem?_set_self hlc]
          | other n => simp [hc]
        · rw [if_pos h2, hd]

theorem process_connection_expire_witness :
    ((process_connection sample_h (sample_test_live 95 120) 0
      (sample_state [sample_client 5 0 1 90 100])).client[0]?).map client.expire = some 120 :=
  process_connection_expire sample_h (sample_test_live 95 120) 0
    (sample_state [sample_client 5 0 1 90 100]) (sample_client 5 0 1 90 100)
    (by decide) (by decide)

end Wdmd

namespace SanlkReset

/-! ## The native timeout check of `reset_done` -/

/-- The native timeout check of one open channel that has seen `RESETTING`, when
neither subtraction wraps.  A first observation records the clock and the
timestamp and decides nothing.  Later, past 90 seconds the channel is decided by
the advance of the timestamp (more than 70: `watchdog_failed_to_fire`, otherwise
done), and up to 90 seconds it changes neither variable. -/
theorem native_timeout_step_no_wrap (now : Nat) (sl : ls_slot) (acc : native_acc) (nm : String)
    (ho : sl.ls_names = some nm) (hr : sl.ls_is_resetting ≠ 0)
    (hn : sl.ls_resetting_begin_local ≤ now) (hn2 : now < 2 ^ 64)
    (ht : sl.ls_resetting_begin_timestamp ≤ sl.ls_timestamp) (ht2 : sl.ls_timestamp < 2 ^ 64) :
    native_timeout_step now NATIVE_TIMEOUT_SECONDS NATIVE_RENEWAL_SECONDS sl acc =
      if sl.ls_resetting_begin_local = 0 then
        ({ sl with
            ls_resetting_begin_timestamp := sl.ls_timestamp
            ls_resetting_begin_local := now }, acc)
      else
        (sl,
          if now - sl.ls_resetting_begin_local > 90 then
            (if sl.ls_timestamp - sl.ls_resetting_begin_timestamp > 70 then
              { acc with watchdog_failed_to_fire := 1 }
            else { acc with is_done := 1 })
          else acc) := by
  have e0 : u64_sub now now = 0 := by
    simp only [u64_sub]; omega
  have e1 : u64_sub now sl.ls_resetting_begin_local = now - sl.ls_resetting_begin_local := by
    simp only [u64_sub]; omega
  have e2 : u64_sub sl.ls_timestamp sl.ls_resetting_begin_timestamp
      = sl.ls_timestamp - sl.ls_resetting_begin_timestamp := by
    simp only [u64_sub]; omega
  have e3 : u64_of_int NATIVE_TIMEOUT_SECONDS = 90 := by decide
  have e4 : u64_of_int NATIVE_RENEWAL_SECONDS = 70 := by decide
  unfold native_timeout_step
  rw [ho]
  by_cases hb : sl.ls_resetting_begin_local = 0
  · simp [hr, hb, e0, e3]
  · simp only [hr, hb, if_false, e1, e2, e3, e4]
    split_ifs <;> rfl

theorem native_timeout_step_no_wrap_example :
    native_timeout_step 1091 NATIVE_TIMEOUT_SECONDS NATIVE_RENEWAL_SECONDS
      (sample_slot 1 0 3 1000 5000 5070 3) { watchdog_failed_to_fire := 0, is_done := 0 }
      = (sample_slot 1 0 3 1000 5000 5070 3, { watchdog_failed_to_fire := 0, is_done := 1 }) :=
  native_timeout_step_no_wrap 1091 (sample_slot 1 0 3 1000 5000 5070 3) _ "ls1"
    rfl (by decide) (by decide) (by decide) (by decide) (by decide)

set_option maxRecDepth 100000 in
/-- C8, evaluated at a failing input: one open channel that saw `RESETTING` at local
time 1000 with timestamp 5000; 100 seconds later the host is observed with the
timestamp 20, lower than 5000.  The difference over the integers is at most 70,
so the claim marks the reset done; `reset_done` computes the difference in
`uint64_t`, sets `watchdog_failed_to_fire` and returns 0. -/
theorem native_timeout_lower_timestamp :
    (reset_done sample_K (sample_pass 20 3 1100)
      (sample_reset 0 90 [sample_slot 1 0 3 1000 5000 5040 3])).2 = 0 ∧
    (reset_done sample_K (sample_pass 20 3 1100)
      (sample_reset 0 90 [sample_slot 1 0 3 1000 5000 5040 3])).1.watchdog_failed_to_fire = 1 ∧
    (1100 : Int) - 1000 > 90 ∧ (20 : Int) - 5000 ≤ 70 ∧
    u64_sub 20 5000 = 2 ^ 64 - 4980 := by
  refine ⟨by decide, by decide, by decide, by decide, by decide⟩

/-! ## The host status check of `reset_done` -/

theorem get_hosts_step_zero (r : hosts_reply) (sl : ls_slot) :
    (get_hosts_step r sl 0).2 = 0 := by
  unfold get_hosts_step
  repeat' split
  all_goals rfl

theorem get_hosts_loop_zero (inp : done_input) (i : Nat) (ls : List ls_slot) :
    (get_hosts_loop inp i ls 0).2 = 0 := by
  induction ls generalizing i with
  | nil => rfl
  | cons sl rest ih =>
    simp only [get_hosts_loop, get_hosts_step_zero]
    exact ih (i + 1)

/-- What the body of the `get_hosts` loop leaves of an entry: everything but
`ls_timestamp`, `ls_host_flags` and `ls_renewals`, and the host flags are the
old ones or the ones of the record received. -/
theorem get_hosts_step_frame (r : hosts_reply) (sl : ls_slot) (nt : Int) :
    (get_hosts_step r sl nt).1.ls_names = sl.ls_names ∧
    (get_hosts_step r sl nt).1.ls_is_dead = sl.ls_is_dead ∧
    (get_hosts_step r sl nt).1.ls_is_resetting = sl.ls_is_resetting ∧
    ((get_hosts_step r sl nt).1.ls_host_flags = sl.ls_host_flags ∨
      ∃ hs, r.hs = some hs ∧ (get_hosts_step r sl nt).1.ls_host_flags = hs.flags) := by
  unfold get_hosts_step
  cases hn : sl.ls_names with
  | none => simp [hn]
  | some nm =>
    cases hh : r.hs with
    | none =>
      simp only
      split_ifs <;> simp [hn]
    | some hs =>
      simp only
      split_ifs <;> simp [hn]

theorem get_hosts_loop_get (inp : done_input) (i : Nat) (ls : List ls_slot) (nt : Int)
    (j : Nat) (sl1 : ls_slot) (h : (get_hosts_loop inp i ls nt).1[j]? = some sl1) :
    ∃ sl0 nt0, ls[j]? = some sl0 ∧ sl1 = (get_hosts_step (inp.get_hosts (i + j)) sl0 nt0).1 := by
  induction ls generalizing i nt j with
  | nil => simp [get_hosts_loop] at h
  | cons a rest ih =>
    simp only [get_hosts_loop] at h
    cases j with
    | zero =>
      simp only [List.getElem?_cons_zero, Option.some.injEq] at h
      exact ⟨a, nt, by simp, by simpa using h.symm⟩
    | succ k =>
      simp only [List.getElem?_cons_succ] at h
      obtain ⟨sl0, nt0, h1, h2⟩ := ih (i + 1) _ k h
      refine ⟨sl0, nt0, by simpa using h1, ?_⟩
      rw [show i + (k + 1) = i + 1 + k by omega]
      exact h2

/-- The update of one entry by the host status loop. -/
theorem host_status_step_fst (K : sanlock_h) (rm : Int) (sl : ls_slot) (d : Int) :
    (host_status_step K rm sl d).1.ls_names = sl.ls_names ∧
    (host_status_step K rm sl d).1.ls_is_resetting = sl.ls_is_resetting ∧
    ((host_status_step K rm sl d).1.ls_is_dead ≠ 0 ↔
      sl.ls_is_dead ≠ 0 ∨
        (sl.ls_names ≠ none ∧ sl.ls_host_flags &&& K.SANLK_HOST_MASK = K.SANLK_HOST_DEAD)) := by
  unfold host_status_step
  cases hn : sl.ls_names with
  | none => simp [hn]
  | some nm =>
    simp only
    by_cases h1 : sl.ls_host_flags &&& K.SANLK_HOST_MASK = K.SANLK_HOST_DEAD
    · by_cases h2 : sl.ls_is_dead = 0
      · split_ifs <;> simp_all
      · split_ifs <;> simp_all
    · split_ifs <;> simp_all

/-- The value of `is_done` after the body of the host status loop. -/
theorem host_status_step_snd (K : sanlock_h) (rm : Int) (sl : ls_slot) (d : Int) :
    (host_status_step K rm sl d).2 =
      if sl.ls_names ≠ none ∧ (host_status_step K rm sl d).1.ls_is_dead ≠ 0 ∧
          (rm ≠ 0 ∨ sl.ls_is_resetting ≠ 0) then 1 else d := by
  unfold host_status_step
  cases hn : sl.ls_names with
  | none => simp
  | some nm =>
    simp only
    by_cases hrm : rm = 0
    · split_ifs <;> simp_all
    · split_ifs <;> simp_all

theorem host_status_loop_snd (K : sanlock_h) (rm : Int) (ls : List ls_slot) (d : Int) :
    ((host_status_loop K rm ls d).2 = 1 ∨ (host_status_loop K rm ls d).2 = d) ∧
    ((host_status_loop K rm ls d).2 = 1 ↔
      d = 1 ∨ ∃ sl ∈ (host_status_loop K rm ls d).1,
        sl.ls_names ≠ none ∧ sl.ls_is_dead ≠ 0 ∧ (rm ≠ 0 ∨ sl.ls_is_resetting ≠ 0)) := by
  induction ls generalizing d with
  | nil => simp [host_status_loop]
  | cons sl rest ih =>
    have h1 := host_status_step_snd K rm sl d
    have h2 := host_status_step_fst K rm sl d
    have ih2 := ih (host_status_step K rm sl d).2
    simp only [host_status_loop, List.mem_cons, exists_eq_or_imp]
    rw [h2.1, h2.2.1]
    by_cases hc : sl.ls_names ≠ none ∧ (host_status_step K rm sl d).1.ls_is_dead ≠ 0 ∧
        (rm ≠ 0 ∨ sl.ls_is_resetting ≠ 0)
    · rw [if_pos hc] at h1
      rw [h1] at ih2
      have h3 : (host_status_loop K rm rest 1).2 = 1 := by
        rcases ih2.1 with h | h <;> exact h
      rw [h1, h3]
      exact ⟨Or.inl rfl, fun _ => Or.inr (Or.inl hc), fun _ => rfl⟩
    · rw [if_neg hc] at h1
      rw [h1] at ih2
      rw [h1]
      refine ⟨ih2.1, ?_⟩
      constructor
      · intro h
        rcases ih2.2.mp h with h | h
        · exact Or.inl h
        · exact Or.inr (Or.inr h)
      · rintro (h | h | h)
        · exact ih2.2.mpr (Or.inl h)
        · exact absurd h hc
        · exact ih2.2.mpr (Or.inr h)

theorem host_status_loop_fst (K : sanlock_h) (rm : Int) (ls : List ls_slot) (d : Int) :
    (∃ sl ∈ (host_status_loop K rm ls d).1,
        sl.ls_names ≠ none ∧ sl.ls_is_dead ≠ 0 ∧ (rm ≠ 0 ∨ sl.ls_is_resetting ≠ 0)) ↔
    (∃ sl ∈ ls, sl.ls_names ≠ none ∧
        (sl.ls_is_dead ≠ 0 ∨ sl.ls_host_flags &&& K.SANLK_HOST_MASK = K.SANLK_HOST_DEAD) ∧
        (rm ≠ 0 ∨ sl.ls_is_resetting ≠ 0)) := by
  induction ls generalizing d with
  | nil => simp [host_status_loop]
  | cons sl rest ih =>
    have h2 := host_status_step_fst K rm sl d
    simp only [host_status_loop, List.mem_cons, exists_eq_or_imp]
    rw [ih (host_status_step K rm sl d).2, h2.1, h2.2.1, h2.2.2]
    constructor
    · rintro (⟨hn, hd, hr⟩ | h)
      · exact Or.inl ⟨hn, hd.imp id (fun x => x.2), hr⟩
      · exact Or.inr h
    · rintro (⟨hn, hd, hr⟩ | h)
      · exact Or.inl ⟨hn, hd.imp id (fun x => ⟨hn, x⟩), hr⟩
      · exact Or.inr h

/-- C9: with the native timeout check disabled (`native_timeout = 0`), `reset_done`
returns 1 or 0, and it returns 1 exactly when some open channel has `ls_is_dead`
set after the pass and, in that same channel, `resource_mode` is not 0 or
`ls_is_resetting` is set.  In terms of the entries after the `get_hosts` loop:
exactly when some open channel has `ls_is_dead` set already or its recorded host
state is `DEAD`, and `resource_mode` is not 0 or `ls_is_resetting` is set in
that channel.  The `get_hosts` loop leaves `ls_names`, `ls_is_dead` and
`ls_is_resetting` of every entry as they were, and the recorded host flags are
those of the record received in this pass or the ones recorded before. -/
theorem reset_done_host_status (K : sanlock_h) (inp : done_input) (s : reset_state)
    (h : s.native_timeout = 0) :
    ((reset_done K inp s).2 = 1 ∨ (reset_done K inp s).2 = 0) ∧
    ((reset_done K inp s).2 = 1 ↔
      ∃ sl ∈ (reset_done K inp s).1.ls,
        sl.ls_names ≠ none ∧ sl.ls_is_dead ≠ 0 ∧
        (s.resource_mode ≠ 0 ∨ sl.ls_is_resetting ≠ 0)) ∧
    ((reset_done K inp s).2 = 1 ↔
      ∃ sl ∈ (get_hosts_loop inp 0 s.ls 0).1,
        sl.ls_names ≠ none ∧
        (sl.ls_is_dead ≠ 0 ∨
          sl.ls_host_flags &&& K.SANLK_HOST_MASK = K.SANLK_HOST_DEAD) ∧
        (s.resource_mode ≠ 0 ∨ sl.ls_is_resetting ≠ 0)) ∧
    (∀ (i : Nat) (sl : ls_slot), (get_hosts_loop inp 0 s.ls 0).1[i]? = some sl →
      ∃ sl0, s.ls[i]? = some sl0 ∧ sl.ls_names = sl0.ls_names ∧
        sl.ls_is_dead = sl0.ls_is_dead ∧ sl.ls_is_resetting = sl0.ls_is_resetting ∧
        (sl.ls_host_flags = sl0.ls_host_flags ∨
          ∃ hs, (inp.get_hosts i).hs = some hs ∧ sl.ls_host_flags = hs.flags)) := by
  have hz := get_hosts_loop_zero inp 0 s.ls
  have hrd : reset_done K inp s =
      ({ s with
          ls := (host_status_loop K s.resource_mode (get_hosts_loop inp 0 s.ls 0).1 0).1
          native_timeout := 0 },
        (host_status_loop K s.resource_mode (get_hosts_loop inp 0 s.ls 0).1 0).2) := by
    simp only [reset_done, h, hz, if_true, check_host_status]
  have hl := host_status_loop_snd K s.resource_mode (get_hosts_loop inp 0 s.ls 0).1 0
  have hf := host_status_loop_fst K s.resource_mode (get_hosts_loop inp 0 s.ls 0).1 0
  rw [hrd]
  simp only
  have hiff : (host_status_loop K s.resource_mode (get_hosts_loop inp 0 s.ls 0).1 0).2 = 1 ↔
      ∃ sl ∈ (host_status_loop K s.resource_mode (get_hosts_loop inp 0 s.ls 0).1 0).1,
        sl.ls_names ≠ none ∧ sl.ls_is_dead ≠ 0 ∧
        (s.resource_mode ≠ 0 ∨ sl.ls_is_resetting ≠ 0) := by
    rw [hl.2]
    constructor
    · rintro (h0 | h0)
      · exact absurd h0 (by decide)
      · exact h0
    · exact fun h0 => Or.inr h0
  refine ⟨hl.1, hiff, hiff.trans hf, ?_⟩
  intro i sl hi
  obtain ⟨sl0, nt0, h1, h2⟩ := get_hosts_loop_get inp 0 s.ls 0 i sl hi
  have hfr := get_hosts_step_frame (inp.get_hosts (0 + i)) sl0 nt0
  rw [← h2, Nat.zero_add] at hfr
  exact ⟨sl0, h1, hfr⟩

set_option maxRecDepth 100000 in
theorem reset_done_host_status_witness :
    (reset_done sample_K (sample_pass_error 1100)
      (sample_reset 0 0 [sample_slot 0 0 2 0 0 5040 5, sample_slot 1 0 3 1000 5000 5040 3])).2
      = 0 ∧
    ((reset_done sample_K (sample_pass_error 1100)
      (sample_reset 0 0 [sample_slot 0 0 2 0 0 5040 5, sample_slot 1 0 3 1000 5000 5040 3])).2
      = 1 ∨
    (reset_done sample_K (sample_pass_error 1100)
      (sample_reset 0 0 [sample_slot 0 0 2 0 0 5040 5, sample_slot 1 0 3 1000 5000 5040 3])).2
      = 0) :=
  ⟨by decide,
   (reset_done_host_status sample_K (sample_pass_error 1100)
      (sample_reset 0 0 [sample_slot 0 0 2 0 0 5040 5, sample_slot 1 0 3 1000 5000 5040 3])
      rfl).1⟩

/-! ## `reset_fail` -/

/-- The loop body of `reset_fail` increments `cmd_fail` for an open entry that
classifies as `FAIL`, `cmd_wait` for one that classifies as `WAIT`, and skips an
entry that is not open. -/
theorem reset_fail_step_eq (now begin : Nat) (sl : ls_slot) (acc : fail_acc) :
    reset_fail_step now begin sl acc =
      if sl.ls_names = none then acc
      else if ls_classify now begin sl = ls_verdict.WAIT then
        { acc with cmd_wait := acc.cmd_wait + 1 }
      else { acc with cmd_fail := acc.cmd_fail + 1 } := by
  unfold reset_fail_step ls_classify
  cases hn : sl.ls_names with
  | none => simp
  | some nm =>
    simp only [reduceCtorEq, if_false]
    split_ifs <;> simp_all

theorem reset_fail_loop_counts (now : Nat → Nat) (begin : Nat) (i : Nat) (ls : List ls_slot)
    (acc : fail_acc) :
    acc.cmd_wait ≤ (reset_fail_loop now begin i ls acc).cmd_wait ∧
    acc.cmd_fail ≤ (reset_fail_loop now begin i ls acc).cmd_fail ∧
    (acc.cmd_wait < (reset_fail_loop now begin i ls acc).cmd_wait ↔
      ∃ j sl, ls[j]? = some sl ∧ sl.ls_names ≠ none ∧
        ls_classify (now (i + j)) begin sl = ls_verdict.WAIT) ∧
    (acc.cmd_fail < (reset_fail_loop now begin i ls acc).cmd_fail ↔
      ∃ j sl, ls[j]? = some sl ∧ sl.ls_names ≠ none ∧
        ls_classify (now (i + j)) begin sl = ls_verdict.FAIL) := by
  induction ls generalizing i acc with
  | nil => simp [reset_fail_loop]
  | cons a rest ih =>
    obtain ⟨ih1, ih2, ih3, ih4⟩ := ih (i + 1) (reset_fail_step (now i) begin a acc)
    have hex : ∀ v : ls_verdict,
        (∃ j sl, (a :: rest)[j]? = some sl ∧ sl.ls_names ≠ none ∧
          ls_classify (now (i + j)) begin sl = v) ↔
        ((a.ls_names ≠ none ∧ ls_classify (now i) begin a = v) ∨
          ∃ j sl, rest[j]? = some sl ∧ sl.ls_names ≠ none ∧
            ls_classify (now (i + 1 + j)) begin sl = v) := by
      intro v
      constructor
      · rintro ⟨j, sl, hj, hn, hv⟩
        cases j with
        | zero =>
          simp only [List.getElem?_cons_zero, Option.some.injEq] at hj
          subst hj
          exact Or.inl ⟨hn, by simpa using hv⟩
        | succ k =>
          simp only [List.getElem?_cons_succ] at hj
          refine Or.inr ⟨k, sl, hj, hn, ?_⟩
          rw [show i + 1 + k = i + (k + 1) by omega]
          exact hv
      · rintro (⟨hn, hv⟩ | ⟨k, sl, hj, hn, hv⟩)
        · exact ⟨0, a, by simp, hn, by simpa using hv⟩
        · refine ⟨k + 1, sl, by simpa using hj, hn, ?_⟩
          rw [show i + (k + 1) = i + 1 + k by omega]
          exact hv
    rw [hex, hex, ← ih3, ← ih4]
    have hs := reset_fail_step_eq (now i) begin a acc
    simp only [reset_fail_loop]
    by_cases hn : a.ls_names = none
    · rw [if_pos hn] at hs
      rw [hs] at ih1 ih2 ⊢
      refine ⟨ih1, ih2, ?_, ?_⟩ <;> simp [hn]
    · rw [if_neg hn] at hs
      cases hv : ls_classify (now i) begin a with
      | WAIT =>
        rw [hv, if_pos rfl] at hs
        rw [hs] at ih1 ih2 ⊢
        simp only at ih1 ih2 ⊢
        refine ⟨by omega, ih2, ?_, ?_⟩
        · constructor
          · intro _
            exact Or.inl ⟨hn, trivial⟩
          · intro _
            omega
        · simp
      | FAIL =>
        rw [hv, if_neg (by decide)] at hs
        rw [hs] at ih1 ih2 ⊢
        simp only at ih1 ih2 ⊢
        refine ⟨ih1, by omega, ?_, ?_⟩
        · simp
        · constructor
          · intro _
            exact Or.inl ⟨hn, trivial⟩
          · intro _
            omega

set_option maxRecDepth 100000 in
/-- C10, counterexample: a state in which `watchdog_failed_to_fire` is not set and
none of the 64 entries is open (every channel has been unregistered).  No open
channel classifies as `WAIT`, and `reset_fail` returns 0. -/
theorem reset_fail_no_open_channel :
    reset_fail (fun _ => 2000) (sample_reset 0 90 []) = 0 ∧
    (sample_reset 0 90 []).watchdog_failed_to_fire = 0 ∧
    (sample_reset 0 90 []).ls.length = 64 ∧
    ∀ sl ∈ (sample_reset 0 90 []).ls, sl.ls_names = none := by
  refine ⟨by decide, by decide, by decide, by decide⟩

/-- C10, amended: `reset_fail` returns 1 when `watchdog_failed_to_fire` is set.
Otherwise it returns 0 when at least one open channel classifies as `WAIT`; it
returns 1 when at least one channel is open and every open channel classifies
as `FAIL`; and it returns 0 when no channel is open. -/
theorem reset_fail_decision (now : Nat → Nat) (s : reset_state) :
    (s.watchdog_failed_to_fire ≠ 0 → reset_fail now s = 1) ∧
    (s.watchdog_failed_to_fire = 0 →
      (∃ (i : Nat) (sl : ls_slot), s.ls[i]? = some sl ∧ sl.ls_names ≠ none ∧
        ls_classify (now i) s.begin sl = ls_verdict.WAIT) →
      reset_fail now s = 0) ∧
    (s.watchdog_failed_to_fire = 0 →
      (∃ (i : Nat) (sl : ls_slot), s.ls[i]? = some sl ∧ sl.ls_names ≠ none) →
      (∀ (i : Nat) (sl : ls_slot), s.ls[i]? = some sl → sl.ls_names ≠ none →
        ls_classify (now i) s.begin sl = ls_verdict.FAIL) →
      reset_fail now s = 1) ∧
    (s.watchdog_failed_to_fire = 0 →
      (∀ (i : Nat) (sl : ls_slot), s.ls[i]? = some sl → sl.ls_names = none) →
      reset_fail now s = 0) := by
  obtain ⟨h1, h2, h3, h4⟩ :=
    reset_fail_loop_counts now s.begin 0 s.ls { cmd_fail := 0, cmd_wait := 0 }
  simp only [Nat.zero_add] at h3 h4
  refine ⟨?_, ?_, ?_, ?_⟩
  · intro hw
    simp [reset_fail, hw]
  · intro hw hex
    have hpos := h3.mpr hex
    have hne : (reset_fail_loop now s.begin 0 s.ls { cmd_fail := 0, cmd_wait := 0 }).cmd_wait
        ≠ 0 := by
      simp only at hpos
      omega
    simp [reset_fail, hw, hne]
  · intro hw hex hall
    obtain ⟨i, sl, hi, hn⟩ := hex
    have hpos := h4.mpr ⟨i, sl, hi, hn, hall i sl hi hn⟩
    have hnw : ¬ ((0 : Int) <
        (reset_fail_loop now s.begin 0 s.ls { cmd_fail := 0, cmd_wait := 0 }).cmd_wait) := by
      intro hlt
      obtain ⟨j, sl2, hj, hn2, hv⟩ := h3.mp hlt
      rw [hall j sl2 hj hn2] at hv
      exact absurd hv (by decide)
    have hf : (reset_fail_loop now s.begin 0 s.ls { cmd_fail := 0, cmd_wait := 0 }).cmd_fail
        ≠ 0 := by
      simp only at hpos
      omega
    have hw0 : (reset_fail_loop now s.begin 0 s.ls { cmd_fail := 0, cmd_wait := 0 }).cmd_wait
        = 0 := by
      simp only at h1 hnw
      omega
    simp [reset_fail, hw, hf, hw0]
  · intro hw hall
    have hnf : ¬ ((0 : Int) <
        (reset_fail_loop now s.begin 0 s.ls { cmd_fail := 0, cmd_wait := 0 }).cmd_fail) := by
      intro hlt
      obtain ⟨j, sl2, hj, hn2, _⟩ := h4.mp hlt
      exact hn2 (hall j sl2 hj)
    have hf : (reset_fail_loop now s.begin 0 s.ls { cmd_fail := 0, cmd_wait := 0 }).cmd_fail
        = 0 := by
      simp only at h2 hnf
      omega
    simp [reset_fail, hw, hf]

end SanlkReset

namespace SanlkReset

/-! ## Entries of the tables after the loops of `reset_done` -/

theorem get_hosts_step_fst (r : hosts_reply) (sl : ls_slot) (nt : Int) :
    (get_hosts_step r sl nt).1 = (get_hosts_step r sl 0).1 := by
  unfold get_hosts_step
  repeat' split
  all_goals rfl

theorem get_hosts_loop_getElem (inp : done_input) (i : Nat) (ls : List ls_slot) (nt : Int)
    (j : Nat) :
    (get_hosts_loop inp i ls nt).1[j]? =
      (ls[j]?).map (fun sl => (get_hosts_step (inp.get_hosts (i + j)) sl 0).1) := by
  induction ls generalizing i nt j with
  | nil => simp [get_hosts_loop]
  | cons a rest ih =>
    simp only [get_hosts_loop]
    cases j with
    | zero =>
      simp only [List.getElem?_cons_zero, Option.map_some', Nat.add_zero]
      rw [get_hosts_step_fst]
    | succ k =>
      simp only [List.getElem?_cons_succ]
      rw [ih (i + 1) _ k, show i + 1 + k = i + (k + 1) by omega]

theorem native_timeout_step_fst (now : Nat) (nt nr : Int) (sl : ls_slot) (acc : native_acc) :
    (native_timeout_step now nt nr sl acc).1 = native_begin now sl := by
  unfold native_timeout_step native_begin
  cases hn : sl.ls_names with
  | none => simp
  | some nm =>
    simp only
    by_cases hr : sl.ls_is_resetting = 0
    · simp [hr]
    · by_cases hb : sl.ls_resetting_begin_local = 0
      · simp only [hr, hb, if_false, if_true]
        split_ifs <;> simp_all
      · simp only [hr, hb, if_false]
        split_ifs <;> simp_all

theorem native_timeout_loop_getElem (inp : done_input) (nt nr : Int) (i : Nat)
    (ls : List ls_slot) (acc : native_acc) (j : Nat) :
    (native_timeout_loop inp nt nr i ls acc).1[j]? =
      (ls[j]?).map (fun sl => native_begin (inp.now (i + j)) sl) := by
  induction ls generalizing i acc j with
  | nil => simp [native_timeout_loop]
  | cons a rest ih =>
    simp only [native_timeout_loop]
    cases j with
    | zero =>
      simp only [List.getElem?_cons_zero, Option.map_some', Nat.add_zero]
      rw [native_timeout_step_fst]
    | succ k =>
      simp only [List.getElem?_cons_succ]
      rw [ih (i + 1) _ k, show i + 1 + k = i + (k + 1) by omega]

theorem host_status_step_fst_eq (K : sanlock_h) (rm : Int) (sl : ls_slot) (d : Int) :
    (host_status_step K rm sl d).1 = (host_status_step K 0 sl 0).1 := by
  unfold host_status_step
  repeat' split
  all_goals rfl

theorem host_status_loop_getElem (K : sanlock_h) (rm : Int) (ls : List ls_slot) (d : Int)
    (j : Nat) :
    (host_status_loop K rm ls d).1[j]? =
      (ls[j]?).map (fun sl => (host_status_step K 0 sl 0).1) := by
  induction ls generalizing d j with
  | nil => simp [host_status_loop]
  | cons a rest ih =>
    simp only [host_status_loop]
    cases j with
    | zero =>
      simp only [List.getElem?_cons_zero, Option.map_some']
      rw [host_status_step_fst_eq]
    | succ k =>
      simp only [List.getElem?_cons_succ]
      rw [ih _ k]

end SanlkReset

namespace SanlkReset

/-- The three shapes of the state that `reset_done` leaves. -/
theorem reset_done_cases (K : sanlock_h) (inp : done_input) (s : reset_state) :
    ((get_hosts_loop inp 0 s.ls s.native_timeout).2 = 0 ∧
      reset_done K inp s =
        ({ s with
            ls := (host_status_loop K s.resource_mode
              (get_hosts_loop inp 0 s.ls s.native_timeout).1 0).1
            native_timeout := 0 },
          (host_status_loop K s.resource_mode
            (get_hosts_loop inp 0 s.ls s.native_timeout).1 0).2)) ∨
    ((get_hosts_loop inp 0 s.ls s.native_timeout).2 ≠ 0 ∧
      (native_timeout_loop inp (get_hosts_loop inp 0 s.ls s.native_timeout).2 s.native_renewal 0
        (get_hosts_loop inp 0 s.ls s.native_timeout).1
        { watchdog_failed_to_fire := s.watchdog_failed_to_fire, is_done := 0 }
        ).2.watchdog_failed_to_fire ≠ 0 ∧
      reset_done K inp s =
        ({ s with
            ls := (native_timeout_loop inp (get_hosts_loop inp 0 s.ls s.native_timeout).2
              s.native_renewal 0 (get_hosts_loop inp 0 s.ls s.native_timeout).1
              { watchdog_failed_to_fire := s.watchdog_failed_to_fire, is_done := 0 }).1
            native_timeout := (get_hosts_loop inp 0 s.ls s.native_timeout).2
            watchdog_failed_to_fire :=
              (native_timeout_loop inp (get_hosts_loop inp 0 s.ls s.native_timeout).2
                s.native_renewal 0 (get_hosts_loop inp 0 s.ls s.native_timeout).1
                { watchdog_failed_to_fire := s.watchdog_failed_to_fire, is_done := 0 }
                ).2.watchdog_failed_to_fire },
          0)) ∨
    ((get_hosts_loop inp 0 s.ls s.native_timeout).2 ≠ 0 ∧
      (native_timeout_loop inp (get_hosts_loop inp 0 s.ls s.native_timeout).2 s.native_renewal 0
        (get_hosts_loop inp 0 s.ls s.native_timeout).1
        { watchdog_failed_to_fire := s.watchdog_failed_to_fire, is_done := 0 }
        ).2.watchdog_failed_to_fire = 0 ∧
      reset_done K inp s =
        ({ s with
            ls := (host_status_loop K s.resource_mode
              (native_timeout_loop inp (get_hosts_loop inp 0 s.ls s.native_timeout).2
                s.native_renewal 0 (get_hosts_loop inp 0 s.ls s.native_timeout).1
                { watchdog_failed_to_fire := s.watchdog_failed_to_fire, is_done := 0 }).1
              (native_timeout_loop inp (get_hosts_loop inp 0 s.ls s.native_timeout).2
                s.native_renewal 0 (get_hosts_loop inp 0 s.ls s.native_timeout).1
                { watchdog_failed_to_fire := s.watchdog_failed_to_fire, is_done := 0 }
                ).2.is_done).1
            native_timeout := (get_hosts_loop inp 0 s.ls s.native_timeout).2
            watchdog_failed_to_fire := 0 },
          (host_status_loop K s.resource_mode
              (native_timeout_loop inp (get_hosts_loop inp 0 s.ls s.native_timeout).2
                s.native_renewal 0 (get_hosts_loop inp 0 s.ls s.native_timeout).1
                { watchdog_failed_to_fire := s.watchdog_failed_to_fire, is_done := 0 }).1
              (native_timeout_loop inp (get_hosts_loop inp 0 s.ls s.native_timeout).2
                s.native_renewal 0 (get_hosts_loop inp 0 s.ls s.native_timeout).1
                { watchdog_failed_to_fire := s.watchdog_failed_to_fire, is_done := 0 }
                ).2.is_done).2)) := by
  by_cases h1 : (get_hosts_loop inp 0 s.ls s.native_timeout).2 = 0
  · left
    refine ⟨h1, ?_⟩
    simp only [reset_done, h1, if_true, check_host_status]
  · right
    by_cases h2 : (native_timeout_loop inp (get_hosts_loop inp 0 s.ls s.native_timeout).2
        s.native_renewal 0 (get_hosts_loop inp 0 s.ls s.native_timeout).1
        { watchdog_failed_to_fire := s.watchdog_failed_to_fire, is_done := 0 }
        ).2.watchdog_failed_to_fire = 0
    · right
      refine ⟨h1, h2, ?_⟩
      simp only [reset_done, h1, if_false, h2, ne_eq, not_true_eq_false, check_host_status]
    · left
      refine ⟨h1, h2, ?_⟩
      simp only [reset_done, h1, if_false, h2, ne_eq, not_false_eq_true, if_true]

/-- Entry `j` of the tables after `reset_done`, from entry `j` before it. -/
theorem reset_done_getElem (K : sanlock_h) (inp : done_input) (s : reset_state) (j : Nat) :
    (reset_done K inp s).1.ls[j]? =
      (s.ls[j]?).map (fun sl =>
        if (reset_done K inp s).1.native_timeout = 0 then
          (host_status_step K 0 (get_hosts_step (inp.get_hosts j) sl 0).1 0).1
        else if (reset_done K inp s).1.watchdog_failed_to_fire ≠ 0 then
          native_begin (inp.now j) (get_hosts_step (inp.get_hosts j) sl 0).1
        else
          (host_status_step K 0
            (native_begin (inp.now j) (get_hosts_step (inp.get_hosts j) sl 0).1) 0).1) := by
  rcases reset_done_cases K inp s with ⟨h1, h⟩ | ⟨h1, h2, h⟩ | ⟨h1, h2, h⟩
  · rw [h]
    simp only [if_true]
    rw [host_status_loop_getElem, get_hosts_loop_getElem]
    cases s.ls[j]? <;> simp
  · rw [h]
    simp only [h1, if_false, h2, ne_eq, not_false_eq_true, if_true]
    rw [native_timeout_loop_getElem, get_hosts_loop_getElem]
    cases s.ls[j]? <;> simp
  · rw [h]
    simp only [h1, if_false, ne_eq, not_true_eq_false]
    rw [host_status_loop_getElem, native_timeout_loop_getElem, get_hosts_loop_getElem]
    cases s.ls[j]? <;> simp

end SanlkReset

namespace SanlkReset

/-! ## What `get_events` and `unregister_ls` leave untouched -/

theorem map_set_of_eq {α β : Type} (f : α → β) (l : List α) (i : Nat) (x y : α)
    (h : l[i]? = some y) (hf : f x = f y) : (l.set i x).map f = l.map f := by
  induction l generalizing i with
  | nil => simp
  | cons a rest ih =>
    cases i with
    | zero =>
      simp only [List.getElem?_cons_zero, Option.some.injEq] at h
      subst h
      simp [hf]
    | succ k =>
      simp only [List.getElem?_cons_succ] at h
      simp [ih k h]

theorem unregister_ls_kept (i : Nat) (s : reset_state) :
    (unregister_ls i s).ls.map ls_kept = s.ls.map ls_kept ∧
    (unregister_ls i s).native_timeout = s.native_timeout ∧
    (unregister_ls i s).watchdog_failed_to_fire = s.watchdog_failed_to_fire ∧
    (unregister_ls i s).begin = s.begin ∧
    (unregister_ls i s).resource_mode = s.resource_mode ∧
    (unregister_ls i s).native_renewal = s.native_renewal := by
  unfold unregister_ls
  cases h : s.ls[i]? with
  | none => simp
  | some sl =>
    simp only [and_self, and_true]
    exact map_set_of_eq ls_kept s.ls i _ sl h rfl

theorem get_events_loop_kept (E : sanlk_reset_h) (i : Nat) (rs : List event_reply)
    (s : reset_state) :
    (get_events_loop E i rs s).ls.map ls_kept = s.ls.map ls_kept ∧
    (get_events_loop E i rs s).native_timeout = s.native_timeout ∧
    (get_events_loop E i rs s).watchdog_failed_to_fire = s.watchdog_failed_to_fire ∧
    (get_events_loop E i rs s).begin = s.begin ∧
    (get_events_loop E i rs s).resource_mode = s.resource_mode ∧
    (get_events_loop E i rs s).native_renewal = s.native_renewal := by
  induction rs generalizing s with
  | nil => simp [get_events_loop]
  | cons r rest ih =>
    unfold get_events_loop
    by_cases h1 : r.rv = -EAGAIN
    · simp [h1]
    · rw [if_neg h1]
      by_cases h2 : r.rv < 0
      · rw [if_pos h2]
        exact unregister_ls_kept i s
      · rw [if_neg h2]
        cases h : s.ls[i]? with
        | none => exact ih s
        | some sl =>
          simp only
          split_ifs
          · have h3 := ih { s with ls := s.ls.set i { sl with ls_is_resetting := 1 } }
            simp only at h3
            have hm := map_set_of_eq ls_kept s.ls i { sl with ls_is_resetting := 1 } sl h rfl
            rw [hm] at h3
            exact h3
          · exact ih s
          · exact ih s

/-- Reading one field of an entry out of the kept fields. -/
theorem kept_getElem {l1 l2 : List ls_slot} (h : l1.map ls_kept = l2.map ls_kept) (j : Nat) :
    (l1[j]?).map ls_kept = (l2[j]?).map ls_kept := by
  rw [← List.getElem?_map, ← List.getElem?_map, h]

end SanlkReset

namespace SanlkReset

/-! ## `ls_is_dead` -/

theorem kept_some {l1 l2 : List ls_slot} (h : l1.map ls_kept = l2.map ls_kept) (j : Nat)
    (sl : ls_slot) (hj : l2[j]? = some sl) :
    ∃ sl2, l1[j]? = some sl2 ∧ ls_kept sl2 = ls_kept sl := by
  have hk := kept_getElem h j
  rw [hj] at hk
  cases h1 : l1[j]? with
  | none => simp [h1] at hk
  | some sl2 =>
    rw [h1] at hk
    exact ⟨sl2, rfl, by simpa using hk⟩

theorem host_status_step_is_dead (K : sanlock_h) (rm : Int) (sl : ls_slot) (d : Int)
    (hd : sl.ls_is_dead = 1) : (host_status_step K rm sl d).1.ls_is_dead = 1 := by
  unfold host_status_step
  cases hn : sl.ls_names with
  | none => simpa using hd
  | some nm =>
    simp only [hd]
    split_ifs <;> simp_all

theorem native_begin_is_dead (now : Nat) (sl : ls_slot) :
    (native_begin now sl).ls_is_dead = sl.ls_is_dead := by
  unfold native_begin
  split_ifs <;> rfl

theorem reset_done_is_dead (K : sanlock_h) (inp : done_input) (s : reset_state) (i : Nat)
    (sl : ls_slot) (h : s.ls[i]? = some sl) (hd : sl.ls_is_dead = 1) :
    ∃ sl2, (reset_done K inp s).1.ls[i]? = some sl2 ∧ sl2.ls_is_dead = 1 := by
  have ha : (get_hosts_step (inp.get_hosts i) sl 0).1.ls_is_dead = 1 := by
    rw [(get_hosts_step_frame (inp.get_hosts i) sl 0).2.1]
    exact hd
  have hb : (native_begin (inp.now i) (get_hosts_step (inp.get_hosts i) sl 0).1).ls_is_dead
      = 1 := by
    rw [native_begin_is_dead]
    exact ha
  rw [reset_done_getElem, h]
  simp only [Option.map_some']
  refine ⟨_, rfl, ?_⟩
  split_ifs
  · exact host_status_step_is_dead K 0 _ 0 ha
  · exact hb
  · exact host_status_step_is_dead K 0 _ 0 hb

theorem run_op_is_dead (K : sanlock_h) (E : sanlk_reset_h) (op : reset_op) (s : reset_state)
    (i : Nat) (sl : ls_slot) (h : s.ls[i]? = some sl) (hd : sl.ls_is_dead = 1) :
    ∃ sl2, (run_op K E op s).ls[i]? = some sl2 ∧ sl2.ls_is_dead = 1 := by
  cases op with
  | done inp => exact reset_done_is_dead K inp s i sl h hd
  | fail now => exact ⟨sl, h, hd⟩
  | events k replies =>
    obtain ⟨sl2, h2, hk⟩ := kept_some (get_events_loop_kept E k replies s).1 i sl h
    refine ⟨sl2, h2, ?_⟩
    simp only [ls_kept, Prod.mk.injEq] at hk
    rw [hk.2.2.2.2.2.1]
    exact hd
  | unregister k =>
    obtain ⟨sl2, h2, hk⟩ := kept_some (unregister_ls_kept k s).1 i sl h
    refine ⟨sl2, h2, ?_⟩
    simp only [ls_kept, Prod.mk.injEq] at hk
    rw [hk.2.2.2.2.2.1]
    exact hd

/-- C20: `ls_is_dead` is sticky.  Once `ls_is_dead[i]` is 1 it is 1 after every
sequence of `reset_done` passes (whatever `sanlock_get_hosts` answers and
whatever the clock reads), `reset_fail` calls, `get_events` calls and
`unregister_ls` calls, on any entries. -/
theorem is_dead_sticky (K : sanlock_h) (E : sanlk_reset_h) (ops : List reset_op)
    (s : reset_state) (i : Nat) (sl : ls_slot) (h : s.ls[i]? = some sl)
    (hd : sl.ls_is_dead = 1) :
    ∃ sl2, (run_ops K E ops s).ls[i]? = some sl2 ∧ sl2.ls_is_dead = 1 := by
  induction ops generalizing s sl with
  | nil => exact ⟨sl, h, hd⟩
  | cons op rest ih =>
    obtain ⟨sl1, h1, hd1⟩ := run_op_is_dead K E op s i sl h hd
    exact ih (run_op K E op s) sl1 h1 hd1

set_option maxRecDepth 100000 in
theorem is_dead_sticky_witness :
    ∃ sl2,
      (run_ops sample_K sample_E
        [reset_op.done (sample_pass 5060 3 1100),
         reset_op.fail (fun _ => 1100),
         reset_op.events 0 [{ rv := 0, event := 2, data := 0, from_host := 2, from_gen := 1 }],
         reset_op.unregister 0,
         reset_op.done (sample_pass 5080 3 1102)]
        (sample_reset 0 90 [sample_slot 0 1 3 0 0 5040 5])).ls[0]? = some sl2 ∧
      sl2.ls_is_dead = 1 :=
  is_dead_sticky sample_K sample_E _ (sample_reset 0 90 [sample_slot 0 1 3 0 0 5040 5]) 0
    (sample_slot 0 1 3 0 0 5040 5) (by decide) (by decide)

end SanlkReset

namespace SanlkReset

/-! ## Classification of the channels in `reset_fail` -/

theorem reset_fail_loop_closed (now : Nat → Nat) (begin : Nat) (i : Nat) (ls : List ls_slot)
    (acc : fail_acc) (h : ∀ x ∈ ls, x.ls_names = none) :
    reset_fail_loop now begin i ls acc = acc := by
  induction ls generalizing i acc with
  | nil => rfl
  | cons a rest ih =>
    have ha : a.ls_names = none := h a (List.mem_cons_self a rest)
    have hs : reset_fail_step (now i) begin a acc = acc := by
      simp [reset_fail_step, ha]
    simp only [reset_fail_loop, hs]
    exact ih (i + 1) acc (fun x hx => h x (List.mem_cons_of_mem a hx))

theorem reset_fail_loop_append (now : Nat → Nat) (begin : Nat) (i : Nat) (l1 l2 : List ls_slot)
    (acc : fail_acc) :
    reset_fail_loop now begin i (l1 ++ l2) acc =
      reset_fail_loop now begin (i + l1.length) l2 (reset_fail_loop now begin i l1 acc) := by
  induction l1 generalizing i acc with
  | nil => simp [reset_fail_loop]
  | cons a rest ih =>
    rw [List.cons_append]
    simp only [reset_fail_loop, List.length_cons]
    rw [ih (i + 1), show i + 1 + rest.length = i + (rest.length + 1) by omega]

/-- With one open channel only, `reset_fail` returns what the body of its loop
counts for that channel. -/
theorem reset_fail_single (now : Nat → Nat) (s : reset_state) (pre post : List ls_slot)
    (sl : ls_slot) (hls : s.ls = pre ++ sl :: post) (hpre : ∀ x ∈ pre, x.ls_names = none)
    (hpost : ∀ x ∈ post, x.ls_names = none) (hw : s.watchdog_failed_to_fire = 0) :
    reset_fail now s =
      if (reset_fail_step (now pre.length) s.begin sl { cmd_fail := 0, cmd_wait := 0 }).cmd_fail
          ≠ 0 ∧
        ¬ ((reset_fail_step (now pre.length) s.begin sl
          { cmd_fail := 0, cmd_wait := 0 }).cmd_wait ≠ 0) then 1 else 0 := by
  unfold reset_fail
  rw [if_neg (by simp [hw]), hls, reset_fail_loop_append, reset_fail_loop_closed _ _ _ pre _ hpre]
  simp only [reset_fail_loop, Nat.zero_add]
  rw [reset_fail_loop_closed _ _ _ post _ hpost]

/-- C11: an open channel that has not seen `RESETTING` counts `FAIL` in `reset_fail`
if the host is dead in it, or free in it, or `ls_renewals >= 4`, and counts `WAIT`
otherwise.  With `watchdog_failed_to_fire` unset and this channel the only open
one, neither dead nor free, `reset_fail` returns 1 when `ls_renewals >= 4` and 0
otherwise (so 0 for 0, 1, 2, 3). -/
theorem reset_fail_without_reply (sl : ls_slot) (nm : String) (ho : sl.ls_names = some nm)
    (hr : sl.ls_is_resetting = 0) :
    (∀ (now begin : Nat) (acc : fail_acc),
      reset_fail_step now begin sl acc =
        if sl.ls_is_dead ≠ 0 ∨ sl.ls_is_free ≠ 0 ∨ sl.ls_renewals ≥ 4 then
          { acc with cmd_fail := acc.cmd_fail + 1 }
        else { acc with cmd_wait := acc.cmd_wait + 1 }) ∧
    (∀ (s : reset_state) (pre post : List ls_slot) (now : Nat → Nat),
      s.ls = pre ++ sl :: post → (∀ x ∈ pre, x.ls_names = none) →
      (∀ x ∈ post, x.ls_names = none) → s.watchdog_failed_to_fire = 0 →
      sl.ls_is_dead = 0 → sl.ls_is_free = 0 →
      reset_fail now s = if sl.ls_renewals ≥ 4 then 1 else 0) := by
  have hstep : ∀ (now begin : Nat) (acc : fail_acc),
      reset_fail_step now begin sl acc =
        if sl.ls_is_dead ≠ 0 ∨ sl.ls_is_free ≠ 0 ∨ sl.ls_renewals ≥ 4 then
          { acc with cmd_fail := acc.cmd_fail + 1 }
        else { acc with cmd_wait := acc.cmd_wait + 1 } := by
    intro now begin acc
    unfold reset_fail_step
    rw [ho]
    simp only [hr, ne_eq, not_true_eq_false, if_false]
    by_cases h1 : sl.ls_is_dead = 0
    · by_cases h2 : sl.ls_is_free = 0
      · by_cases h3 : sl.ls_renewals ≥ 4
        · simp [h1, h2, h3]
        · simp [h1, h2, h3]
      · simp [h1, h2]
    · simp [h1]
  refine ⟨hstep, ?_⟩
  intro s pre post now hls hpre hpost hw hd hf
  rw [reset_fail_single now s pre post sl hls hpre hpost hw, hstep]
  by_cases h4 : sl.ls_renewals ≥ 4
  · simp [hd, hf, h4]
  · simp [hd, hf, h4]

set_option maxRecDepth 100000 in
theorem reset_fail_without_reply_witness :
    reset_fail (fun _ => 1010) (sample_reset 0 90 [sample_slot 0 0 3 0 0 5040 3]) = 0 ∧
    reset_fail (fun _ => 1010) (sample_reset 0 90 [sample_slot 0 0 4 0 0 5040 3]) = 1 :=
  ⟨(reset_fail_without_reply (sample_slot 0 0 3 0 0 5040 3) "ls1" rfl rfl).2
      (sample_reset 0 90 [sample_slot 0 0 3 0 0 5040 3]) [] (List.replicate 63 closed_slot)
      (fun _ => 1010) rfl (by simp) (by simp [closed_slot]) rfl rfl rfl,
   (reset_fail_without_reply (sample_slot 0 0 4 0 0 5040 3) "ls1" rfl rfl).2
      (sample_reset 0 90 [sample_slot 0 0 4 0 0 5040 3]) [] (List.replicate 63 closed_slot)
      (fun _ => 1010) rfl (by simp) (by simp [closed_slot]) rfl rfl rfl⟩

/-- C12: an open channel that has seen `RESETTING` counts `FAIL` in `reset_fail` if
`now - begin > 300` and `WAIT` otherwise, whatever `ls_renewals`, `ls_is_free` and
`ls_is_dead` are; `now` is a reading of the monotonic clock not before `begin`.
With `watchdog_failed_to_fire` unset and this channel the only open one,
`reset_fail` returns 1 when `now - begin > 300` and 0 otherwise. -/
theorem reset_fail_after_reply (sl : ls_slot) (nm : String) (now begin : Nat)
    (ho : sl.ls_names = some nm) (hr : sl.ls_is_resetting ≠ 0) (hb : begin ≤ now)
    (hn : now < 2 ^ 64) :
    (∀ acc : fail_acc,
      reset_fail_step now begin sl acc =
        if now - begin > 300 then { acc with cmd_fail := acc.cmd_fail + 1 }
        else { acc with cmd_wait := acc.cmd_wait + 1 }) ∧
    (∀ (s : reset_state) (pre post : List ls_slot) (clock : Nat → Nat),
      s.ls = pre ++ sl :: post → (∀ x ∈ pre, x.ls_names = none) →
      (∀ x ∈ post, x.ls_names = none) → s.watchdog_failed_to_fire = 0 →
      s.begin = begin → clock pre.length = now →
      reset_fail clock s = if now - begin > 300 then 1 else 0) := by
  have hsub : u64_sub now begin = now - begin := by
    simp only [u64_sub]; omega
  have hstep : ∀ acc : fail_acc,
      reset_fail_step now begin sl acc =
        if now - begin > 300 then { acc with cmd_fail := acc.cmd_fail + 1 }
        else { acc with cmd_wait := acc.cmd_wait + 1 } := by
    intro acc
    unfold reset_fail_step
    rw [ho]
    simp only [hr, ne_eq, not_false_eq_true, if_true, hsub]
  refine ⟨hstep, ?_⟩
  intro s pre post clock hls hpre hpost hw hbeg hclk
  rw [reset_fail_single clock s pre post sl hls hpre hpost hw, hbeg, hclk, hstep]
  by_cases h3 : now - begin > 300
  · simp [h3]
  · simp [h3]

set_option maxRecDepth 100000 in
theorem reset_fail_after_reply_witness :
    reset_fail (fun _ => 1300) (sample_reset 0 90 [sample_slot 1 0 9 1010 5000 5040 3]) = 0 ∧
    reset_fail (fun _ => 1301) (sample_reset 0 90 [sample_slot 1 0 9 1010 5000 5040 3]) = 1 :=
  ⟨(reset_fail_after_reply (sample_slot 1 0 9 1010 5000 5040 3) "ls1" 1300 1000 rfl
      (by decide) (by decide) (by decide)).2
      (sample_reset 0 90 [sample_slot 1 0 9 1010 5000 5040 3]) [] (List.replicate 63 closed_slot)
      (fun _ => 1300) rfl (by simp) (by simp [closed_slot]) rfl rfl rfl,
   (reset_fail_after_reply (sample_slot 1 0 9 1010 5000 5040 3) "ls1" 1301 1000 rfl
      (by decide) (by decide) (by decide)).2
      (sample_reset 0 90 [sample_slot 1 0 9 1010 5000 5040 3]) [] (List.replicate 63 closed_slot)
      (fun _ => 1301) rfl (by simp) (by simp [closed_slot]) rfl rfl rfl⟩

end SanlkReset

namespace SanlkReset

/-! ## What each loop body of `reset_done` leaves of an entry -/

theorem get_hosts_step_ok (r : hosts_reply) (sl : ls_slot) (nt : Int) (hs : sanlk_host)
    (nm : String) (ho : sl.ls_names = some nm) (h0 : 0 ≤ r.rv) (hh : r.hs = some hs)
    (hc : r.hs_count = 1) (hid : hs.host_id = u64_of_int sl.ls_hostids) :
    get_hosts_step r sl nt =
      ({ (if sl.ls_timestamp ≠ 0 ∧ sl.ls_timestamp ≠ hs.timestamp then
            { sl with ls_renewals := sl.ls_renewals + 1 } else sl) with
          ls_timestamp := hs.timestamp, ls_host_flags := hs.flags },
        if hs.timestamp ≠ 0 ∧ hs.io_timeout ≠ 10 ∧ nt ≠ 0 then 0 else nt) := by
  unfold get_hosts_step
  rw [ho]
  simp only
  rw [if_neg (show ¬ r.rv < 0 by omega), hh]
  simp only
  rw [if_neg (show ¬ r.hs_count ≠ 1 by simp [hc]),
    if_neg (show ¬ hs.host_id ≠ u64_of_int sl.ls_hostids by simp [hid])]
  split_ifs <;> rfl

theorem get_hosts_step_frame2 (r : hosts_reply) (sl : ls_slot) (nt : Int) :
    (get_hosts_step r sl nt).1.ls_hostids = sl.ls_hostids ∧
    (get_hosts_step r sl nt).1.ls_resetting_begin_local = sl.ls_resetting_begin_local ∧
    (get_hosts_step r sl nt).1.ls_resetting_begin_timestamp = sl.ls_resetting_begin_timestamp ∧
    (get_hosts_step r sl nt).1.ls_is_free = sl.ls_is_free := by
  unfold get_hosts_step
  cases hn : sl.ls_names with
  | none => simp
  | some nm =>
    cases hh : r.hs with
    | none =>
      simp only
      split_ifs <;> simp
    | some hs =>
      simp only
      split_ifs <;> simp

theorem native_begin_frame (now : Nat) (sl : ls_slot) :
    (native_begin now sl).ls_names = sl.ls_names ∧
    (native_begin now sl).ls_hostids = sl.ls_hostids ∧
    (native_begin now sl).ls_timestamp = sl.ls_timestamp ∧
    (native_begin now sl).ls_host_flags = sl.ls_host_flags ∧
    (native_begin now sl).ls_is_resetting = sl.ls_is_resetting ∧
    (native_begin now sl).ls_renewals = sl.ls_renewals := by
  unfold native_begin
  split_ifs <;> simp

theorem host_status_step_frame (K : sanlock_h) (rm : Int) (sl : ls_slot) (d : Int) :
    (host_status_step K rm sl d).1.ls_hostids = sl.ls_hostids ∧
    (host_status_step K rm sl d).1.ls_timestamp = sl.ls_timestamp ∧
    (host_status_step K rm sl d).1.ls_host_flags = sl.ls_host_flags ∧
    (host_status_step K rm sl d).1.ls_renewals = sl.ls_renewals ∧
    (host_status_step K rm sl d).1.ls_resetting_begin_local = sl.ls_resetting_begin_local ∧
    (host_status_step K rm sl d).1.ls_resetting_begin_timestamp
      = sl.ls_resetting_begin_timestamp := by
  unfold host_status_step
  cases hn : sl.ls_names with
  | none => simp
  | some nm =>
    simp only
    split_ifs <;> simp

/-- `reset_done` writes `native_timeout` and `watchdog_failed_to_fire` only. -/
theorem reset_done_globals (K : sanlock_h) (inp : done_input) (s : reset_state) :
    (reset_done K inp s).1.begin = s.begin ∧
    (reset_done K inp s).1.resource_mode = s.resource_mode ∧
    (reset_done K inp s).1.native_renewal = s.native_renewal ∧
    (reset_done K inp s).1.native_timeout = (get_hosts_loop inp 0 s.ls s.native_timeout).2 := by
  rcases reset_done_cases K inp s with ⟨h1, h⟩ | ⟨h1, h2, h⟩ | ⟨h1, h2, h⟩
  · rw [h]
    simp [h1]
  · rw [h]
    simp
  · rw [h]
    simp

end SanlkReset

namespace SanlkReset

/-! ## `watchdog_failed_to_fire` -/

theorem native_timeout_step_wftf (now : Nat) (nt nr : Int) (sl : ls_slot) (acc : native_acc) :
    (native_timeout_step now nt nr sl acc).2.watchdog_failed_to_fire
        = acc.watchdog_failed_to_fire ∨
      (native_timeout_step now nt nr sl acc).2.watchdog_failed_to_fire = 1 := by
  unfold native_timeout_step
  cases hn : sl.ls_names with
  | none => simp
  | some nm =>
    simp only
    split_ifs <;> simp

theorem native_timeout_loop_wftf (inp : done_input) (nt nr : Int) (i : Nat) (ls : List ls_slot)
    (acc : native_acc) :
    (native_timeout_loop inp nt nr i ls acc).2.watchdog_failed_to_fire
        = acc.watchdog_failed_to_fire ∨
      (native_timeout_loop inp nt nr i ls acc).2.watchdog_failed_to_fire = 1 := by
  induction ls generalizing i acc with
  | nil => simp [native_timeout_loop]
  | cons a rest ih =>
    simp only [native_timeout_loop]
    rcases ih (i + 1) (native_timeout_step (inp.now i) nt nr a acc).2 with h | h
    · rw [h]
      exact native_timeout_step_wftf (inp.now i) nt nr a acc
    · exact Or.inr h

/-- C13: a pass of the poll loop in which `reset_done` changes
`watchdog_failed_to_fire` (only its native timeout check writes it, and it writes
1).  In that pass `reset_done` returns 0, `reset_fail` on the state it leaves
returns 1 for every reading of the clock, and the pass leaves the loop with exit
status `EXIT_FAILURE`, whatever the other channels are. -/
theorem watchdog_failed_to_fire_fatal (K : sanlock_h) (E : sanlk_reset_h) (inp : loop_input)
    (s : reset_state) (hp : 0 ≤ inp.poll_rv)
    (h : (reset_done K inp.done_in s).1.watchdog_failed_to_fire ≠ s.watchdog_failed_to_fire) :
    (reset_done K inp.done_in s).1.watchdog_failed_to_fire = 1 ∧
    (reset_done K inp.done_in s).2 = 0 ∧
    (∀ now, reset_fail now (reset_done K inp.done_in s).1 = 1) ∧
    (main_pass K E inp s).2 = some EXIT_FAILURE := by
  have hw : (reset_done K inp.done_in s).1.watchdog_failed_to_fire = 1 ∧
      (reset_done K inp.done_in s).2 = 0 := by
    rcases reset_done_cases K inp.done_in s with ⟨h1, he⟩ | ⟨h1, h2, he⟩ | ⟨h1, h2, he⟩
    · rw [he] at h
      exact absurd rfl h
    · rw [he] at h ⊢
      simp only at h ⊢
      rcases native_timeout_loop_wftf inp.done_in
          (get_hosts_loop inp.done_in 0 s.ls s.native_timeout).2 s.native_renewal 0
          (get_hosts_loop inp.done_in 0 s.ls s.native_timeout).1
          { watchdog_failed_to_fire := s.watchdog_failed_to_fire, is_done := 0 } with h3 | h3
      · exact absurd h3 h
      · exact ⟨h3, trivial⟩
    · rw [he] at h
      simp only at h
      rcases native_timeout_loop_wftf inp.done_in
          (get_hosts_loop inp.done_in 0 s.ls s.native_timeout).2 s.native_renewal 0
          (get_hosts_loop inp.done_in 0 s.ls s.native_timeout).1
          { watchdog_failed_to_fire := s.watchdog_failed_to_fire, is_done := 0 } with h3 | h3
      · rw [h2] at h3
        exact absurd h3 h
      · rw [h2] at h3
        exact absurd h3 (by decide)
  have hf : ∀ now, reset_fail now (reset_done K inp.done_in s).1 = 1 := by
    intro now
    simp [reset_fail, hw.1]
  refine ⟨hw.1, hw.2, hf, ?_⟩
  unfold main_pass
  rw [if_neg (by omega), if_neg (by omega)]
  simp only [hw.2, ne_eq, not_true_eq_false, if_false, hf, one_ne_zero, not_false_eq_true, if_true]

set_option maxRecDepth 100000 in
theorem watchdog_failed_to_fire_fatal_witness :
    (main_pass sample_K sample_E (sample_loop (sample_pass 5100 3 1100))
      (sample_reset 1 90
        [sample_slot 1 0 3 1000 5000 5040 3, sample_slot 1 1 3 1000 5060 5080 5])).2
      = some EXIT_FAILURE :=
  (watchdog_failed_to_fire_fatal sample_K sample_E (sample_loop (sample_pass 5100 3 1100))
    (sample_reset 1 90
      [sample_slot 1 0 3 1000 5000 5040 3, sample_slot 1 1 3 1000 5060 5080 5])
    (by decide) (by decide)).2.2.2

end SanlkReset

namespace SanlkReset

/-! ## Disabling the native timeout -/

theorem get_hosts_loop_disable (inp : done_input) (i : Nat) (ls : List ls_slot) (nt : Int)
    (j : Nat) (sl : ls_slot) (nm : String) (hs : sanlk_host) (hj : ls[j]? = some sl)
    (ho : sl.ls_names = some nm) (h0 : 0 ≤ (inp.get_hosts (i + j)).rv)
    (hh : (inp.get_hosts (i + j)).hs = some hs) (hc : (inp.get_hosts (i + j)).hs_count = 1)
    (hid : hs.host_id = u64_of_int sl.ls_hostids) (ht : hs.timestamp ≠ 0)
    (hio : hs.io_timeout ≠ 10) :
    (get_hosts_loop inp i ls nt).2 = 0 := by
  induction ls generalizing i nt j with
  | nil => simp at hj
  | cons a rest ih =>
    simp only [get_hosts_loop]
    cases j with
    | zero =>
      simp only [List.getElem?_cons_zero, Option.some.injEq] at hj
      subst hj
      simp only [Nat.add_zero] at h0 hh hc
      have h2 : (get_hosts_step (inp.get_hosts i) a nt).2 = 0 := by
        rw [get_hosts_step_ok (inp.get_hosts i) a nt hs nm ho h0 hh hc hid]
        by_cases hnt : nt = 0
        · simp [hnt]
        · simp [ht, hio, hnt]
      rw [h2]
      exact get_hosts_loop_zero inp (i + 1) rest
    | succ k =>
      simp only [List.getElem?_cons_succ] at hj
      have e : i + 1 + k = i + (k + 1) := by omega
      exact ih (i + 1) _ k hj (by rw [e]; exact h0) (by rw [e]; exact hh) (by rw [e]; exact hc)

/-- A pass of `reset_done` that starts with `native_timeout = 0`: the native
timeout check does not run, and the return value is the one of the host status
check. -/
theorem reset_done_disabled (K : sanlock_h) (inp : done_input) (s : reset_state)
    (h : s.native_timeout = 0) :
    (reset_done K inp s).1.native_timeout = 0 ∧
    (reset_done K inp s).1.watchdog_failed_to_fire = s.watchdog_failed_to_fire ∧
    ((reset_done K inp s).2 = 1 ∨ (reset_done K inp s).2 = 0) ∧
    ((reset_done K inp s).2 = 1 ↔
      ∃ sl ∈ (reset_done K inp s).1.ls,
        sl.ls_names ≠ none ∧ sl.ls_is_dead ≠ 0 ∧
        (s.resource_mode ≠ 0 ∨ sl.ls_is_resetting ≠ 0)) := by
  have hz := get_hosts_loop_zero inp 0 s.ls
  rcases reset_done_cases K inp s with ⟨h1, he⟩ | ⟨h1, h2, he⟩ | ⟨h1, h2, he⟩
  · rw [he]
    simp only
    have hl := host_status_loop_snd K s.resource_mode
      (get_hosts_loop inp 0 s.ls s.native_timeout).1 0
    refine ⟨trivial, trivial, hl.1, ?_⟩
    rw [hl.2]
    constructor
    · rintro (h0 | h0)
      · exact absurd h0 (by decide)
      · exact h0
    · exact fun h0 => Or.inr h0
  · rw [h] at h1
    exact absurd hz h1
  · rw [h] at h1
    exact absurd hz h1

theorem run_op_disabled (K : sanlock_h) (E : sanlk_reset_h) (op : reset_op) (s : reset_state)
    (h : s.native_timeout = 0) :
    (run_op K E op s).native_timeout = 0 ∧
    (run_op K E op s).watchdog_failed_to_fire = s.watchdog_failed_to_fire := by
  cases op with
  | done inp => exact ⟨(reset_done_disabled K inp s h).1, (reset_done_disabled K inp s h).2.1⟩
  | fail now => exact ⟨h, rfl⟩
  | events k replies =>
    have hk := get_events_loop_kept E k replies s
    exact ⟨by simpa [run_op, get_events, h] using hk.2.1, hk.2.2.1⟩
  | unregister k =>
    have hk := unregister_ls_kept k s
    exact ⟨by simpa [run_op, h] using hk.2.1, hk.2.2.1⟩

theorem run_ops_disabled (K : sanlock_h) (E : sanlk_reset_h) (ops : List reset_op)
    (s : reset_state) (h : s.native_timeout = 0) :
    (run_ops K E ops s).native_timeout = 0 ∧
    (run_ops K E ops s).watchdog_failed_to_fire = s.watchdog_failed_to_fire := by
  induction ops generalizing s with
  | nil => exact ⟨h, rfl⟩
  | cons op rest ih =>
    have h1 := run_op_disabled K E op s h
    have h2 := ih (run_op K E op s) h1.1
    exact ⟨h2.1, h2.2.trans h1.2⟩

set_option maxRecDepth 100000 in
/-- C14, counterexample: `sanlock_get_hosts` succeeds and reports the target with
`io_timeout = 0` (not 10) and timestamp 0.  `native_timeout` is still 90 after
that `reset_done` pass. -/
theorem io_timeout_ignored_at_timestamp_zero :
    (reset_done sample_K (sample_pass_io 0 0 2 1100)
      (sample_reset 0 90 [sample_slot 0 0 0 0 0 0 0])).1.native_timeout = 90 := by
  decide

/-- C14, amended: for every successful `get_hosts` observation of the target, in any
open channel, whose timestamp is not 0 and whose `io_timeout` differs from 10,
`native_timeout` is 0 after that `reset_done` pass.  It is then 0 after every
further sequence of `reset_done`, `reset_fail`, `get_events` and `unregister_ls`
steps, none of which changes `watchdog_failed_to_fire`; and every later
`reset_done` pass returns 1 only by the host status check: exactly when an open
channel is dead and `resource_mode` is not 0 or the channel has seen
`RESETTING`. -/
theorem io_timeout_disables_native_timeout (K : sanlock_h) (E : sanlk_reset_h)
    (inp : done_input) (s : reset_state) (i : Nat) (sl : ls_slot) (nm : String)
    (hs : sanlk_host) (hi : s.ls[i]? = some sl) (ho : sl.ls_names = some nm)
    (h0 : 0 ≤ (inp.get_hosts i).rv) (hh : (inp.get_hosts i).hs = some hs)
    (hc : (inp.get_hosts i).hs_count = 1) (hid : hs.host_id = u64_of_int sl.ls_hostids)
    (ht : hs.timestamp ≠ 0) (hio : hs.io_timeout ≠ 10) :
    (reset_done K inp s).1.native_timeout = 0 ∧
    (∀ ops : List reset_op,
      (run_ops K E ops (reset_done K inp s).1).native_timeout = 0 ∧
      (run_ops K E ops (reset_done K inp s).1).watchdog_failed_to_fire
        = (reset_done K inp s).1.watchdog_failed_to_fire) ∧
    (∀ (ops : List reset_op) (inp2 : done_input),
      (reset_done K inp2 (run_ops K E ops (reset_done K inp s).1)).1.watchdog_failed_to_fire
        = (reset_done K inp s).1.watchdog_failed_to_fire ∧
      ((reset_done K inp2 (run_ops K E ops (reset_done K inp s).1)).2 = 1 ↔
        ∃ sl2 ∈ (reset_done K inp2 (run_ops K E ops (reset_done K inp s).1)).1.ls,
          sl2.ls_names ≠ none ∧ sl2.ls_is_dead ≠ 0 ∧
          ((run_ops K E ops (reset_done K inp s).1).resource_mode ≠ 0 ∨
            sl2.ls_is_resetting ≠ 0))) := by
  have hnt : (reset_done K inp s).1.native_timeout = 0 := by
    rw [(reset_done_globals K inp s).2.2.2]
    exact get_hosts_loop_disable inp 0 s.ls s.native_timeout i sl nm hs hi ho
      (by simpa using h0) (by simpa using hh) (by simpa using hc) hid ht hio
  refine ⟨hnt, fun ops => run_ops_disabled K E ops _ hnt, ?_⟩
  intro ops inp2
  have h1 := run_ops_disabled K E ops _ hnt
  have h2 := reset_done_disabled K inp2 (run_ops K E ops (reset_done K inp s).1) h1.1
  exact ⟨h2.2.1.trans h1.2, h2.2.2.2⟩

set_option maxRecDepth 100000 in
theorem io_timeout_disables_native_timeout_witness :
    (reset_done sample_K (sample_pass_io 5060 20 3 1100)
      (sample_reset 0 90 [sample_slot 0 0 1 0 0 5040 3])).1.native_timeout = 0 :=
  (io_timeout_disables_native_timeout sample_K sample_E (sample_pass_io 5060 20 3 1100)
    (sample_reset 0 90 [sample_slot 0 0 1 0 0 5040 3]) 0 (sample_slot 0 0 1 0 0 5040 3) "ls1"
    (sample_host 5060 20 3)
    (by decide) rfl (by decide) rfl rfl (by decide) (by decide) (by decide)).1

end SanlkReset

namespace SanlkReset

/-! ## Renewals -/

/-- The entry after a `reset_done` pass agrees with the entry after the body of
its first loop on the fields that only that loop writes. -/
theorem reset_done_obs_fields (K : sanlock_h) (inp : done_input) (s : reset_state) (i : Nat)
    (sl : ls_slot) (hi : s.ls[i]? = some sl) :
    ∃ sl2, (reset_done K inp s).1.ls[i]? = some sl2 ∧
      sl2.ls_names = sl.ls_names ∧ sl2.ls_hostids = sl.ls_hostids ∧
      sl2.ls_renewals = (get_hosts_step (inp.get_hosts i) sl 0).1.ls_renewals ∧
      sl2.ls_timestamp = (get_hosts_step (inp.get_hosts i) sl 0).1.ls_timestamp ∧
      sl2.ls_host_flags = (get_hosts_step (inp.get_hosts i) sl 0).1.ls_host_flags := by
  have hA := get_hosts_step_frame (inp.get_hosts i) sl 0
  have hA2 := get_hosts_step_frame2 (inp.get_hosts i) sl 0
  have hN := native_begin_frame (inp.now i) (get_hosts_step (inp.get_hosts i) sl 0).1
  rw [reset_done_getElem, hi]
  simp only [Option.map_some']
  refine ⟨_, rfl, ?_⟩
  split_ifs
  · have hH := host_status_step_frame K 0 (get_hosts_step (inp.get_hosts i) sl 0).1 0
    have hH2 := host_status_step_fst K 0 (get_hosts_step (inp.get_hosts i) sl 0).1 0
    exact ⟨hH2.1.trans hA.1, hH.1.trans hA2.1, hH.2.2.2.1, hH.2.1, hH.2.2.1⟩
  · exact ⟨hN.1.trans hA.1, hN.2.1.trans hA2.1, hN.2.2.2.2.2, hN.2.2.1, hN.2.2.2.1⟩
  · have hH := host_status_step_frame K 0
      (native_begin (inp.now i) (get_hosts_step (inp.get_hosts i) sl 0).1) 0
    have hH2 := host_status_step_fst K 0
      (native_begin (inp.now i) (get_hosts_step (inp.get_hosts i) sl 0).1) 0
    exact ⟨(hH2.1.trans hN.1).trans hA.1, (hH.1.trans hN.2.1).trans hA2.1,
      hH.2.2.2.1.trans hN.2.2.2.2.2, hH.2.1.trans hN.2.2.1, hH.2.2.1.trans hN.2.2.2.1⟩

/-- One successful observation in a `reset_done` pass. -/
theorem reset_done_observation (K : sanlock_h) (inp : done_input) (s : reset_state) (i : Nat)
    (sl : ls_slot) (nm : String) (hs : sanlk_host) (hi : s.ls[i]? = some sl)
    (ho : sl.ls_names = some nm) (h0 : 0 ≤ (inp.get_hosts i).rv)
    (hh : (inp.get_hosts i).hs = some hs) (hc : (inp.get_hosts i).hs_count = 1)
    (hid : hs.host_id = u64_of_int sl.ls_hostids) :
    ∃ sl2, (reset_done K inp s).1.ls[i]? = some sl2 ∧
      sl2.ls_names = sl.ls_names ∧ sl2.ls_hostids = sl.ls_hostids ∧
      sl2.ls_renewals = sl.ls_renewals +
        (if sl.ls_timestamp ≠ 0 ∧ sl.ls_timestamp ≠ hs.timestamp then 1 else 0) ∧
      sl2.ls_timestamp = hs.timestamp ∧ sl2.ls_host_flags = hs.flags := by
  obtain ⟨sl2, h2, hn, hid2, hr, ht, hf⟩ := reset_done_obs_fields K inp s i sl hi
  rw [get_hosts_step_ok (inp.get_hosts i) sl 0 hs nm ho h0 hh hc hid] at hr ht hf
  refine ⟨sl2, h2, hn, hid2, ?_, ht, hf⟩
  rw [hr]
  split_ifs <;> simp

set_option maxRecDepth 100000 in
/-- C18, counterexample: a fresh channel (`ls_timestamp = 0`, `ls_renewals = 0`)
observes the host with timestamp 0 and then, in the next pass, with timestamp
5000.  The two observations differ, and `ls_renewals` is still 0. -/
theorem renewal_after_timestamp_zero :
    ((run_ops sample_K sample_E
        [reset_op.done (sample_pass_io 0 10 2 1100), reset_op.done (sample_pass_io 5000 10 3 1102)]
        (sample_reset 0 90 [sample_slot 0 0 0 0 0 0 0])).ls[0]?).map
      (fun sl => (sl.ls_renewals, sl.ls_timestamp)) = some (0, 5000) := by
  decide

/-- C18, amended: for every successful host observation in an open channel `i`,
`ls_renewals[i]` increases by exactly 1 if the timestamp stored before is not 0
and differs from the observed one, and is unchanged otherwise; `ls_timestamp[i]`
and `ls_host_flags[i]` become the observed values.  So after a sequence of
`reset_done` passes that each observe the host, `ls_renewals[i]` has grown by
the number of observations that differ from a non-zero timestamp stored by the
one before. -/
theorem renewals_counted (K : sanlock_h) (E : sanlk_reset_h) (i : Nat)
    (obs : List (done_input × sanlk_host)) (s : reset_state) (sl : ls_slot) (nm : String)
    (hi : s.ls[i]? = some sl) (ho : sl.ls_names = some nm)
    (hobs : ∀ p ∈ obs, 0 ≤ (p.1.get_hosts i).rv ∧ (p.1.get_hosts i).hs = some p.2 ∧
      (p.1.get_hosts i).hs_count = 1 ∧ p.2.host_id = u64_of_int sl.ls_hostids) :
    (∀ (inp : done_input) (hs : sanlk_host), 0 ≤ (inp.get_hosts i).rv →
      (inp.get_hosts i).hs = some hs → (inp.get_hosts i).hs_count = 1 →
      hs.host_id = u64_of_int sl.ls_hostids →
      ∃ sl2, (reset_done K inp s).1.ls[i]? = some sl2 ∧
        sl2.ls_renewals = sl.ls_renewals +
          (if sl.ls_timestamp ≠ 0 ∧ sl.ls_timestamp ≠ hs.timestamp then 1 else 0) ∧
        sl2.ls_timestamp = hs.timestamp ∧ sl2.ls_host_flags = hs.flags) ∧
    (∃ sl2, (run_ops K E (obs.map (fun p => reset_op.done p.1)) s).ls[i]? = some sl2 ∧
      sl2.ls_renewals = sl.ls_renewals +
        (count_renewals sl.ls_timestamp (obs.map (fun p => p.2.timestamp)) : Nat) ∧
      sl2.ls_timestamp = obs.foldl (fun _ p => p.2.timestamp) sl.ls_timestamp) := by
  constructor
  · intro inp hs h0 hh hc hid
    obtain ⟨sl2, h2, _, _, hr, ht, hf⟩ :=
      reset_done_observation K inp s i sl nm hs hi ho h0 hh hc hid
    exact ⟨sl2, h2, hr, ht, hf⟩
  · induction obs generalizing s sl with
    | nil => exact ⟨sl, hi, by simp [count_renewals], rfl⟩
    | cons p rest ih =>
      obtain ⟨h0, hh, hc, hid⟩ := hobs p (List.mem_cons_self p rest)
      obtain ⟨sl1, h1, hn1, hid1, hr1, ht1, _⟩ :=
        reset_done_observation K p.1 s i sl nm p.2 hi ho h0 hh hc hid
      have hobs2 : ∀ q ∈ rest, 0 ≤ (q.1.get_hosts i).rv ∧ (q.1.get_hosts i).hs = some q.2 ∧
          (q.1.get_hosts i).hs_count = 1 ∧ q.2.host_id = u64_of_int sl1.ls_hostids := by
        intro q hq
        rw [hid1]
        exact hobs q (List.mem_cons_of_mem p hq)
      obtain ⟨sl2, h2, hr2, ht2⟩ :=
        ih (reset_done K p.1 s).1 sl1 h1 (by rw [hn1]; exact ho) hobs2
      refine ⟨sl2, h2, ?_, ?_⟩
      · rw [hr2, hr1, ht1]
        simp only [List.map_cons, count_renewals]
        split_ifs <;> push_cast <;> ring
      · rw [ht2, ht1]
        rfl

set_option maxRecDepth 100000 in
theorem renewals_counted_witness :
    ∃ sl2,
      (run_ops sample_K sample_E
        ([(sample_pass_io 5020 10 3 1100, sample_host 5020 10 3),
          (sample_pass_io 5020 10 3 1102, sample_host 5020 10 3),
          (sample_pass_io 5040 10 3 1104, sample_host 5040 10 3)].map
            (fun p => reset_op.done p.1))
        (sample_reset 0 90 [sample_slot 0 0 0 0 0 5000 3])).ls[0]? = some sl2 ∧
      sl2.ls_renewals = 0 + ((2 : Nat) : Int) ∧ sl2.ls_timestamp = 5040 :=
  (renewals_counted sample_K sample_E 0 _ (sample_reset 0 90 [sample_slot 0 0 0 0 0 5000 3])
    (sample_slot 0 0 0 0 0 5000 3) "ls1" (by decide) rfl (by decide)).2

end SanlkReset

namespace SanlkReset

/-! ## `ls_resetting_begin_local` and `ls_resetting_begin_timestamp` -/

/-- A `reset_done` pass leaves the two values of an entry alone when they have
been recorded (`ls_resetting_begin_local` is not 0), and when the entry has not
seen `RESETTING`. -/
theorem reset_done_begin_kept (K : sanlock_h) (inp : done_input) (s : reset_state) (i : Nat)
    (sl : ls_slot) (hi : s.ls[i]? = some sl)
    (hb : sl.ls_resetting_begin_local ≠ 0 ∨ sl.ls_is_resetting = 0) :
    ∃ sl2, (reset_done K inp s).1.ls[i]? = some sl2 ∧
      sl2.ls_resetting_begin_local = sl.ls_resetting_begin_local ∧
      sl2.ls_resetting_begin_timestamp = sl.ls_resetting_begin_timestamp := by
  have hA := get_hosts_step_frame (inp.get_hosts i) sl 0
  have hA2 := get_hosts_step_frame2 (inp.get_hosts i) sl 0
  have hN : native_begin (inp.now i) (get_hosts_step (inp.get_hosts i) sl 0).1
      = (get_hosts_step (inp.get_hosts i) sl 0).1 := by
    unfold native_begin
    rw [if_neg]
    rw [hA.2.2.1, hA2.2.1]
    rcases hb with hb | hb
    · exact fun h => hb h.2.2
    · exact fun h => h.2.1 hb
  rw [reset_done_getElem, hi]
  simp only [Option.map_some']
  refine ⟨_, rfl, ?_⟩
  rw [hN]
  have hH := host_status_step_frame K 0 (get_hosts_step (inp.get_hosts i) sl 0).1 0
  split_ifs
  · exact ⟨hH.2.2.2.2.1.trans hA2.2.1, hH.2.2.2.2.2.trans hA2.2.2.1⟩
  · exact ⟨hA2.2.1, hA2.2.2.1⟩
  · exact ⟨hH.2.2.2.2.1.trans hA2.2.1, hH.2.2.2.2.2.trans hA2.2.2.1⟩

theorem run_op_begin_kept (K : sanlock_h) (E : sanlk_reset_h) (op : reset_op) (s : reset_state)
    (i : Nat) (sl : ls_slot) (hi : s.ls[i]? = some sl)
    (hb : sl.ls_resetting_begin_local ≠ 0) :
    ∃ sl2, (run_op K E op s).ls[i]? = some sl2 ∧
      sl2.ls_resetting_begin_local = sl.ls_resetting_begin_local ∧
      sl2.ls_resetting_begin_timestamp = sl.ls_resetting_begin_timestamp := by
  cases op with
  | done inp => exact reset_done_begin_kept K inp s i sl hi (Or.inl hb)
  | fail now => exact ⟨sl, hi, rfl, rfl⟩
  | events k replies =>
    obtain ⟨sl2, h2, hk⟩ := kept_some (get_events_loop_kept E k replies s).1 i sl hi
    simp only [ls_kept, Prod.mk.injEq] at hk
    exact ⟨sl2, h2, hk.2.2.1, hk.2.1⟩
  | unregister k =>
    obtain ⟨sl2, h2, hk⟩ := kept_some (unregister_ls_kept k s).1 i sl hi
    simp only [ls_kept, Prod.mk.injEq] at hk
    exact ⟨sl2, h2, hk.2.2.1, hk.2.1⟩

theorem run_ops_begin_kept (K : sanlock_h) (E : sanlk_reset_h) (ops : List reset_op)
    (s : reset_state) (i : Nat) (sl : ls_slot) (hi : s.ls[i]? = some sl)
    (hb : sl.ls_resetting_begin_local ≠ 0) :
    ∃ sl2, (run_ops K E ops s).ls[i]? = some sl2 ∧
      sl2.ls_resetting_begin_local = sl.ls_resetting_begin_local ∧
      sl2.ls_resetting_begin_timestamp = sl.ls_resetting_begin_timestamp := by
  induction ops generalizing s sl with
  | nil => exact ⟨sl, hi, rfl, rfl⟩
  | cons op rest ih =>
    obtain ⟨sl1, h1, hb1, ht1⟩ := run_op_begin_kept K E op s i sl hi hb
    obtain ⟨sl2, h2, hb2, ht2⟩ := ih (run_op K E op s) sl1 h1 (by rw [hb1]; exact hb)
    exact ⟨sl2, h2, hb2.trans hb1, ht2.trans ht1⟩

set_option maxRecDepth 100000 in
/-- C19, counterexample.  First state: the native timeout is disabled
(`native_timeout = 0`) and an open channel has `ls_is_resetting` set; the
`reset_done` pass observes it and writes neither value.  Second state: the
native timeout is enabled and the first pass reads the clock value 0; it
records timestamp 5060, and the next pass records again, clock 2 and timestamp
5080. -/
theorem resetting_begin_not_written_once :
    ((reset_done sample_K (sample_pass 5060 3 1100)
        (sample_reset 0 0 [sample_slot 1 0 3 0 0 5040 3])).1.ls[0]?).map
      (fun sl => (sl.ls_resetting_begin_local, sl.ls_resetting_begin_timestamp))
      = some (0, 0) ∧
    ((reset_done sample_K (sample_pass 5060 3 0)
        (sample_reset 0 90 [sample_slot 1 0 3 0 0 5040 3])).1.ls[0]?).map
      (fun sl => (sl.ls_resetting_begin_local, sl.ls_resetting_begin_timestamp))
      = some (0, 5060) ∧
    ((run_ops sample_K sample_E
        [reset_op.done (sample_pass 5060 3 0), reset_op.done (sample_pass 5080 3 2)]
        (sample_reset 0 90 [sample_slot 1 0 3 0 0 5040 3])).ls[0]?).map
      (fun sl => (sl.ls_resetting_begin_local, sl.ls_resetting_begin_timestamp))
      = some (2, 5080) := by
  refine ⟨by decide, by decide, by decide⟩

/-- C19, amended: `ls_resetting_begin_local[i]` and
`ls_resetting_begin_timestamp[i]` are written by the first `reset_done` pass that
runs the native timeout check (`native_timeout` is not 0 after its `get_hosts`
loop) with `ls_is_resetting[i]` set in the open channel `i`, to that pass's
clock value and `ls_timestamp[i]`.  When that clock value is not 0, every later
sequence of `reset_done`, `reset_fail`, `get_events` and `unregister_ls` steps
leaves both values unchanged.  A `reset_done` pass on a channel that has not
seen `RESETTING` writes neither value. -/
theorem resetting_begin_written_once (K : sanlock_h) (E : sanlk_reset_h) (inp : done_input)
    (s : reset_state) (i : Nat) (sl : ls_slot) (nm : String) (hi : s.ls[i]? = some sl)
    (ho : sl.ls_names = some nm) (hr : sl.ls_is_resetting ≠ 0)
    (hb : sl.ls_resetting_begin_local = 0)
    (hnt : (reset_done K inp s).1.native_timeout ≠ 0) (hnow : inp.now i ≠ 0) :
    (∃ sl2, (reset_done K inp s).1.ls[i]? = some sl2 ∧
      sl2.ls_resetting_begin_local = inp.now i ∧
      sl2.ls_resetting_begin_timestamp = sl2.ls_timestamp ∧
      ∀ ops : List reset_op,
        ∃ sl3, (run_ops K E ops (reset_done K inp s).1).ls[i]? = some sl3 ∧
          sl3.ls_resetting_begin_local = sl2.ls_resetting_begin_local ∧
          sl3.ls_resetting_begin_timestamp = sl2.ls_resetting_begin_timestamp) ∧
    (∀ (inp0 : done_input) (s0 : reset_state) (sl0 : ls_slot), s0.ls[i]? = some sl0 →
      sl0.ls_is_resetting = 0 →
      ∃ sl1, (reset_done K inp0 s0).1.ls[i]? = some sl1 ∧
        sl1.ls_resetting_begin_local = sl0.ls_resetting_begin_local ∧
        sl1.ls_resetting_begin_timestamp = sl0.ls_resetting_begin_timestamp) := by
  have hA := get_hosts_step_frame (inp.get_hosts i) sl 0
  have hA2 := get_hosts_step_frame2 (inp.get_hosts i) sl 0
  have hN : native_begin (inp.now i) (get_hosts_step (inp.get_hosts i) sl 0).1 =
      { (get_hosts_step (inp.get_hosts i) sl 0).1 with
        ls_resetting_begin_timestamp := (get_hosts_step (inp.get_hosts i) sl 0).1.ls_timestamp
        ls_resetting_begin_local := inp.now i } := by
    unfold native_begin
    rw [if_pos]
    rw [hA.1, hA.2.2.1, hA2.2.1, ho]
    exact ⟨by simp, hr, hb⟩
  have hpost : ∃ sl2, (reset_done K inp s).1.ls[i]? = some sl2 ∧
      sl2.ls_resetting_begin_local = inp.now i ∧
      sl2.ls_resetting_begin_timestamp = sl2.ls_timestamp := by
    rw [reset_done_getElem, hi]
    simp only [Option.map_some']
    refine ⟨_, rfl, ?_⟩
    rw [if_neg hnt, hN]
    split_ifs
    · exact ⟨rfl, rfl⟩
    · have hH := host_status_step_frame K 0
        { (get_hosts_step (inp.get_hosts i) sl 0).1 with
          ls_resetting_begin_timestamp := (get_hosts_step (inp.get_hosts i) sl 0).1.ls_timestamp
          ls_resetting_begin_local := inp.now i } 0
      exact ⟨hH.2.2.2.2.1, hH.2.2.2.2.2.trans hH.2.1.symm⟩
  obtain ⟨sl2, h2, hb2, ht2⟩ := hpost
  refine ⟨⟨sl2, h2, hb2, ht2, ?_⟩, ?_⟩
  · intro ops
    exact run_ops_begin_kept K E ops _ i sl2 h2 (by rw [hb2]; exact hnow)
  · intro inp0 s0 sl0 h0 hr0
    exact reset_done_begin_kept K inp0 s0 i sl0 h0 (Or.inr hr0)

set_option maxRecDepth 100000 in
theorem resetting_begin_written_once_witness :
    ∃ sl2,
      (reset_done sample_K (sample_pass 5060 3 1100)
        (sample_reset 0 90 [sample_slot 1 0 3 0 0 5040 3])).1.ls[0]? = some sl2 ∧
      sl2.ls_resetting_begin_local = 1100 ∧
      sl2.ls_resetting_begin_timestamp = sl2.ls_timestamp :=
  let h := (resetting_begin_written_once sample_K sample_E (sample_pass 5060 3 1100)
    (sample_reset 0 90 [sample_slot 1 0 3 0 0 5040 3]) 0 (sample_slot 1 0 3 0 0 5040 3) "ls1"
    (by decide) rfl (by decide) rfl (by decide) (by decide)).1
  ⟨h.choose, h.choose_spec.1, h.choose_spec.2.1, h.choose_spec.2.2.1⟩

end SanlkReset

namespace Wdmd

/-! ## Choosing the watchdog device -/

theorem stat_paths_append (a b : List sys_op) :
    stat_paths (a ++ b) = stat_paths a ++ stat_paths b := by
  induction a with
  | nil => rfl
  | cons x rest ih =>
    cases x <;> simp [stat_paths, ih]

theorem strncpy_path_of_le (path : String) (h : path.length ≤ 63) :
    strncpy_path path = path := by
  cases path with
  | mk data =>
    simp only [strncpy_path, WDPATH_SIZE]
    congr
    exact List.take_of_length_le h

theorem close_watchdog_facts (s : wdmd_state) :
    (close_watchdog s).dev_fd = -1 ∧ (close_watchdog s).watchdog_path = s.watchdog_path ∧
    (close_watchdog s).fire_timeout = s.fire_timeout ∧
    stat_paths (close_watchdog s).log = stat_paths s.log := by
  unfold close_watchdog
  split_ifs with h
  · exact ⟨h, rfl, rfl, rfl⟩
  · refine ⟨rfl, rfl, rfl, ?_⟩
    simp [stat_paths_append, stat_paths]

/-- One attempt of `_setup_watchdog` from a state with the device closed. -/
theorem setup_watchdog_attempt (env : String → wd_probe) (path : String) (s : wdmd_state)
    (hd : s.dev_fd = -1) (hl : path.length ≤ 63) :
    ((_setup_watchdog env path s).2 = 0 ∨ (_setup_watchdog env path s).2 = -1) ∧
    ((_setup_watchdog env path s).2 = 0 ↔ probe_ok s.fire_timeout (env path) = true) ∧
    ((_setup_watchdog env path s).2 ≠ 0 → (_setup_watchdog env path s).1.dev_fd = -1) ∧
    (_setup_watchdog env path s).1.watchdog_path = path ∧
    (_setup_watchdog env path s).1.fire_timeout = s.fire_timeout ∧
    stat_paths (_setup_watchdog env path s).1.log = stat_paths s.log ++ [path] := by
  unfold _setup_watchdog
  simp only [strncpy_path_of_le path hl, probe_ok, decide_eq_true_eq, open_dev, close_watchdog, hd]
  by_cases h1 : (env path).stat_rv < 0
  · simp [h1, stat_paths_append, stat_paths, hd]
  · by_cases h2 : (env path).open_fd < 0
    · simp [h1, h2, stat_paths_append, stat_paths, hd]
    · have h2n : (env path).open_fd ≠ -1 := by omega
      by_cases h3 : (env path).get_rv < 0
      · simp [h1, h2, h2n, h3, stat_paths_append, stat_paths, hd]
      · by_cases h4 : (env path).get_timeout = s.fire_timeout
        · simp [h1, h2, h2n, h3, h4, stat_paths_append, stat_paths, hd]
          omega
        · by_cases h5 : (env path).set_rv < 0
          · simp [h1, h2, h2n, h3, h4, h5, stat_paths_append, stat_paths, hd]
          · by_cases h6 : (env path).set_timeout = s.fire_timeout
            · simp [h1, h2, h2n, h3, h4, h5, h6, stat_paths_append, stat_paths, hd]
              omega
            · simp [h1, h2, h2n, h3, h4, h5, h6, stat_paths_append, stat_paths, hd]

end Wdmd

namespace Wdmd

theorem keep_first_spec (q : String → Bool) (l seen : List String) :
    (keep_first seen l).Nodup ∧
    (∀ p ∈ keep_first seen l, p ∈ l ∧ p ∉ seen) ∧
    ((∀ p ∈ seen, q p = false) → (keep_first seen l).find? q = l.find? q) := by
  induction l generalizing seen with
  | nil => simp [keep_first]
  | cons a rest ih =>
    unfold keep_first
    by_cases ha : a ∈ seen
    · rw [if_pos ha]
      obtain ⟨h1, h2, h3⟩ := ih seen
      refine ⟨h1, fun p hp => ⟨List.mem_cons_of_mem a (h2 p hp).1, (h2 p hp).2⟩, ?_⟩
      intro hq
      rw [h3 hq, List.find?_cons_of_neg rest (by simp [hq a ha])]
    · rw [if_neg ha]
      obtain ⟨h1, h2, h3⟩ := ih (a :: seen)
      refine ⟨?_, ?_, ?_⟩
      · refine List.nodup_cons.mpr ⟨?_, h1⟩
        intro hmem
        exact (h2 a hmem).2 (List.mem_cons_self a seen)
      · intro p hp
        rcases List.mem_cons.mp hp with hpa | hpr
        · subst hpa
          exact ⟨List.mem_cons_self p rest, ha⟩
        · exact ⟨List.mem_cons_of_mem a (h2 p hpr).1,
            fun hs => (h2 p hpr).2 (List.mem_cons_of_mem a hs)⟩
      · intro hq
        by_cases hqa : q a = true
        · rw [List.find?_cons_of_pos _ hqa, List.find?_cons_of_pos _ hqa]
        · rw [List.find?_cons_of_neg _ hqa, List.find?_cons_of_neg _ hqa]
          apply h3
          intro p hp
          rcases List.mem_cons.mp hp with hpa | hps
          · subst hpa
            simpa using hqa
          · exact hq p hps

theorem try_paths_stage (env : String → wd_probe) (skip : Prop) [Decidable skip] (p : String)
    (next : wdmd_state → wdmd_state × Int) (l : List String)
    (hnext : ∀ s, next s = try_paths env l s) (s : wdmd_state) :
    (if skip then next s
      else if (_setup_watchdog env p s).2 = 0 then ((_setup_watchdog env p s).1, 0)
        else next (_setup_watchdog env p s).1) =
      try_paths env ((if skip then [] else [p]) ++ l) s := by
  by_cases h : skip
  · simp only [h, if_true, List.nil_append]
    exact hnext s
  · simp only [h, if_false, List.cons_append, List.nil_append, try_paths, hnext]

theorem setup_watchdog_eq_try_paths (env : String → wd_probe) (saved_path option_path : String)
    (s : wdmd_state) :
    setup_watchdog env saved_path option_path s =
      try_paths env (watchdog_tries saved_path option_path) s := by
  have h5 : ∀ s, setup_watchdog_old env saved_path option_path s =
      try_paths env ((if saved_path = "/dev/watchdog" ∨ option_path = "/dev/watchdog" then []
        else ["/dev/watchdog"]) ++ []) s := by
    intro s
    unfold setup_watchdog_old
    exact try_paths_stage env _ "/dev/watchdog" (fun s => (s, -1)) [] (fun _ => rfl) s
  have h4 : ∀ s, setup_watchdog_one env saved_path option_path s = try_paths env _ s :=
    fun s => try_paths_stage env
      (saved_path = "/dev/watchdog1" ∨ option_path = "/dev/watchdog1") "/dev/watchdog1"
      (setup_watchdog_old env saved_path option_path) _ h5 s
  have h3 : ∀ s, setup_watchdog_zero env saved_path option_path s = try_paths env _ s :=
    fun s => try_paths_stage env
      (saved_path = "/dev/watchdog0" ∨ option_path = "/dev/watchdog0") "/dev/watchdog0"
      (setup_watchdog_one env saved_path option_path) _ h4 s
  have h2 : ∀ s, setup_watchdog_opt env saved_path option_path s = try_paths env _ s :=
    fun s => try_paths_stage env (option_path = "" ∨ saved_path = option_path) option_path
      (setup_watchdog_zero env saved_path option_path) _ h3 s
  have h1 := try_paths_stage env (saved_path = "") saved_path
      (setup_watchdog_opt env saved_path option_path) _ h2 s
  unfold watchdog_tries
  simp only [List.append_nil, List.append_assoc] at h1 ⊢
  exact h1

end Wdmd

namespace Wdmd

/-- Trying a list of paths from a state with the device closed: the result is
0 with `watchdog_path` the first accepted path of the list, or -1 when no path
of the list is accepted, and the paths on which `stat` was called are a prefix
of the list. -/
theorem try_paths_spec (env : String → wd_probe) (l : List String) (s : wdmd_state)
    (hd : s.dev_fd = -1) (hl : ∀ p ∈ l, p.length ≤ 63) :
    ((try_paths env l s).2 = 0 ∨ (try_paths env l s).2 = -1) ∧
    (∀ p, l.find? (fun p => probe_ok s.fire_timeout (env p)) = some p →
      (try_paths env l s).2 = 0 ∧ (try_paths env l s).1.watchdog_path = p) ∧
    (l.find? (fun p => probe_ok s.fire_timeout (env p)) = none →
      (try_paths env l s).2 = -1) ∧
    (∃ k, stat_paths (try_paths env l s).1.log = stat_paths s.log ++ l.take k) := by
  induction l generalizing s with
  | nil =>
    refine ⟨Or.inr rfl, ?_, fun _ => rfl, ⟨0, ?_⟩⟩
    · intro p hp
      simp at hp
    · simp [try_paths]
  | cons a rest ih =>
    obtain ⟨_, h2, h3, h4, h5, h6⟩ :=
      setup_watchdog_attempt env a s hd (hl a (List.mem_cons_self a rest))
    by_cases h : (_setup_watchdog env a s).2 = 0
    · have hok : probe_ok s.fire_timeout (env a) = true := h2.mp h
      have ht : try_paths env (a :: rest) s = ((_setup_watchdog env a s).1, 0) := by
        simp only [try_paths, h, if_true]
      have hf : (a :: rest).find? (fun p => probe_ok s.fire_timeout (env p)) = some a := by
        simp [List.find?_cons, hok]
      rw [ht, hf]
      refine ⟨Or.inl rfl, ?_, ?_, ⟨1, ?_⟩⟩
      · intro p hp
        exact ⟨rfl, by rw [h4]; exact Option.some.inj hp⟩
      · intro hn
        exact absurd hn (by simp)
      · simpa using h6
    · have hok : probe_ok s.fire_timeout (env a) = false := by
        cases hk : probe_ok s.fire_timeout (env a)
        · rfl
        · exact absurd (h2.mpr hk) h
      have hf : (a :: rest).find? (fun p => probe_ok s.fire_timeout (env p)) =
          rest.find? (fun p => probe_ok s.fire_timeout (env p)) := by
        simp [List.find?_cons, hok]
      have ht : try_paths env (a :: rest) s = try_paths env rest (_setup_watchdog env a s).1 := by
        simp only [try_paths, h, if_false]
      obtain ⟨i1, i2, i3, k, i4⟩ := ih (_setup_watchdog env a s).1 (h3 h)
        (fun p hp => hl p (List.mem_cons_of_mem a hp))
      rw [h5] at i2 i3
      rw [ht, hf]
      refine ⟨i1, i2, i3, ⟨k + 1, ?_⟩⟩
      rw [i4, h6]
      simp

/-- The paths that `setup_watchdog` goes through are the candidates of the
specification, each kept at its first occurrence. -/
theorem watchdog_tries_eq_keep_first (saved_path option_path : String) :
    watchdog_tries saved_path option_path =
      keep_first [] (watchdog_candidates saved_path option_path) := by
  unfold watchdog_tries watchdog_candidates
  by_cases h1 : saved_path = ""
  · subst h1
    by_cases h2 : option_path = ""
    · subst h2
      decide
    · by_cases h3 : option_path = "/dev/watchdog0"
      · subst h3
        decide
      · by_cases h4 : option_path = "/dev/watchdog1"
        · subst h4
          decide
        · by_cases h5 : option_path = "/dev/watchdog"
          · subst h5
            decide
          · have e3 := Ne.symm h3
            have e4 := Ne.symm h4
            have e5 := Ne.symm h5
            have e2 := Ne.symm h2
            simp [keep_first, h2, h3, h4, h5, e2, e3, e4, e5]
  · by_cases s1 : saved_path = "/dev/watchdog0"
    · subst s1
      by_cases o0 : option_path = ""
      · subst o0
        decide
      · by_cases o1 : option_path = "/dev/watchdog0"
        · subst o1
          decide
        · by_cases o2 : option_path = "/dev/watchdog1"
          · subst o2
            decide
          · by_cases o3 : option_path = "/dev/watchdog"
            · subst o3
              decide
            · simp [keep_first, o0, o1, o2, o3, Ne.symm o0, Ne.symm o1, Ne.symm o2, Ne.symm o3]
    · by_cases s2 : saved_path = "/dev/watchdog1"
      · subst s2
        by_cases o0 : option_path = ""
        · subst o0
          decide
        · by_cases o1 : option_path = "/dev/watchdog0"
          · subst o1
            decide
          · by_cases o2 : option_path = "/dev/watchdog1"
            · subst o2
              decide
            · by_cases o3 : option_path = "/dev/watchdog"
              · subst o3
                decide
              · simp [keep_first, o0, o1, o2, o3, Ne.symm o0, Ne.symm o1, Ne.symm o2, Ne.symm o3]
      · by_cases s3 : saved_path = "/dev/watchdog"
        · subst s3
          by_cases o0 : option_path = ""
          · subst o0
            decide
          · by_cases o1 : option_path = "/dev/watchdog0"
            · subst o1
              decide
            · by_cases o2 : option_path = "/dev/watchdog1"
              · subst o2
                decide
              · by_cases o3 : option_path = "/dev/watchdog"
                · subst o3
                  decide
                · simp [keep_first, o0, o1, o2, o3, Ne.symm o0, Ne.symm o1, Ne.symm o2, Ne.symm o3]
        · by_cases o0 : option_path = ""
          · subst o0
            simp [keep_first, h1, s1, s2, s3, Ne.symm h1, Ne.symm s1, Ne.symm s2, Ne.symm s3]
          · by_cases os : saved_path = option_path
            · subst os
              simp [keep_first, h1, s1, s2, s3, Ne.symm h1, Ne.symm s1, Ne.symm s2, Ne.symm s3]
            · by_cases o1 : option_path = "/dev/watchdog0"
              · subst o1
                simp [keep_first, h1, s1, s2, s3, Ne.symm h1, Ne.symm s1, Ne.symm s2, Ne.symm s3]
              · by_cases o2 : option_path = "/dev/watchdog1"
                · subst o2
                  simp [keep_first, h1, s1, s2, s3, Ne.symm h1, Ne.symm s1, Ne.symm s2, Ne.symm s3]
                · by_cases o3 : option_path = "/dev/watchdog"
                  · subst o3
                    simp [keep_first, h1, s1, s2, s3, Ne.symm h1, Ne.symm s1, Ne.symm s2, Ne.symm s3]
                  · simp [keep_first, o0, os, o1, o2, o3, Ne.symm o0, Ne.symm os, Ne.symm o1,
                      Ne.symm o2, Ne.symm o3, h1, s1, s2, s3, Ne.symm h1, Ne.symm s1,
                      Ne.symm s2, Ne.symm s3]

end Wdmd

namespace Wdmd

theorem watchdog_candidates_length (saved_path option_path : String)
    (hs : saved_path.length ≤ 63) (ho : option_path.length ≤ 63) :
    ∀ p ∈ watchdog_candidates saved_path option_path, p.length ≤ 63 := by
  intro p hp
  unfold watchdog_candidates at hp
  rcases List.mem_append.mp hp with h | h
  · rcases List.mem_append.mp h with h | h
    · by_cases e : saved_path = ""
      · simp [e] at h
      · simp only [e, if_false, List.mem_singleton] at h
        rw [h]
        exact hs
    · by_cases e : option_path = ""
      · simp [e] at h
      · simp only [e, if_false, List.mem_singleton] at h
        rw [h]
        exact ho
  · simp only [List.mem_cons, List.mem_singleton, List.not_mem_nil, or_false] at h
    rcases h with h | h | h <;> rw [h] <;> decide

/-- C15: device selection order.  From a state with no device open, for every
saved path and command-line path that fit their 64-byte buffers and every
outcome `env` of the system calls per device path: when the first path accepted
among the candidates saved path, command-line path, /dev/watchdog0,
/dev/watchdog1, /dev/watchdog (empty ones left out) is `p`, `setup_watchdog`
returns 0 with `watchdog_path` equal to `p`; it returns -1 exactly when no
candidate is accepted, and nothing other than 0 or -1; the paths it attempts
are candidates and no path is attempted twice. -/
theorem setup_watchdog_selection (env : String → wd_probe) (saved_path option_path : String)
    (s : wdmd_state) (hd : s.dev_fd = -1) (hs : saved_path.length ≤ 63)
    (ho : option_path.length ≤ 63) :
    (∀ p, setup_watchdog_spec env s.fire_timeout saved_path option_path = some p →
      (setup_watchdog env saved_path option_path s).2 = 0 ∧
      (setup_watchdog env saved_path option_path s).1.watchdog_path = p) ∧
    ((setup_watchdog env saved_path option_path s).2 = -1 ↔
      ∀ p ∈ watchdog_candidates saved_path option_path,
        probe_ok s.fire_timeout (env p) = false) ∧
    ((setup_watchdog env saved_path option_path s).2 = 0 ∨
      (setup_watchdog env saved_path option_path s).2 = -1) ∧
    (∃ tried, stat_paths (setup_watchdog env saved_path option_path s).1.log =
        stat_paths s.log ++ tried ∧ tried.Nodup ∧
      ∀ p ∈ tried, p ∈ watchdog_candidates saved_path option_path) := by
  obtain ⟨k1, k2, k3⟩ := keep_first_spec (fun p => probe_ok s.fire_timeout (env p))
    (watchdog_candidates saved_path option_path) []
  have k3 := k3 (fun p hp => absurd hp (List.not_mem_nil p))
  have hlen := watchdog_candidates_length saved_path option_path hs ho
  obtain ⟨t1, t2, t3, k, t4⟩ := try_paths_spec env
    (keep_first [] (watchdog_candidates saved_path option_path)) s hd
    (fun p hp => hlen p (k2 p hp).1)
  rw [k3] at t2 t3
  rw [setup_watchdog_eq_try_paths, watchdog_tries_eq_keep_first]
  unfold setup_watchdog_spec
  refine ⟨t2, ⟨?_, ?_⟩, t1, ⟨_, t4, ?_, ?_⟩⟩
  · intro hr p hp
    cases hq : probe_ok s.fire_timeout (env p)
    · rfl
    · cases hf : (watchdog_candidates saved_path option_path).find?
          (fun p => probe_ok s.fire_timeout (env p)) with
      | none =>
        have := List.find?_eq_none.mp hf p hp
        exact absurd hq this
      | some q =>
        have h0 := (t2 q hf).1
        rw [h0] at hr
        exact absurd hr (by decide)
  · intro hall
    apply t3
    apply List.find?_eq_none.mpr
    intro p hp
    rw [hall p hp]
    decide
  · exact List.Nodup.sublist (List.take_sublist k _) k1
  · intro p hp
    exact (k2 p (List.mem_of_mem_take hp)).1

theorem setup_watchdog_selection_witness :
    (setup_watchdog sample_env "" "/dev/watchdog9" sample_start).2 = 0 ∧
    (setup_watchdog sample_env "" "/dev/watchdog9" sample_start).1.watchdog_path =
      "/dev/watchdog1" :=
  (setup_watchdog_selection sample_env "" "/dev/watchdog9" sample_start rfl (by decide)
    (by decide)).1 "/dev/watchdog1" (by decide)

end Wdmd

namespace Client

theorem set_append_length (pre post : List Nat) (x y : Nat) :
    (pre ++ x :: post).set pre.length y = pre ++ y :: post := by
  induction pre with
  | nil => rfl
  | cons a t ih => simp [List.set, ih]

theorem getD_append_length (pre post : List Nat) (x : Nat) :
    (pre ++ x :: post).getD pre.length 0 = x := by
  induction pre with
  | nil => rfl
  | cons a t ih => simpa [List.getD] using ih

theorem cstr_append_zero (q tail : List Nat) (h0 : ∀ b ∈ q, b ≠ 0) :
    cstr (q ++ 0 :: tail) = q := by
  induction q with
  | nil => simp [cstr]
  | cons a t ih =>
    have ha : a ≠ 0 := h0 a (List.mem_cons_self a t)
    have := ih (fun b hb => h0 b (List.mem_cons_of_mem a hb))
    simpa [cstr, List.takeWhile, ha] using this


theorem path_escape_pair (c2 : Nat) (rest2 : List Nat) :
    path_escape (92 :: c2 :: rest2) = 92 :: c2 :: path_escape rest2 := by
  rw [path_escape]
  simp

theorem path_escape_special (c : Nat) (rest : List Nat) (hc : c = 32 ∨ c = 58) :
    path_escape (c :: rest) = 92 :: c :: path_escape rest := by
  have h : c ≠ 92 := by omega
  cases rest <;> simp [path_escape, h, hc]

theorem path_escape_plain (c : Nat) (rest : List Nat) (hc : ¬ c = 92)
    (hc2 : ¬ (c = 32 ∨ c = 58)) :
    path_escape (c :: rest) = c :: path_escape rest := by
  cases rest <;> simp [path_escape, hc, hc2]

theorem path_escape_ne_zero (p : List Nat) (h0 : ∀ b ∈ p, b ≠ 0) :
    ∀ b ∈ path_escape p, b ≠ 0 := by
  induction p using path_escape.induct with
  | case1 => simp [path_escape]
  | case2 =>
    intro b hb
    simp [path_escape] at hb
    omega
  | case3 c2 rest2 ih =>
    intro b hb
    rw [path_escape_pair, List.mem_cons, List.mem_cons] at hb
    rcases hb with hb | hb | hb
    · omega
    · rw [hb]
      exact h0 c2 (by simp)
    · exact ih (fun b hb => h0 b (by simp [hb])) b hb
  | case4 c rest hc hc2 ih =>
    intro b hb
    rw [path_escape_special c rest hc2, List.mem_cons, List.mem_cons] at hb
    rcases hb with hb | hb | hb
    · omega
    · rw [hb]
      exact h0 c (by simp)
    · exact ih (fun b hb => h0 b (by simp [hb])) b hb
  | case5 c rest hc hc2 ih =>
    intro b hb
    rw [path_escape_plain c rest hc hc2, List.mem_cons] at hb
    rcases hb with hb | hb
    · rw [hb]
      exact h0 c (by simp)
    · exact ih (fun b hb => h0 b (by simp [hb])) b hb

theorem u64_sub_of_le (a b : Nat) (hb : b ≤ a) (ha : a < 2 ^ 64) : u64_sub a b = a - b := by
  unfold u64_sub
  have h1 : a % 2 ^ 64 = a := Nat.mod_eq_of_lt ha
  have h2 : b % 2 ^ 64 = b := Nat.mod_eq_of_lt (by omega)
  rw [h1, h2]
  have h3 : a + (2 ^ 64 - b) = (a - b) + 2 ^ 64 := by omega
  rw [h3, Nat.add_mod_right]
  exact Nat.mod_eq_of_lt (by omega)

theorem set_two (pre post : List Nat) (x1 x2 y1 y2 : Nat) :
    ((pre ++ x1 :: x2 :: post).set pre.length y1).set (pre.length + 1) y2 =
      pre ++ y1 :: y2 :: post := by
  rw [set_append_length]
  simp

theorem getD_two (pre post : List Nat) (y1 y2 : Nat) :
    (pre ++ y1 :: y2 :: post).getD (pre.length + 1) 0 = y2 := by
  have h := getD_append_length (pre ++ [y1]) post y2
  simpa using h

theorem path_export_loop_end (dstlen j : Nat) (dst : List Nat) :
    path_export_loop dstlen [92] j dst =
      if j > u64_sub dstlen 3 then dst else (dst.set j 92).set (j + 1) 0 := by
  simp [path_export_loop]

theorem path_export_loop_pair (dstlen j c2 : Nat) (rest2 dst : List Nat) :
    path_export_loop dstlen (92 :: c2 :: rest2) j dst =
      if j > u64_sub dstlen 3 then dst
      else if ((dst.set j 92).set (j + 1) c2).getD (j + 1) 0 = 0 then
        (dst.set j 92).set (j + 1) c2
      else path_export_loop dstlen rest2 (j + 2) ((dst.set j 92).set (j + 1) c2) := by
  simp [path_export_loop]

theorem path_export_loop_special (dstlen j c : Nat) (rest dst : List Nat)
    (hc : c = 32 ∨ c = 58) :
    path_export_loop dstlen (c :: rest) j dst =
      if j > u64_sub dstlen 3 then dst
      else if ((dst.set j 92).set (j + 1) c).getD (j + 1) 0 = 0 then
        (dst.set j 92).set (j + 1) c
      else path_export_loop dstlen rest (j + 2) ((dst.set j 92).set (j + 1) c) := by
  have h0 : c ≠ 0 := by omega
  have h : c ≠ 92 := by omega
  cases rest <;> simp [path_export_loop, h0, h, hc]

theorem path_export_loop_plain (dstlen j c : Nat) (rest dst : List Nat)
    (h0 : c ≠ 0) (hc : ¬ c = 92) (hc2 : ¬ (c = 32 ∨ c = 58)) :
    path_export_loop dstlen (c :: rest) j dst =
      if j > u64_sub dstlen 2 then dst
      else if (dst.set j c).getD j 0 = 0 then dst.set j c
      else path_export_loop dstlen rest (j + 1) (dst.set j c) := by
  cases rest <;> simp [path_export_loop, h0, hc, hc2]

/-- The loop of `sanlock_path_export` on a source without NUL bytes, started
at the end of what has been written, in a buffer that has two bytes more than
the escaped source needs: it writes the escaped source. -/
theorem path_export_loop_spec (dstlen : Nat) (p : List Nat) :
    ∀ (pre : List Nat) (n : Nat), (∀ b ∈ p, b ≠ 0) → dstlen < 2 ^ 64 →
      pre.length + n = dstlen → (path_escape p).length + 2 ≤ n →
      path_export_loop dstlen p pre.length (pre ++ List.replicate n 0) =
        pre ++ path_escape p ++ List.replicate (n - (path_escape p).length) 0 := by
  induction p using path_escape.induct with
  | case1 =>
    intro pre n _ _ _ _
    simp [path_export_loop, path_escape]
  | case2 =>
    intro pre n _ hd hn hfit
    simp only [path_escape, if_true, List.length_singleton] at hfit ⊢
    obtain ⟨k, rfl⟩ : ∃ k, n = k + 3 := ⟨n - 3, by omega⟩
    rw [path_export_loop_end, u64_sub_of_le dstlen 3 (by omega) hd,
      if_neg (by omega)]
    have e : List.replicate (k + 3) 0 = 0 :: 0 :: List.replicate (k + 1) 0 := rfl
    rw [e, set_two]
    simp [List.replicate_succ]
  | case3 c2 rest2 ih =>
    intro pre n h0 hd hn hfit
    rw [path_escape_pair] at hfit ⊢
    simp only [List.length_cons] at hfit
    obtain ⟨k, rfl⟩ : ∃ k, n = k + 2 := ⟨n - 2, by omega⟩
    have hc2 : c2 ≠ 0 := h0 c2 (by simp)
    have e : List.replicate (k + 2) 0 = 0 :: 0 :: List.replicate k 0 := rfl
    rw [path_export_loop_pair, u64_sub_of_le dstlen 3 (by omega) hd,
      if_neg (by omega), e, set_two, getD_two, if_neg hc2]
    have h := ih (pre ++ [92, c2]) k (fun b hb => h0 b (by simp [hb])) hd
      (by simp; omega) (by omega)
    simp only [List.length_append, List.length_cons, List.length_nil, List.append_assoc,
      List.cons_append, List.nil_append] at h
    rw [h]
    simp
  | case4 c rest hc hc2 ih =>
    intro pre n h0 hd hn hfit
    rw [path_escape_special c rest hc2] at hfit ⊢
    simp only [List.length_cons] at hfit
    obtain ⟨k, rfl⟩ : ∃ k, n = k + 2 := ⟨n - 2, by omega⟩
    have hc0 : c ≠ 0 := h0 c (by simp)
    have e : List.replicate (k + 2) 0 = 0 :: 0 :: List.replicate k 0 := rfl
    rw [path_export_loop_special dstlen _ c rest _ hc2, u64_sub_of_le dstlen 3 (by omega) hd,
      if_neg (by omega), e, set_two, getD_two, if_neg hc0]
    have h := ih (pre ++ [92, c]) k (fun b hb => h0 b (by simp [hb])) hd
      (by simp; omega) (by omega)
    simp only [List.length_append, List.length_cons, List.length_nil, List.append_assoc,
      List.cons_append, List.nil_append] at h
    rw [h]
    simp
  | case5 c rest hc hc2 ih =>
    intro pre n h0 hd hn hfit
    rw [path_escape_plain c rest hc hc2] at hfit ⊢
    simp only [List.length_cons] at hfit
    obtain ⟨k, rfl⟩ : ∃ k, n = k + 1 := ⟨n - 1, by omega⟩
    have hc0 : c ≠ 0 := h0 c (by simp)
    have e : List.replicate (k + 1) 0 = 0 :: List.replicate k 0 := rfl
    rw [path_export_loop_plain dstlen _ c rest _ hc0 hc hc2,
      u64_sub_of_le dstlen 2 (by omega) hd, if_neg (by omega), e, set_append_length,
      getD_append_length, if_neg hc0]
    have h := ih (pre ++ [c]) k (fun b hb => h0 b (by simp [hb])) hd
      (by simp; omega) (by omega)
    simp only [List.length_append, List.length_cons, List.length_nil, List.append_assoc,
      List.cons_append, List.nil_append] at h
    rw [h]
    simp

/-- The loop of `sanlock_path_import` on a source that holds the string `q`,
in a buffer with room for `q` without its backslashes and a NUL: it writes that
string with its NUL and returns its length. -/
theorem path_import_loop_spec (dstlen : Nat) (q tail : List Nat) :
    ∀ (pre post : List Nat), (∀ b ∈ q, b ≠ 0) → pre.length + post.length = dstlen →
      (drop_backslashes q).length + 1 ≤ post.length →
      path_import_loop dstlen (q ++ 0 :: tail) pre.length (pre ++ post) =
        (pre ++ drop_backslashes q ++ 0 :: post.drop ((drop_backslashes q).length + 1),
          pre.length + (drop_backslashes q).length) := by
  induction q with
  | nil =>
    intro pre post _ hn hfit
    cases post with
    | nil => simp at hfit
    | cons x post2 =>
      have hj : pre.length < dstlen := by simp at hn; omega
      simp [path_import_loop, hj, drop_backslashes, set_append_length]
  | cons c t ih =>
    intro pre post h0 hn hfit
    have hc0 : c ≠ 0 := h0 c (by simp)
    have h0t : ∀ b ∈ t, b ≠ 0 := fun b hb => h0 b (by simp [hb])
    by_cases hc : c = 92
    · have e : drop_backslashes (c :: t) = drop_backslashes t := by
        simp [drop_backslashes, hc]
      rw [e] at hfit ⊢
      have hj : pre.length < dstlen := by omega
      rw [List.cons_append, path_import_loop, if_pos hj, if_pos hc]
      exact ih pre post h0t hn hfit
    · have e : drop_backslashes (c :: t) = c :: drop_backslashes t := by
        simp [drop_backslashes, hc]
      rw [e] at hfit ⊢
      simp only [List.length_cons] at hfit
      cases post with
      | nil => simp at hfit
      | cons x post2 =>
        simp only [List.length_cons] at hfit hn
        have hj : pre.length < dstlen := by omega
        rw [List.cons_append, path_import_loop, if_pos hj, if_neg hc, if_neg hc0,
          set_append_length]
        have h := ih (pre ++ [c]) post2 h0t (by simp; omega) (by omega)
        simp only [List.length_append, List.length_cons, List.length_nil, List.append_assoc,
          List.cons_append, List.nil_append] at h
        rw [h]
        simp
        omega

theorem drop_backslashes_backslash (t : List Nat) :
    drop_backslashes (92 :: t) = drop_backslashes t := by
  simp [drop_backslashes]

theorem drop_backslashes_other (c : Nat) (t : List Nat) (hc : ¬ c = 92) :
    drop_backslashes (c :: t) = c :: drop_backslashes t := by
  simp [drop_backslashes, hc]

theorem drop_backslashes_path_escape (p : List Nat) :
    drop_backslashes (path_escape p) = drop_backslashes p := by
  induction p using path_escape.induct with
  | case1 => rfl
  | case2 => rfl
  | case3 c2 rest2 ih =>
    rw [path_escape_pair, drop_backslashes_backslash, drop_backslashes_backslash]
    by_cases h : c2 = 92
    · rw [h, drop_backslashes_backslash, drop_backslashes_backslash, ih]
    · rw [drop_backslashes_other c2 _ h, drop_backslashes_other c2 _ h, ih]
  | case4 c rest hc hc2 ih =>
    rw [path_escape_special c rest hc2, drop_backslashes_backslash,
      drop_backslashes_other c _ hc, drop_backslashes_other c _ hc, ih]
  | case5 c rest hc hc2 ih =>
    rw [path_escape_plain c rest hc hc2, drop_backslashes_other c _ hc,
      drop_backslashes_other c _ hc, ih]

theorem drop_backslashes_of_not_mem (p : List Nat) (h : 92 ∉ p) : drop_backslashes p = p := by
  unfold drop_backslashes
  apply List.filter_eq_self.mpr
  intro b hb
  have : b ≠ 92 := fun e => h (e ▸ hb)
  simpa using this

theorem drop_backslashes_ne_zero (p : List Nat) (h0 : ∀ b ∈ p, b ≠ 0) :
    ∀ b ∈ drop_backslashes p, b ≠ 0 :=
  fun b hb => h0 b (List.mem_filter.mp hb).1

/-- C16, amended: for every path `p` (a string, no NUL byte inside), an export
buffer of `dstlen1` bytes that has two bytes more than the escaped path, and
an import buffer of `dstlen2` bytes with room for `p` without its backslashes
and a NUL, `sanlock_path_export` writes the escaped path and returns its
length, and `sanlock_path_import` on that output writes `p` without its
backslashes and returns the length of that; when `p` has no backslash the round
trip yields exactly `p`. -/
theorem path_export_import (p dst1 dst2 : List Nat) (dstlen1 dstlen2 : Nat)
    (h0 : ∀ b ∈ p, b ≠ 0)
    (hl1 : dst1.length = dstlen1) (hd1 : dstlen1 < 2 ^ 64)
    (hfit1 : (path_escape p).length + 2 ≤ dstlen1)
    (hl2 : dst2.length = dstlen2) (hfit2 : (drop_backslashes p).length + 1 ≤ dstlen2) :
    cstr (sanlock_path_export dst1 p dstlen1).1 = path_escape p ∧
    (sanlock_path_export dst1 p dstlen1).2 = (path_escape p).length ∧
    cstr (sanlock_path_import dst2 (sanlock_path_export dst1 p dstlen1).1 dstlen2).1 =
      drop_backslashes p ∧
    (sanlock_path_import dst2 (sanlock_path_export dst1 p dstlen1).1 dstlen2).2 =
      (drop_backslashes p).length ∧
    (92 ∉ p →
      cstr (sanlock_path_import dst2 (sanlock_path_export dst1 p dstlen1).1 dstlen2).1 = p) := by
  have hm : memset_zero dst1 dstlen1 = [] ++ List.replicate dstlen1 0 := by
    unfold memset_zero
    rw [List.drop_of_length_le (by omega)]
    simp
  have hx : path_export_loop dstlen1 p 0 (memset_zero dst1 dstlen1) =
      path_escape p ++ List.replicate (dstlen1 - (path_escape p).length) 0 := by
    rw [hm]
    have h := path_export_loop_spec dstlen1 p [] dstlen1 h0 hd1 (by simp) hfit1
    simpa using h
  obtain ⟨k, hk⟩ : ∃ k, dstlen1 - (path_escape p).length = k + 1 :=
    ⟨dstlen1 - (path_escape p).length - 1, by omega⟩
  have he : (sanlock_path_export dst1 p dstlen1).1 =
      path_escape p ++ 0 :: List.replicate k 0 := by
    unfold sanlock_path_export
    simp only
    rw [hx, hk]
    rfl
  have hc1 : cstr (sanlock_path_export dst1 p dstlen1).1 = path_escape p := by
    rw [he]
    exact cstr_append_zero _ _ (path_escape_ne_zero p h0)
  have hi := path_import_loop_spec dstlen2 (path_escape p) (List.replicate k 0) [] dst2
    (path_escape_ne_zero p h0) (by simp; omega)
    (by rw [drop_backslashes_path_escape]; omega)
  rw [drop_backslashes_path_escape] at hi
  have hi1 : sanlock_path_import dst2 (sanlock_path_export dst1 p dstlen1).1 dstlen2 =
      (drop_backslashes p ++ 0 :: dst2.drop ((drop_backslashes p).length + 1),
        (drop_backslashes p).length) := by
    unfold sanlock_path_import
    rw [he]
    simpa using hi
  have hc2 : cstr (sanlock_path_import dst2 (sanlock_path_export dst1 p dstlen1).1 dstlen2).1 =
      drop_backslashes p := by
    rw [hi1]
    exact cstr_append_zero _ _ (drop_backslashes_ne_zero p h0)
  refine ⟨hc1, ?_, hc2, ?_, ?_⟩
  · show strlen _ = _
    unfold strlen
    have := hc1
    unfold sanlock_path_export at this
    simp only at this
    rw [this]
  · rw [hi1]
  · intro hb
    rw [hc2, drop_backslashes_of_not_mem p hb]

/-- C16, counterexample: a path with a backslash in it does not come back: with
buffers of 16 bytes, `a\b` is exported as it is and imported as `ab`. -/
theorem path_round_trip_loses_backslash :
    cstr (sanlock_path_import (List.replicate 16 0)
      (sanlock_path_export (List.replicate 16 0) [97, 92, 98] 16).1 16).1 = [97, 98] ∧
    cstr (sanlock_path_import (List.replicate 16 0)
      (sanlock_path_export (List.replicate 16 0) [97, 92, 98] 16).1 16).1 ≠ [97, 92, 98] := by
  decide

theorem path_export_import_witness :
    cstr (sanlock_path_import (List.replicate 8 7)
      (sanlock_path_export (List.replicate 16 7) [47, 97, 32, 98, 58, 99] 16).1 8).1 =
      [47, 97, 32, 98, 58, 99] :=
  (path_export_import [47, 97, 32, 98, 58, 99] (List.replicate 16 7) (List.replicate 8 7) 16 8
    (by decide) (by decide) (by decide) (by decide) (by decide) (by decide)).2.2.2.2 (by decide)

end Client

namespace Client

/-! ## Decimal numbers -/

theorem fmt_digits_dec (fuel : Nat) : ∀ n, ∀ c ∈ fmt_digits fuel n, 48 ≤ c ∧ c ≤ 57 := by
  induction fuel with
  | zero =>
    intro n c hc
    simp [fmt_digits] at hc
  | succ k ih =>
    intro n c hc
    unfold fmt_digits at hc
    by_cases h : n < 10
    · rw [if_pos h, List.mem_singleton] at hc
      omega
    · rw [if_neg h, List.mem_append, List.mem_singleton] at hc
      rcases hc with hc | hc
      · exact ih _ c hc
      · omega

theorem fmt_digits_length (fuel : Nat) : ∀ n, (fmt_digits fuel n).length ≤ fuel := by
  induction fuel with
  | zero =>
    intro n
    simp [fmt_digits]
  | succ k ih =>
    intro n
    unfold fmt_digits
    by_cases h : n < 10
    · rw [if_pos h]
      simp
    · rw [if_neg h, List.length_append, List.length_singleton]
      have := ih (n / 10)
      omega

theorem fmt_digits_head (fuel : Nat) : ∀ n, 0 < n → n < 10 ^ fuel →
    ∃ c rest, fmt_digits fuel n = c :: rest ∧ 49 ≤ c ∧ c ≤ 57 := by
  induction fuel with
  | zero =>
    intro n h0 h
    simp at h
    omega
  | succ k ih =>
    intro n h0 h
    unfold fmt_digits
    by_cases h10 : n < 10
    · rw [if_pos h10]
      exact ⟨48 + n, [], rfl, by omega, by omega⟩
    · rw [if_neg h10]
      have hk : n / 10 < 10 ^ k := by
        rw [Nat.div_lt_iff_lt_mul (by decide)]
        rw [Nat.pow_succ] at h
        exact h
      obtain ⟨c, rest, e, h1, h2⟩ := ih (n / 10) (by omega) hk
      rw [e]
      exact ⟨c, rest ++ [48 + n % 10], rfl, h1, h2⟩

theorem digit_value_dec (c : Nat) (h : 48 ≤ c ∧ c ≤ 57) : digit_value c = some (c - 48) := by
  unfold digit_value
  rw [if_pos h]

theorem parse_digits_append (l1 l2 : List Nat) (h : ∀ c ∈ l1, 48 ≤ c ∧ c ≤ 57) :
    ∀ acc, parse_digits 10 (l1 ++ l2) acc = parse_digits 10 l2 (parse_digits 10 l1 acc) := by
  induction l1 with
  | nil =>
    intro acc
    rfl
  | cons c t ih =>
    intro acc
    have hc := h c (List.mem_cons_self c t)
    have hv : c - 48 < 10 := by omega
    simp only [List.cons_append, parse_digits, digit_value_dec c hc, hv, if_true]
    exact ih (fun x hx => h x (List.mem_cons_of_mem c hx)) _

theorem parse_fmt_digits (fuel : Nat) : ∀ n, n < 10 ^ fuel →
    parse_digits 10 (fmt_digits fuel n) 0 = n := by
  induction fuel with
  | zero =>
    intro n h
    simp at h
    subst h
    rfl
  | succ k ih =>
    intro n h
    unfold fmt_digits
    by_cases h10 : n < 10
    · rw [if_pos h10]
      have hv : 48 + n - 48 < 10 := by omega
      simp only [parse_digits, digit_value_dec (48 + n) (by omega), hv, if_true]
      omega
    · rw [if_neg h10]
      have hk : n / 10 < 10 ^ k := by
        rw [Nat.div_lt_iff_lt_mul (by decide)]
        rw [Nat.pow_succ] at h
        exact h
      rw [parse_digits_append _ _ (fmt_digits_dec k (n / 10)), ih (n / 10) hk]
      have hv : 48 + n % 10 - 48 < 10 := by omega
      simp only [parse_digits, digit_value_dec (48 + n % 10) (by omega), hv, if_true]
      omega

theorem fmt_llu_dec (n : Nat) : ∀ c ∈ fmt_llu n, 48 ≤ c ∧ c ≤ 57 :=
  fmt_digits_dec 20 _

theorem fmt_llu_length (n : Nat) : 1 ≤ (fmt_llu n).length ∧ (fmt_llu n).length ≤ 20 := by
  refine ⟨?_, fmt_digits_length 20 _⟩
  unfold fmt_llu fmt_digits
  by_cases h : n % 2 ^ 64 < 10
  · rw [if_pos h]
    simp
  · rw [if_neg h]
    simp

/-- The text of `%llu` starts with a digit, and with a digit other than 0
unless the number is 0, whose text is `0`. -/
theorem fmt_llu_head (n : Nat) :
    ∃ c rest, fmt_llu n = c :: rest ∧ 48 ≤ c ∧ c ≤ 57 ∧ (c = 48 → rest = []) := by
  by_cases h0 : n % 2 ^ 64 = 0
  · refine ⟨48, [], ?_, by omega, by omega, fun _ => rfl⟩
    unfold fmt_llu
    rw [h0]
    rfl
  · have hlt : n % 2 ^ 64 < 10 ^ 20 :=
      Nat.lt_of_lt_of_le (Nat.mod_lt _ (by decide)) (by decide)
    obtain ⟨c, rest, e, h1, h2⟩ := fmt_digits_head 20 (n % 2 ^ 64) (by omega) hlt
    exact ⟨c, rest, e, by omega, h2, fun h => by omega⟩

theorem parse_fmt_llu (n : Nat) : parse_digits 10 (fmt_llu n) 0 = n % 2 ^ 64 :=
  parse_fmt_digits 20 _ (Nat.lt_of_lt_of_le (Nat.mod_lt _ (by decide)) (by decide))

theorem ull_result_of_lt (m : Nat) (h : m < 2 ^ 64) : ull_result false m = m := by
  unfold ull_result
  rw [if_neg (by omega)]
  rfl

theorem sscanf_llu_fmt_llu (n : Nat) : sscanf_llu (fmt_llu n) = some (n % 2 ^ 64) := by
  obtain ⟨c, rest, e, h1, h2, _⟩ := fmt_llu_head n
  have hp := parse_fmt_llu n
  rw [e] at hp
  have hs : isspace c = false := by
    unfold isspace
    simp
    omega
  have hd : (c :: rest).dropWhile isspace = c :: rest := by
    simp [List.dropWhile, hs]
  have ht : take_sign (c :: rest) = (false, c :: rest) := by
    unfold take_sign
    split
    · rename_i heq
      simp at heq
      omega
    · rename_i heq
      simp at heq
      omega
    · rfl
  have hh : has_digit 10 (c :: rest) = true := by
    have hv : c - 48 < 10 := by omega
    simp [has_digit, digit_value_dec c ⟨h1, h2⟩, hv]
  unfold sscanf_llu
  rw [e, hd, ht]
  simp only [hh, if_true, hp]
  rw [ull_result_of_lt _ (Nat.mod_lt _ (by decide))]

theorem strtoull0_fmt_llu (n : Nat) : strtoull0 (fmt_llu n) = n % 2 ^ 64 := by
  obtain ⟨c, rest, e, h1, h2, h3⟩ := fmt_llu_head n
  have hp := parse_fmt_llu n
  rw [e] at hp
  have hs : isspace c = false := by
    unfold isspace
    simp
    omega
  have hd : (c :: rest).dropWhile isspace = c :: rest := by
    simp [List.dropWhile, hs]
  have ht : take_sign (c :: rest) = (false, c :: rest) := by
    unfold take_sign
    split
    · rename_i heq
      simp at heq
      omega
    · rename_i heq
      simp at heq
      omega
    · rfl
  unfold strtoull0
  rw [e, hd, ht]
  simp only
  split
  · rename_i x rest2 heq
    simp only [List.cons.injEq] at heq
    have := h3 heq.1
    rw [this] at heq
    simp at heq
  · rw [hp, ull_result_of_lt _ (Nat.mod_lt _ (by decide))]

/-! ## Fields of a resource string -/

theorem scan_field_pair (c2 : Nat) (rest2 : List Nat) :
    scan_field (92 :: c2 :: rest2) = (scan_field rest2).map (fun f => c2 :: f) := by
  simp [scan_field]

theorem scan_field_other (c : Nat) (rest : List Nat) (h1 : c ≠ 92) (h2 : c ≠ 58) :
    scan_field (c :: rest) = (scan_field rest).map (fun f => c :: f) := by
  cases rest <;> simp [scan_field, h1, h2]

theorem scan_field_plain (l : List Nat) (h : ∀ b ∈ l, b ≠ 58 ∧ b ≠ 92) :
    scan_field l = some l := by
  induction l with
  | nil => rfl
  | cons c t ih =>
    have hc := h c (List.mem_cons_self c t)
    rw [scan_field_other c t hc.2 hc.1, ih (fun b hb => h b (List.mem_cons_of_mem c hb))]
    rfl

theorem scan_field_fmt_llu (n : Nat) : scan_field (fmt_llu n) = some (fmt_llu n) := by
  apply scan_field_plain
  intro b hb
  have := fmt_llu_dec n b hb
  omega

theorem path_normal_pair (c2 : Nat) (rest2 : List Nat) :
    path_normal (92 :: c2 :: rest2) = c2 :: path_normal rest2 := by
  simp [path_normal]

theorem path_normal_other (c : Nat) (rest : List Nat) (h : c ≠ 92) :
    path_normal (c :: rest) = c :: path_normal rest := by
  cases rest <;> simp [path_normal, h]

theorem ends_in_escape_pair (c2 : Nat) (rest2 : List Nat) :
    ends_in_escape (92 :: c2 :: rest2) = ends_in_escape rest2 := by
  simp [ends_in_escape]

theorem ends_in_escape_other (c : Nat) (rest : List Nat) (h : c ≠ 92) :
    ends_in_escape (c :: rest) = ends_in_escape rest := by
  cases rest <;> simp [ends_in_escape, h]

/-- The escaped form of a path that does not end in a lone backslash reads
back as the path with its escaping backslashes removed. -/
theorem scan_field_path_escape (p : List Nat) (h : ends_in_escape p = false) :
    scan_field (path_escape p) = some (path_normal p) := by
  induction p using path_escape.induct with
  | case1 => rfl
  | case2 => simp [ends_in_escape] at h
  | case3 c2 rest2 ih =>
    rw [ends_in_escape_pair] at h
    rw [path_escape_pair, scan_field_pair, ih h, path_normal_pair]
    rfl
  | case4 c rest hc hc2 ih =>
    rw [ends_in_escape_other c rest hc] at h
    rw [path_escape_special c rest hc2, scan_field_pair, ih h, path_normal_other c rest hc]
    rfl
  | case5 c rest hc hc2 ih =>
    rw [ends_in_escape_other c rest hc] at h
    have h58 : c ≠ 58 := fun e => hc2 (Or.inr e)
    rw [path_escape_plain c rest hc hc2, scan_field_other c _ hc h58, ih h,
      path_normal_other c rest hc]
    rfl

theorem path_normal_length_le (p : List Nat) :
    (path_normal p).length ≤ (path_escape p).length := by
  induction p using path_escape.induct with
  | case1 => simp [path_normal]
  | case2 => simp [path_normal, path_escape]
  | case3 c2 rest2 ih =>
    rw [path_escape_pair, path_normal_pair]
    simp only [List.length_cons]
    omega
  | case4 c rest hc hc2 ih =>
    rw [path_escape_special c rest hc2, path_normal_other c rest hc]
    simp only [List.length_cons]
    omega
  | case5 c rest hc hc2 ih =>
    rw [path_escape_plain c rest hc hc2, path_normal_other c rest hc]
    simp only [List.length_cons]
    omega

theorem path_normal_ne_nil (p : List Nat) (hp : p ≠ []) (h : ends_in_escape p = false) :
    path_normal p ≠ [] := by
  cases p with
  | nil => exact absurd rfl hp
  | cons c rest =>
    by_cases hc : c = 92
    · subst hc
      cases rest with
      | nil => simp [ends_in_escape] at h
      | cons c2 rest2 =>
        rw [path_normal_pair]
        simp
    · rw [path_normal_other c rest hc]
      simp

theorem path_normal_of_not_mem (p : List Nat) (h : 92 ∉ p) :
    path_normal p = p ∧ ends_in_escape p = false := by
  induction p with
  | nil => exact ⟨rfl, rfl⟩
  | cons c t ih =>
    have hc : c ≠ 92 := fun e => h (e ▸ List.mem_cons_self c t)
    have ht := ih (fun hm => h (List.mem_cons_of_mem c hm))
    rw [path_normal_other c t hc, ends_in_escape_other c t hc, ht.1]
    exact ⟨rfl, ht.2⟩

theorem count_colons_colon (rest : List Nat) (k : Nat) :
    count_colons (58 :: rest) k = count_colons rest (k + 1) := by
  cases rest <;> simp [count_colons]

theorem count_colons_pair (c2 : Nat) (rest2 : List Nat) (k : Nat) :
    count_colons (92 :: c2 :: rest2) k = count_colons rest2 k := by
  simp [count_colons]

theorem count_colons_other (c : Nat) (rest : List Nat) (k : Nat) (h1 : c ≠ 92) (h2 : c ≠ 58) :
    count_colons (c :: rest) k = count_colons rest k := by
  cases rest <;> simp [count_colons, h1, h2]

/-- The first loop of `sanlock_str_to_res` over a field and over a field
followed by a colon. -/
theorem count_colons_field (e : List Nat) :
    ∀ (f : List Nat), scan_field e = some f → ∀ (rest : List Nat) (k : Nat),
      count_colons e k = k ∧ count_colons (e ++ 58 :: rest) k = count_colons rest (k + 1) := by
  induction e using scan_field.induct with
  | case1 =>
    intro f _ rest k
    exact ⟨rfl, count_colons_colon rest k⟩
  | case2 =>
    intro f hf
    simp [scan_field] at hf
  | case3 c2 rest2 ih =>
    intro f hf rest k
    rw [scan_field_pair] at hf
    cases hs : scan_field rest2 with
    | none => simp [hs] at hf
    | some f2 =>
      have := ih f2 hs rest k
      rw [List.cons_append, List.cons_append, count_colons_pair, count_colons_pair]
      exact this
  | case4 rest0 hc =>
    intro f hf
    cases rest0 <;> simp [scan_field] at hf
  | case5 c rest0 hc hc2 ih =>
    intro f hf rest k
    rw [scan_field_other c rest0 hc hc2] at hf
    cases hs : scan_field rest0 with
    | none => simp [hs] at hf
    | some f2 =>
      have := ih f2 hs rest k
      rw [List.cons_append, count_colons_other c _ k hc hc2, count_colons_other c _ k hc hc2]
      exact this

/-! ## The second loop of `sanlock_str_to_res` -/

theorem str_to_res_loop_pair (K : sanlock_resource_h) (hl nd c2 : Nat) (rest2 sub : List Nat)
    (sc d : Nat) (res : sanlk_resource) :
    str_to_res_loop K hl nd (92 :: c2 :: rest2) sub sc d res =
      if sub.length ≥ K.SANLK_PATH_LEN then none
      else str_to_res_loop K hl nd rest2 (sub ++ [c2]) sc d res := by
  simp [str_to_res_loop]

theorem str_to_res_loop_other (K : sanlock_resource_h) (hl nd c : Nat) (rest sub : List Nat)
    (sc d : Nat) (res : sanlk_resource) (h1 : c ≠ 92) (h2 : c ≠ 58) :
    str_to_res_loop K hl nd (c :: rest) sub sc d res =
      if sub.length ≥ K.SANLK_PATH_LEN then none
      else str_to_res_loop K hl nd rest (sub ++ [c]) sc d res := by
  cases rest <;> simp [str_to_res_loop, h1, h2]

theorem str_to_res_loop_colon (K : sanlock_resource_h) (hl nd : Nat) (rest sub : List Nat)
    (sc d : Nat) (res r : sanlk_resource) (d2 : Nat)
    (h : str_to_res_sub K hl nd sub sc d res = some (r, d2)) :
    str_to_res_loop K hl nd (58 :: rest) sub sc d res =
      str_to_res_loop K hl nd rest [] (sc + 1) d2 r := by
  cases rest <;> simp [str_to_res_loop, h]

/-- The second loop over one field: the bytes of the field are collected in
`sub`, without the escaping backslashes. -/
theorem str_to_res_loop_field (K : sanlock_resource_h) (hl nd : Nat) (e : List Nat) :
    ∀ (f : List Nat), scan_field e = some f → ∀ (rest sub : List Nat) (sc d : Nat)
      (res : sanlk_resource), sub.length + f.length ≤ K.SANLK_PATH_LEN →
      str_to_res_loop K hl nd (e ++ rest) sub sc d res =
        str_to_res_loop K hl nd rest (sub ++ f) sc d res := by
  induction e using scan_field.induct with
  | case1 =>
    intro f hf rest sub sc d res _
    simp only [scan_field, Option.some.injEq] at hf
    subst hf
    simp
  | case2 =>
    intro f hf
    simp [scan_field] at hf
  | case3 c2 rest2 ih =>
    intro f hf rest sub sc d res hlen
    rw [scan_field_pair] at hf
    cases hs : scan_field rest2 with
    | none => simp [hs] at hf
    | some f2 =>
      rw [hs] at hf
      simp only [Option.map_some', Option.some.injEq] at hf
      subst hf
      simp only [List.length_cons] at hlen
      rw [List.cons_append, List.cons_append, str_to_res_loop_pair, if_neg (by omega),
        ih f2 hs rest (sub ++ [c2]) sc d res (by simp; omega)]
      simp
  | case4 rest0 hc =>
    intro f hf
    cases rest0 <;> simp [scan_field] at hf
  | case5 c rest0 hc hc2 ih =>
    intro f hf rest sub sc d res hlen
    rw [scan_field_other c rest0 hc hc2] at hf
    cases hs : scan_field rest0 with
    | none => simp [hs] at hf
    | some f2 =>
      rw [hs] at hf
      simp only [Option.map_some', Option.some.injEq] at hf
      subst hf
      simp only [List.length_cons] at hlen
      rw [List.cons_append, str_to_res_loop_other K hl nd c _ sub sc d res hc hc2,
        if_neg (by omega), ih f2 hs rest (sub ++ [c]) sc d res (by simp; omega)]
      simp

/-! ## The string written by `sanlock_res_to_str` -/

theorem cstr_of_ne_zero (l : List Nat) (h : ∀ b ∈ l, b ≠ 0) : cstr l = l := by
  unfold cstr
  apply List.takeWhile_eq_self_iff.mpr
  intro b hb
  simpa using h b hb

theorem sanlock_path_export_cstr (p dst : List Nat) (dstlen : Nat) (h0 : ∀ b ∈ p, b ≠ 0)
    (hl : dst.length = dstlen) (hd : dstlen < 2 ^ 64)
    (hfit : (path_escape p).length + 2 ≤ dstlen) :
    cstr (sanlock_path_export dst p dstlen).1 = path_escape p := by
  have hm : memset_zero dst dstlen = [] ++ List.replicate dstlen 0 := by
    unfold memset_zero
    rw [List.drop_of_length_le (by omega)]
    simp
  have hx : path_export_loop dstlen p 0 (memset_zero dst dstlen) =
      path_escape p ++ List.replicate (dstlen - (path_escape p).length) 0 := by
    rw [hm]
    have h := path_export_loop_spec dstlen p [] dstlen h0 hd (by simp) hfit
    simpa using h
  obtain ⟨k, hk⟩ : ∃ k, dstlen - (path_escape p).length = k + 1 :=
    ⟨dstlen - (path_escape p).length - 1, by omega⟩
  unfold sanlock_path_export
  simp only
  rw [hx, hk]
  exact cstr_append_zero _ _ (path_escape_ne_zero p h0)

theorem snprintf_at_fits (str text : List Nat) (pos size : Nat) (hp : str.length = pos)
    (h : text.length < size) :
    snprintf_at str pos size text = (str ++ text, text.length) := by
  unfold snprintf_at
  rw [if_neg (by omega), List.take_of_length_le (by omega), List.take_of_length_le (by omega)]

/-- The loop over the disks in `sanlock_res_to_str` appends the text of the
disks when the result stays shorter than `SANLK_MAX_RES_STR`. -/
theorem res_to_str_disks_text (K : sanlock_resource_h) (hK : K.SANLK_PATH_LEN + 1 < 2 ^ 64)
    (ds : List sanlk_disk) :
    ∀ (str : List Nat) (pos : Nat), str.length = pos →
      (∀ dk ∈ ds, (∀ b ∈ dk.path, b ≠ 0) ∧
        (path_escape dk.path).length + 1 ≤ K.SANLK_PATH_LEN) →
      pos + (disks_text ds).length < K.SANLK_MAX_RES_STR →
      res_to_str_disks K ds str pos =
        some (str ++ disks_text ds, pos + (disks_text ds).length) := by
  induction ds with
  | nil =>
    intro str pos _ _ _
    simp [res_to_str_disks, disks_text]
  | cons dk rest ih =>
    intro str pos hp hd hfit
    obtain ⟨h0, hpl⟩ := hd dk (List.mem_cons_self dk rest)
    have hx := sanlock_path_export_cstr dk.path (List.replicate (K.SANLK_PATH_LEN + 1) 0)
      (K.SANLK_PATH_LEN + 1) h0 (by simp) hK (by omega)
    have ht : disks_text (dk :: rest) =
        ([58] ++ path_escape dk.path ++ [58] ++ fmt_llu dk.offset) ++ disks_text rest := by
      simp [disks_text]
    rw [ht, List.length_append] at hfit
    unfold res_to_str_disks
    simp only
    rw [hx, snprintf_at_fits str _ pos _ hp (by omega)]
    simp only
    rw [if_neg (by omega), ih _ _ (by rw [List.length_append, hp])
      (fun d hd2 => hd d (List.mem_cons_of_mem dk hd2)) (by omega), ht]
    simp [Nat.add_assoc]
    omega

/-- What `sanlock_res_to_str` returns: the string form of the resource, when
that is shorter than `SANLK_MAX_RES_STR` and the escaped paths fit the local
buffer. -/
theorem sanlock_res_to_str_text (K : sanlock_resource_h) (res : sanlk_resource)
    (hK : K.SANLK_PATH_LEN + 1 < 2 ^ 64)
    (hn : res.disks.length = res.num_disks)
    (hls : ∀ b ∈ res.lockspace_name, b ≠ 0) (hname : ∀ b ∈ res.name, b ≠ 0)
    (hd : ∀ dk ∈ res.disks, (∀ b ∈ dk.path, b ≠ 0) ∧
      (path_escape dk.path).length + 1 ≤ K.SANLK_PATH_LEN)
    (hfit : (res_text K res).length < K.SANLK_MAX_RES_STR) :
    sanlock_res_to_str K true res = Except.ok (res_text K res) := by
  have hfit2 := hfit
  unfold res_text at hfit2
  simp only [List.length_append, List.length_cons] at hfit2
  have htake : res.disks.take res.num_disks = res.disks := by
    rw [← hn]
    exact List.take_length _
  unfold sanlock_res_to_str
  simp only [if_false, Bool.true_eq_false]
  rw [cstr_of_ne_zero _ hls, cstr_of_ne_zero _ hname,
    snprintf_at_fits [] _ 0 _ rfl (by simp; omega)]
  simp only [List.nil_append]
  rw [if_neg (by simp; omega), htake,
    res_to_str_disks_text K hK res.disks _ _ rfl hd (by simp; omega)]
  simp only
  have hl : (lver_text K res).length + 1 <
      K.SANLK_MAX_RES_STR - ((res.lockspace_name ++ [58] ++ res.name).length +
        (disks_text res.disks).length) := by
    simp
    omega
  by_cases hsh : res.flags &&& K.SANLK_RES_SHARED ≠ 0
  · have e : lver_text K res = [83, 72] := by
      unfold lver_text
      rw [if_pos hsh]
    rw [e] at hl
    rw [if_pos hsh, snprintf_at_fits _ [58, 83, 72] _ _ (by simp; omega) (by simpa using hl)]
    simp only
    rw [if_neg (by simp at hl ⊢; omega), if_neg (by simp at hl ⊢; omega)]
    unfold res_text
    rw [e]
    simp
  · have e : lver_text K res = fmt_llu res.lver := by
      unfold lver_text
      rw [if_neg hsh]
    rw [e] at hl
    rw [if_neg hsh, snprintf_at_fits _ ([58] ++ fmt_llu res.lver) _ _
      (by simp; omega) (by simp at hl ⊢; omega)]
    simp only
    rw [if_neg (by simp at hl ⊢; omega), if_neg (by simp at hl ⊢; omega)]
    unfold res_text
    rw [e]
    simp

/-! ## Reading the string back -/

theorem disks_text_colon (tail : List Nat) (ds : List sanlk_disk) :
    disks_text ds ++ 58 :: tail = 58 :: disks_fields tail ds := by
  induction ds with
  | nil => rfl
  | cons dk rest ih =>
    simp only [disks_text, disks_fields, List.cons_append, List.append_assoc]
    rw [ih]

theorem modify_disk_length (f : sanlk_disk → sanlk_disk) (done rest : List sanlk_disk)
    (x : sanlk_disk) :
    modify_disk f done.length (done ++ x :: rest) = done ++ f x :: rest := by
  induction done with
  | nil => rfl
  | cons a t ih => simp [modify_disk, ih]

theorem str_to_res_sub_path (K : sanlock_resource_h) (hl nd : Nat) (sub : List Nat)
    (sc d : Nat) (res : sanlk_resource) (h2 : 2 ≤ sc) (he : sc % 2 = 0) (hd : d ≠ nd)
    (h1 : 1 ≤ sub.length) (hp : sub.length ≤ K.SANLK_PATH_LEN - 1) :
    str_to_res_sub K hl nd sub sc d res =
      some ({ res with disks := modify_disk (fun x => { x with path := sub }) d res.disks },
        d) := by
  unfold str_to_res_sub
  rw [if_neg (by omega), if_neg (by omega), if_neg (by omega), if_neg (by omega), if_pos he,
    if_neg (by omega)]
  simp only [strncpy]
  rw [List.take_of_length_le hp]

theorem str_to_res_sub_offset (K : sanlock_resource_h) (hl nd : Nat) (sub : List Nat)
    (sc d v : Nat) (res : sanlk_resource) (h2 : 2 ≤ sc) (he : sc % 2 = 1)
    (h1 : 1 ≤ sub.length) (hp : sub.length ≤ K.SANLK_PATH_LEN - 1)
    (hv : sscanf_llu sub = some v) :
    str_to_res_sub K hl nd sub sc d res =
      some ({ res with disks := modify_disk (fun x => { x with offset := v }) d res.disks },
        d + 1) := by
  unfold str_to_res_sub
  rw [if_neg (by omega), if_neg (by omega), if_neg (by omega), if_neg (by omega),
    if_neg (by omega), hv]

/-- The second loop over the fields of the disks: each disk is stored with its
path read back and its offset, and `d` and `sub_count` advance. -/
theorem str_to_res_loop_disks (K : sanlock_resource_h) (hK : 21 ≤ K.SANLK_PATH_LEN)
    (hl nd : Nat) (tail : List Nat) (ds : List sanlk_disk) :
    ∀ (done : List sanlk_disk) (res : sanlk_resource),
      done.length + ds.length = nd →
      res.disks = done ++ List.replicate ds.length { path := [], offset := 0 } →
      (∀ dk ∈ ds, dk.path ≠ [] ∧ ends_in_escape dk.path = false ∧
        (path_escape dk.path).length + 1 ≤ K.SANLK_PATH_LEN) →
      str_to_res_loop K hl nd (disks_fields tail ds) [] (2 + 2 * done.length) done.length res =
        str_to_res_loop K hl nd tail [] (2 + 2 * nd) nd
          { res with disks := done ++ ds.map disk_normal } := by
  induction ds with
  | nil =>
    intro done res hn hres _
    simp only [List.length_nil, Nat.add_zero] at hn
    simp only [List.length_nil, List.replicate_zero, List.append_nil] at hres
    subst hn
    simp only [disks_fields, List.map_nil, List.append_nil]
    rw [← hres]
  | cons dk rest ih =>
    intro done res hn hres hd
    obtain ⟨hne, hesc, hfit⟩ := hd dk (List.mem_cons_self dk rest)
    simp only [List.length_cons] at hn hres
    have hnl := path_normal_length_le dk.path
    have hnn : 1 ≤ (path_normal dk.path).length :=
      List.length_pos.mpr (path_normal_ne_nil dk.path hne hesc)
    have hfl := fmt_llu_length dk.offset
    rw [List.replicate_succ] at hres
    unfold disks_fields
    rw [List.append_assoc, str_to_res_loop_field K hl nd _ _ (scan_field_path_escape dk.path hesc)
      _ [] _ _ res (by simp; omega), List.nil_append, List.cons_append,
      str_to_res_loop_colon K hl nd _ _ _ _ res _ _
        (str_to_res_sub_path K hl nd _ _ _ res (by omega) (by omega) (by omega) hnn (by omega)),
      str_to_res_loop_field K hl nd _ _ (scan_field_fmt_llu dk.offset)
      _ [] _ _ _ (by simp; omega), List.nil_append,
      str_to_res_loop_colon K hl nd _ _ _ _ _ _ _
        (str_to_res_sub_offset K hl nd _ _ _ _ _ (by omega) (by omega) hfl.1 (by omega)
          (sscanf_llu_fmt_llu dk.offset))]
    simp only
    rw [hres, modify_disk_length, modify_disk_length]
    have h := ih (done ++ [disk_normal dk])
      { res with disks := (done ++ [disk_normal dk]) ++
          List.replicate rest.length { path := [], offset := 0 } }
      (by simp; omega) rfl (fun d hd2 => hd d (List.mem_cons_of_mem dk hd2))
    simp only [List.length_append, List.length_singleton, List.append_assoc,
      List.singleton_append, List.map_cons] at h ⊢
    have e : 2 + 2 * (done.length + 1) = 2 + 2 * done.length + 1 + 1 := by omega
    rw [e] at h
    exact h

theorem str_to_res_sub_lockspace (K : sanlock_resource_h) (hl nd : Nat) (sub : List Nat)
    (d : Nat) (res : sanlk_resource) (h : sub.length ≤ K.SANLK_NAME_LEN) :
    str_to_res_sub K hl nd sub 0 d res = some ({ res with lockspace_name := sub }, d) := by
  unfold str_to_res_sub
  rw [if_neg (by omega), if_neg (by omega), if_pos rfl]
  simp only [strncpy]
  rw [List.take_of_length_le h]

theorem str_to_res_sub_name (K : sanlock_resource_h) (hl nd : Nat) (sub : List Nat)
    (d : Nat) (res : sanlk_resource) (h : sub.length ≤ K.SANLK_NAME_LEN) :
    str_to_res_sub K hl nd sub 1 d res = some ({ res with name := sub }, d) := by
  unfold str_to_res_sub
  rw [if_neg (by omega), if_neg (by omega), if_neg (by omega), if_pos rfl]
  simp only [strncpy]
  rw [List.take_of_length_le h]

theorem str_to_res_sub_lver (K : sanlock_resource_h) (hl nd : Nat) (sub : List Nat)
    (sc : Nat) (res : sanlk_resource) (h2 : 2 ≤ sc) (he : sc % 2 = 0) (hh : hl ≠ 0)
    (h1 : 1 ≤ sub.length) (hp : sub.length ≤ K.SANLK_PATH_LEN - 1) :
    str_to_res_sub K hl nd sub sc nd res =
      if sub.take 2 = [83, 72] then
        some ({ res with flags := res.flags ||| K.SANLK_RES_SHARED }, nd)
      else
        some ({ res with flags := res.flags ||| K.SANLK_RES_LVER, lver := strtoull0 sub }, nd) := by
  unfold str_to_res_sub
  rw [if_neg (by omega), if_neg (by omega), if_neg (by omega), if_neg (by omega), if_pos he,
    if_pos ⟨hh, rfl⟩]

theorem count_colons_disks_fields (tail : List Nat) (ds : List sanlk_disk)
    (hd : ∀ dk ∈ ds, ends_in_escape dk.path = false) :
    ∀ k, count_colons (disks_fields tail ds) k = count_colons tail (k + 2 * ds.length) := by
  induction ds with
  | nil =>
    intro k
    rfl
  | cons dk rest ih =>
    intro k
    unfold disks_fields
    rw [List.append_assoc, List.cons_append,
      (count_colons_field _ _ (scan_field_path_escape dk.path
        (hd dk (List.mem_cons_self dk rest))) _ k).2,
      (count_colons_field _ _ (scan_field_fmt_llu dk.offset) _ (k + 1)).2,
      ih (fun d hd2 => hd d (List.mem_cons_of_mem dk hd2))]
    simp only [List.length_cons]
    congr 1
    omega

theorem disks_text_ne_zero (ds : List sanlk_disk) (hd : ∀ dk ∈ ds, ∀ b ∈ dk.path, b ≠ 0) :
    ∀ b ∈ disks_text ds, b ≠ 0 := by
  induction ds with
  | nil =>
    intro b hb
    simp [disks_text] at hb
  | cons dk rest ih =>
    intro b hb
    simp only [disks_text, List.cons_append, List.append_assoc, List.mem_cons,
      List.mem_append] at hb
    rcases hb with hb | hb | hb | hb | hb
    · omega
    · exact path_escape_ne_zero dk.path (hd dk (List.mem_cons_self dk rest)) b hb
    · omega
    · have := fmt_llu_dec dk.offset b hb
      omega
    · exact ih (fun d hd2 => hd d (List.mem_cons_of_mem dk hd2)) b hb

theorem lver_text_facts (K : sanlock_resource_h) (res : sanlk_resource) :
    scan_field (lver_text K res) = some (lver_text K res) ∧
    1 ≤ (lver_text K res).length ∧ (lver_text K res).length ≤ 20 ∧
    ∀ b ∈ lver_text K res, b ≠ 0 := by
  unfold lver_text
  by_cases h : res.flags &&& K.SANLK_RES_SHARED ≠ 0
  · rw [if_pos h]
    refine ⟨by decide, by decide, by decide, by decide⟩
  · rw [if_neg h]
    have hl := fmt_llu_length res.lver
    refine ⟨scan_field_fmt_llu _, hl.1, hl.2, ?_⟩
    intro b hb
    have := fmt_llu_dec res.lver b hb
    omega

theorem res_text_ne_zero (K : sanlock_resource_h) (res : sanlk_resource)
    (hls : ∀ b ∈ res.lockspace_name, b ≠ 0) (hname : ∀ b ∈ res.name, b ≠ 0)
    (hd : ∀ dk ∈ res.disks, ∀ b ∈ dk.path, b ≠ 0) :
    ∀ b ∈ res_text K res, b ≠ 0 := by
  intro b hb
  simp only [res_text, List.mem_append, List.mem_cons] at hb
  rcases hb with ((hb | hb | hb) | hb) | hb | hb
  · exact hls b hb
  · omega
  · exact hname b hb
  · exact disks_text_ne_zero res.disks hd b hb
  · omega
  · exact (lver_text_facts K res).2.2.2 b hb

/-- What `sanlock_str_to_res` returns for the string form of a resource with
at least one disk. -/
theorem sanlock_str_to_res_text (K : sanlock_resource_h) (res : sanlk_resource)
    (hK1 : K.SANLK_NAME_LEN ≤ K.SANLK_PATH_LEN) (hK2 : 21 ≤ K.SANLK_PATH_LEN)
    (hn : res.disks.length = res.num_disks) (hn1 : 1 ≤ res.num_disks)
    (hn2 : res.num_disks ≤ K.SANLK_MAX_DISKS)
    (hls : ∀ b ∈ res.lockspace_name, b ≠ 0 ∧ b ≠ 58 ∧ b ≠ 92)
    (hlsl : res.lockspace_name.length ≤ K.SANLK_NAME_LEN)
    (hname : ∀ b ∈ res.name, b ≠ 0 ∧ b ≠ 58 ∧ b ≠ 92)
    (hnamel : res.name.length ≤ K.SANLK_NAME_LEN)
    (hd : ∀ dk ∈ res.disks, (∀ b ∈ dk.path, b ≠ 0) ∧ dk.path ≠ [] ∧
      ends_in_escape dk.path = false ∧ (path_escape dk.path).length + 1 ≤ K.SANLK_PATH_LEN) :
    sanlock_str_to_res K true (res_text K res) =
      Except.ok
        { lockspace_name := res.lockspace_name, name := res.name,
          lver := if res.flags &&& K.SANLK_RES_SHARED ≠ 0 then 0 else res.lver % 2 ^ 64,
          flags := if res.flags &&& K.SANLK_RES_SHARED ≠ 0 then K.SANLK_RES_SHARED
            else K.SANLK_RES_LVER,
          num_disks := res.num_disks, disks := res.disks.map disk_normal } := by
  obtain ⟨lf1, lf2, lf3, _⟩ := lver_text_facts K res
  have hc : cstr (res_text K res) = res_text K res :=
    cstr_of_ne_zero _ (res_text_ne_zero K res (fun b hb => (hls b hb).1)
      (fun b hb => (hname b hb).1) (fun dk hdk => (hd dk hdk).1))
  have hform : res_text K res = res.lockspace_name ++ 58 :: (res.name ++ 58 ::
      disks_fields (lver_text K res) res.disks) := by
    unfold res_text
    rw [List.append_assoc, disks_text_colon]
    simp
  have hsl : scan_field res.lockspace_name = some res.lockspace_name :=
    scan_field_plain _ (fun b hb => ⟨(hls b hb).2.1, (hls b hb).2.2⟩)
  have hsn : scan_field res.name = some res.name :=
    scan_field_plain _ (fun b hb => ⟨(hname b hb).2.1, (hname b hb).2.2⟩)
  have hcol : count_colons (res_text K res) 0 = 2 + 2 * res.num_disks := by
    rw [hform, (count_colons_field _ _ hsl _ 0).2, (count_colons_field _ _ hsn _ 1).2,
      count_colons_disks_fields _ _ (fun dk hdk => (hd dk hdk).2.2.1),
      (count_colons_field _ _ lf1 [] _).1, hn]
  have hlen : 3 ≤ (res_text K res).length := by
    rw [hform]
    simp only [List.length_append, List.length_cons]
    have : 1 ≤ (disks_fields (lver_text K res) res.disks).length := by
      cases hds : res.disks with
      | nil =>
        rw [hds] at hn
        simp at hn
        omega
      | cons dk rest =>
        simp only [disks_fields, List.length_append, List.length_cons]
        omega
    omega
  unfold sanlock_str_to_res strlen
  rw [hc, if_neg (by omega)]
  simp only [hcol]
  rw [if_neg (by omega), if_neg (by omega)]
  simp only [if_false, Bool.true_eq_false]
  have e1 : (2 + 2 * res.num_disks - 1) / 2 = res.num_disks := by omega
  have e2 : (2 + 2 * res.num_disks - 1) % 2 = 1 := by omega
  rw [e1, e2, hform,
    str_to_res_loop_field K 1 res.num_disks _ _ hsl _ [] _ _ _ (by simp; omega),
    List.nil_append,
    str_to_res_loop_colon K 1 res.num_disks _ _ _ _ _ _ _
      (str_to_res_sub_lockspace K 1 res.num_disks _ _ _ hlsl),
    str_to_res_loop_field K 1 res.num_disks _ _ hsn _ [] _ _ _ (by simp; omega),
    List.nil_append,
    str_to_res_loop_colon K 1 res.num_disks _ _ _ _ _ _ _
      (str_to_res_sub_name K 1 res.num_disks _ _ _ hnamel)]
  have hdl := str_to_res_loop_disks K hK2 1 res.num_disks (lver_text K res) res.disks []
    { lockspace_name := res.lockspace_name, name := res.name, lver := 0, flags := 0,
      num_disks := res.num_disks,
      disks := List.replicate res.num_disks { path := [], offset := 0 } }
    (by simpa using hn) (by simp [hn])
    (fun dk hdk => ⟨(hd dk hdk).2.1, (hd dk hdk).2.2.1, (hd dk hdk).2.2.2⟩)
  simp only [List.length_nil, Nat.mul_zero, Nat.add_zero, List.nil_append] at hdl
  rw [hdl]
  have hfin := str_to_res_loop_field K 1 res.num_disks (lver_text K res) _ lf1 [] []
    (2 + 2 * res.num_disks) res.num_disks
    { lockspace_name := res.lockspace_name, name := res.name, lver := 0, flags := 0,
      num_disks := res.num_disks, disks := res.disks.map disk_normal } (by simp; omega)
  simp only [List.append_nil, List.nil_append] at hfin
  rw [hfin]
  simp only [str_to_res_loop]
  rw [str_to_res_sub_lver K 1 res.num_disks _ _ _ (by omega) (by omega) (by decide) lf2
    (by omega)]
  unfold lver_text
  by_cases hsh : res.flags &&& K.SANLK_RES_SHARED ≠ 0
  · simp only [if_pos hsh]
    simp
  · simp only [if_neg hsh]
    obtain ⟨c, rest, e, h1, h2, _⟩ := fmt_llu_head res.lver
    have hne : (fmt_llu res.lver).take 2 ≠ [83, 72] := by
      rw [e]
      intro h
      cases rest with
      | nil => simp at h
      | cons x t =>
        simp at h
        omega
    rw [if_neg hne, strtoull0_fmt_llu]
    simp

/-- C17, counterexample.  A resource without disks: `sanlock_res_to_str` writes
`ls:r1:7`, and `sanlock_str_to_res` returns -1 for that string.  A resource
with one disk and `flags = 0`: both conversions succeed, and the resource read
back has `flags = SANLK_RES_LVER`. -/
theorem res_round_trip_fails :
    (sanlock_res_to_str sample_resource_h true (sample_res 0 7 []) =
        Except.ok [108, 115, 58, 114, 49, 58, 55] ∧
      sanlock_str_to_res sample_resource_h true [108, 115, 58, 114, 49, 58, 55] =
        Except.error (-1)) ∧
    (sanlock_res_to_str sample_resource_h true (sample_res 0 7 [sample_disk]) =
        Except.ok (res_text sample_resource_h (sample_res 0 7 [sample_disk])) ∧
      sanlock_str_to_res sample_resource_h true
          (res_text sample_resource_h (sample_res 0 7 [sample_disk])) =
        Except.ok (sample_res 1 7 [sample_disk]) ∧
      sample_res 1 7 [sample_disk] ≠ sample_res 0 7 [sample_disk]) := by
  decide

/-- C17, amended: for every resource with at least one and at most
`SANLK_MAX_DISKS` disks, whose two names are shorter than `SANLK_NAME_LEN` and
free of colons and backslashes, whose paths are not empty, do not end in a
backslash that escapes nothing and have an escaped form shorter than
`SANLK_PATH_LEN`, and whose string form is shorter than `SANLK_MAX_RES_STR`:
`sanlock_res_to_str` succeeds and writes the string form, and
`sanlock_str_to_res` on it succeeds and yields the same names, `num_disks` and
offsets, each path with its escaping backslashes removed (the same path when
it has no backslash), and for a resource with the flag `SANLK_RES_SHARED`
`flags = SANLK_RES_SHARED` and `lver = 0`, otherwise `flags = SANLK_RES_LVER`
and the same `lver`. -/
theorem res_str_round_trip (K : sanlock_resource_h) (res : sanlk_resource)
    (hK1 : K.SANLK_NAME_LEN ≤ K.SANLK_PATH_LEN) (hK2 : 21 ≤ K.SANLK_PATH_LEN)
    (hK3 : K.SANLK_PATH_LEN + 1 < 2 ^ 64)
    (hn : res.disks.length = res.num_disks) (hn1 : 1 ≤ res.num_disks)
    (hn2 : res.num_disks ≤ K.SANLK_MAX_DISKS)
    (hls : ∀ b ∈ res.lockspace_name, b ≠ 0 ∧ b ≠ 58 ∧ b ≠ 92)
    (hlsl : res.lockspace_name.length < K.SANLK_NAME_LEN)
    (hname : ∀ b ∈ res.name, b ≠ 0 ∧ b ≠ 58 ∧ b ≠ 92)
    (hnamel : res.name.length < K.SANLK_NAME_LEN)
    (hd : ∀ dk ∈ res.disks, (∀ b ∈ dk.path, b ≠ 0) ∧ dk.path ≠ [] ∧
      ends_in_escape dk.path = false ∧
      (path_escape dk.path).length + 1 ≤ K.SANLK_PATH_LEN ∧ dk.offset < 2 ^ 64)
    (hlver : res.lver < 2 ^ 64)
    (hfit : (res_text K res).length < K.SANLK_MAX_RES_STR) :
    sanlock_res_to_str K true res = Except.ok (res_text K res) ∧
    sanlock_str_to_res K true (res_text K res) =
      Except.ok
        { lockspace_name := res.lockspace_name, name := res.name,
          lver := if res.flags &&& K.SANLK_RES_SHARED ≠ 0 then 0 else res.lver,
          flags := if res.flags &&& K.SANLK_RES_SHARED ≠ 0 then K.SANLK_RES_SHARED
            else K.SANLK_RES_LVER,
          num_disks := res.num_disks,
          disks := res.disks.map (fun dk => { dk with path := path_normal dk.path }) } ∧
    (∀ dk ∈ res.disks, 92 ∉ dk.path → path_normal dk.path = dk.path) := by
  refine ⟨?_, ?_, ?_⟩
  · exact sanlock_res_to_str_text K res hK3 hn (fun b hb => (hls b hb).1)
      (fun b hb => (hname b hb).1) (fun dk hdk => ⟨(hd dk hdk).1, (hd dk hdk).2.2.2.1⟩) hfit
  · rw [sanlock_str_to_res_text K res hK1 hK2 hn hn1 hn2 hls (by omega) hname (by omega)
      (fun dk hdk => ⟨(hd dk hdk).1, (hd dk hdk).2.1, (hd dk hdk).2.2.1, (hd dk hdk).2.2.2.1⟩)]
    have hm : res.disks.map disk_normal =
        res.disks.map (fun dk => { dk with path := path_normal dk.path }) := by
      apply List.map_congr_left
      intro dk hdk
      unfold disk_normal
      rw [Nat.mod_eq_of_lt (hd dk hdk).2.2.2.2]
    rw [hm, Nat.mod_eq_of_lt hlver]
  · intro dk _ hb
    exact (path_normal_of_not_mem dk.path hb).1

theorem res_str_round_trip_witness :
    sanlock_res_to_str sample_resource_h true (sample_res 4 7 [sample_disk, sample_disk]) =
      Except.ok (res_text sample_resource_h (sample_res 4 7 [sample_disk, sample_disk])) ∧
    sanlock_str_to_res sample_resource_h true
        (res_text sample_resource_h (sample_res 4 7 [sample_disk, sample_disk])) =
      Except.ok (sample_res 4 0 [sample_disk, sample_disk]) :=
  ⟨(res_str_round_trip sample_resource_h (sample_res 4 7 [sample_disk, sample_disk])
      (by decide) (by decide) (by decide) (by decide) (by decide) (by decide) (by decide)
      (by decide) (by decide) (by decide) (by decide) (by decide) (by decide)).1,
    (res_str_round_trip sample_resource_h (sample_res 4 7 [sample_disk, sample_disk])
      (by decide) (by decide) (by decide) (by decide) (by decide) (by decide) (by decide)
      (by decide) (by decide) (by decide) (by decide) (by decide) (by decide)).2.1⟩

/-- A string form of exactly `SANLK_MAX_RES_STR` bytes: `sanlock_res_to_str`
succeeds and returns the string without its last byte, and the resource read
back has the lease version 1 where the resource had 17. -/
theorem res_to_str_cuts_last_byte :
    (res_text small_resource_h (sample_res 0 17 [sample_disk])).length = 22 ∧
    sanlock_res_to_str small_resource_h true (sample_res 0 17 [sample_disk]) =
      Except.ok ((res_text small_resource_h (sample_res 0 17 [sample_disk])).take 21) ∧
    sanlock_str_to_res small_resource_h true
        ((res_text small_resource_h (sample_res 0 17 [sample_disk])).take 21) =
      Except.ok (sample_res 1 1 [sample_disk]) := by
  decide

end Client

namespace SanlkReset

theorem int_of_u64_ne_zero (x : Nat) (h : x < 2 ^ 32) : int_of_u64 x ≠ 0 ↔ x ≠ 0 := by
  unfold int_of_u64
  rw [Nat.mod_eq_of_lt h]
  split_ifs <;> omega

theorem event_bit_ne_zero (E : sanlk_reset_h) (hE : E.EVENT_RESETTING < 2 ^ 32) (x : Nat) :
    int_of_u64 (x &&& E.EVENT_RESETTING) ≠ 0 ↔ x &&& E.EVENT_RESETTING ≠ 0 :=
  int_of_u64_ne_zero _ (Nat.lt_of_le_of_lt Nat.and_le_right hE)

theorem unregister_ls_slot (i : Nat) (s : reset_state) (sl : ls_slot) (h : s.ls[i]? = some sl) :
    (∃ sl2, (unregister_ls i s).ls[i]? = some sl2 ∧
      sl2.ls_is_resetting = sl.ls_is_resetting ∧ sl2.ls_hostids = sl.ls_hostids) ∧
    ∀ j, j ≠ i → (unregister_ls i s).ls[j]? = s.ls[j]? := by
  have hlt : i < s.ls.length := by
    rcases List.getElem?_eq_some_iff.mp h with ⟨hl, _⟩
    exact hl
  unfold unregister_ls
  rw [h]
  refine ⟨⟨_, List.getElem?_set_self hlt, rfl, rfl⟩, ?_⟩
  intro j hj
  simp [List.getElem?_set_ne (Ne.symm hj)]

/-- The loop of `get_events(i)` on an entry: it sets `ls_is_resetting` to 1 when
one of the drained events is from the target and has the bit, leaves it
otherwise, and leaves the other entries as they are. -/
theorem get_events_loop_slot (E : sanlk_reset_h) (hE : E.EVENT_RESETTING < 2 ^ 32) (i : Nat)
    (rs : List event_reply) :
    ∀ (s : reset_state) (sl : ls_slot), s.ls[i]? = some sl →
      (∃ sl2, (get_events_loop E i rs s).ls[i]? = some sl2 ∧
        sl2.ls_is_resetting =
          (if (drained_events rs).any (resetting_reply E sl.ls_hostids) = true then 1
            else sl.ls_is_resetting) ∧
        sl2.ls_hostids = sl.ls_hostids) ∧
      ∀ j, j ≠ i → (get_events_loop E i rs s).ls[j]? = s.ls[j]? := by
  induction rs with
  | nil =>
    intro s sl h
    exact ⟨⟨sl, h, by simp [drained_events], rfl⟩, fun _ _ => rfl⟩
  | cons r rest ih =>
    intro s sl h
    have hlt : i < s.ls.length := by
      rcases List.getElem?_eq_some_iff.mp h with ⟨hl, _⟩
      exact hl
    unfold get_events_loop
    by_cases h1 : r.rv = -EAGAIN
    · rw [if_pos h1]
      have hd : drained_events (r :: rest) = [] := by
        have : ¬ (0 ≤ r.rv) := by
          rw [h1]
          decide
        simp [drained_events, List.takeWhile, this]
      rw [hd]
      exact ⟨⟨sl, h, by simp, rfl⟩, fun _ _ => rfl⟩
    · rw [if_neg h1]
      by_cases h2 : r.rv < 0
      · rw [if_pos h2]
        have hd : drained_events (r :: rest) = [] := by
          have : ¬ (0 ≤ r.rv) := by omega
          simp [drained_events, List.takeWhile, this]
        rw [hd]
        obtain ⟨⟨sl2, e1, e2, e3⟩, e4⟩ := unregister_ls_slot i s sl h
        exact ⟨⟨sl2, e1, by simpa using e2, e3⟩, e4⟩
      · rw [if_neg h2]
        have hd : drained_events (r :: rest) = r :: drained_events rest := by
          have : 0 ≤ r.rv := by omega
          simp [drained_events, List.takeWhile, this]
        rw [hd, h]
        simp only
        have hbit := event_bit_ne_zero E hE r.event
        by_cases hr : resetting_reply E sl.ls_hostids r = true
        · have hr2 := hr
          unfold resetting_reply at hr2
          simp only [decide_eq_true_eq] at hr2
          have hb : int_of_u64 (r.event &&& E.EVENT_RESETTING) ≠ 0 := hbit.mpr hr2.2
          rw [if_pos ⟨hr2.1, Or.inl hb⟩, if_pos hb]
          obtain ⟨⟨sl2, e1, e2, e3⟩, e4⟩ :=
            ih { s with ls := s.ls.set i { sl with ls_is_resetting := 1 } }
              { sl with ls_is_resetting := 1 } (by simp [List.getElem?_set_self hlt])
          refine ⟨⟨sl2, e1, ?_, e3⟩, ?_⟩
          · rw [e2]
            simp [hr]
          · intro j hj
            rw [e4 j hj]
            simp [List.getElem?_set_ne (Ne.symm hj)]
        · have hr2 : ¬ (r.from_host = u64_of_int sl.ls_hostids ∧
              r.event &&& E.EVENT_RESETTING ≠ 0) := by
            intro hc
            apply hr
            unfold resetting_reply
            simpa using hc
          have hrf : resetting_reply E sl.ls_hostids r = false := by
            simpa using hr
          have hany : (r :: drained_events rest).any (resetting_reply E sl.ls_hostids) =
              (drained_events rest).any (resetting_reply E sl.ls_hostids) := by
            simp [List.any_cons, hrf]
          rw [hany]
          by_cases hc : r.from_host = u64_of_int sl.ls_hostids ∧
              (int_of_u64 (r.event &&& E.EVENT_RESETTING) ≠ 0 ∨
                int_of_u64 (r.event &&& E.EVENT_REBOOTING) ≠ 0)
          · rw [if_pos hc]
            have hb : ¬ int_of_u64 (r.event &&& E.EVENT_RESETTING) ≠ 0 :=
              fun hb => hr2 ⟨hc.1, hbit.mp hb⟩
            rw [if_neg hb]
            exact ih s sl h
          · rw [if_neg hc]
            exact ih s sl h
/-- C23: `get_events(i)` leaves `ls_is_resetting[i]` at 1 exactly when it was 1
before or one of the drained events comes from the host `ls_hostids[i]` and has
the bit `EVENT_RESETTING`; without such an event `ls_is_resetting[i]` is
unchanged, whatever other hosts send and whatever else the target sends.  The
other fields of the entry that hold flags, counters and times are unchanged,
and so are all other entries, `native_timeout` and `watchdog_failed_to_fire`.
`EVENT_RESETTING` is a constant of at most 32 bits. -/
theorem get_events_sets_resetting (E : sanlk_reset_h) (i : Nat) (rs : List event_reply)
    (s : reset_state) (sl : ls_slot) (hi : s.ls[i]? = some sl)
    (hE : E.EVENT_RESETTING < 2 ^ 32) :
    ∃ sl2, (get_events E i rs s).ls[i]? = some sl2 ∧
      (sl2.ls_is_resetting = 1 ↔
        sl.ls_is_resetting = 1 ∨
          ∃ r ∈ drained_events rs, r.from_host = u64_of_int sl.ls_hostids ∧
            r.event &&& E.EVENT_RESETTING ≠ 0) ∧
      ((∀ r ∈ drained_events rs, ¬ (r.from_host = u64_of_int sl.ls_hostids ∧
            r.event &&& E.EVENT_RESETTING ≠ 0)) →
        sl2.ls_is_resetting = sl.ls_is_resetting) ∧
      ls_kept sl2 = ls_kept sl ∧
      (∀ j, j ≠ i → (get_events E i rs s).ls[j]? = s.ls[j]?) ∧
      (get_events E i rs s).native_timeout = s.native_timeout ∧
      (get_events E i rs s).watchdog_failed_to_fire = s.watchdog_failed_to_fire := by
  unfold get_events
  obtain ⟨⟨sl2, e1, e2, _⟩, e4⟩ := get_events_loop_slot E hE i rs s sl hi
  obtain ⟨k1, k2, k3, _⟩ := get_events_loop_kept E i rs s
  obtain ⟨sl3, k4, k5⟩ := kept_some k1 i sl hi
  have e : sl3 = sl2 := Option.some.inj (k4.symm.trans e1)
  subst e
  have hany : (drained_events rs).any (resetting_reply E sl.ls_hostids) = true ↔
      ∃ r ∈ drained_events rs, r.from_host = u64_of_int sl.ls_hostids ∧
        r.event &&& E.EVENT_RESETTING ≠ 0 := by
    simp [List.any_eq_true, resetting_reply]
  refine ⟨sl3, e1, ?_, ?_, k5, e4, k2, k3⟩
  · rw [e2]
    constructor
    · intro h
      by_cases ha : (drained_events rs).any (resetting_reply E sl.ls_hostids) = true
      · exact Or.inr (hany.mp ha)
      · rw [if_neg ha] at h
        exact Or.inl h
    · intro h
      by_cases ha : (drained_events rs).any (resetting_reply E sl.ls_hostids) = true
      · rw [if_pos ha]
      · rw [if_neg ha]
        rcases h with h | h
        · exact h
        · exact absurd (hany.mpr h) ha
  · intro hno
    rw [e2, if_neg]
    intro ha
    obtain ⟨r, hr, hc⟩ := hany.mp ha
    exact hno r hr hc

set_option maxRecDepth 100000 in
theorem get_events_sets_resetting_witness :
    (∃ sl2, (get_events sample_E 0 sample_other_events
        (sample_reset 0 90 [sample_slot 0 0 3 0 0 5040 3])).ls[0]? = some sl2 ∧
      sl2.ls_is_resetting = 0) ∧
    (∃ sl2, (get_events sample_E 0 sample_resetting_events
        (sample_reset 0 90 [sample_slot 0 0 3 0 0 5040 3])).ls[0]? = some sl2 ∧
      sl2.ls_is_resetting = 1) := by
  obtain ⟨a, a1, _, a3, _⟩ := get_events_sets_resetting sample_E 0 sample_other_events
    (sample_reset 0 90 [sample_slot 0 0 3 0 0 5040 3]) (sample_slot 0 0 3 0 0 5040 3)
    (by decide) (by decide)
  obtain ⟨b, b1, b2, _⟩ := get_events_sets_resetting sample_E 0 sample_resetting_events
    (sample_reset 0 90 [sample_slot 0 0 3 0 0 5040 3]) (sample_slot 0 0 3 0 0 5040 3)
    (by decide) (by decide)
  exact ⟨⟨a, a1, a3 (by decide)⟩, ⟨b, b1, b2.mpr (Or.inr (by decide))⟩⟩
/-- The pass of the poll loop with its local variable written out. -/
theorem main_pass_eq (K : sanlock_h) (E : sanlk_reset_h) (inp : loop_input) (s : reset_state) :
    main_pass K E inp s =
      if inp.poll_rv = -1 ∧ inp.poll_eintr = true then (s, none)
      else if inp.poll_rv < 0 then (s, some EXIT_FAILURE)
      else if (reset_done K inp.done_in s).2 ≠ 0 then
        ((reset_done K inp.done_in s).1, some EXIT_SUCCESS)
      else if reset_fail inp.fail_now (reset_done K inp.done_in s).1 ≠ 0 then
        ((reset_done K inp.done_in s).1, some EXIT_FAILURE)
      else (dispatch_loop E inp (List.range MAX_LS) (reset_done K inp.done_in s).1, none) :=
  rfl

/-- The three ways a pass of the poll loop ends, by its inputs. -/
theorem main_pass_exit (K : sanlock_h) (E : sanlk_reset_h) (inp : loop_input) (s : reset_state) :
    (main_pass K E inp s).2 =
      if inp.poll_rv = -1 ∧ inp.poll_eintr = true then none
      else if inp.poll_rv < 0 then some EXIT_FAILURE
      else if (reset_done K inp.done_in s).2 ≠ 0 then some EXIT_SUCCESS
      else if reset_fail inp.fail_now (reset_done K inp.done_in s).1 ≠ 0 then some EXIT_FAILURE
      else none := by
  rw [main_pass_eq]
  split_ifs <;> rfl

set_option maxRecDepth 100000 in
/-- C28: a pass of the poll loop ends the operation with exit status 0 exactly
when `poll` does not fail and `reset_done` reports done, whatever `reset_fail`
would report on the state `reset_done` leaves; it ends the operation with
exit status 1 exactly when `poll` fails (other than by `EINTR`), or
`reset_done` reports not done and `reset_fail` reports failure; otherwise the
loop goes on.  The example is a channel with `RESETTING` that is found `DEAD`
301 seconds after the start: `reset_fail` reports failure on the state that
`reset_done` leaves, and the pass ends with exit status 0. -/
theorem exit_status_done_first (K : sanlock_h) (E : sanlk_reset_h) (inp : loop_input)
    (s : reset_state) :
    ((main_pass K E inp s).2 = some 0 ↔
      ¬ (inp.poll_rv = -1 ∧ inp.poll_eintr = true) ∧ 0 ≤ inp.poll_rv ∧
        (reset_done K inp.done_in s).2 ≠ 0) ∧
    ((main_pass K E inp s).2 = some 1 ↔
      ¬ (inp.poll_rv = -1 ∧ inp.poll_eintr = true) ∧
        (inp.poll_rv < 0 ∨
          ((reset_done K inp.done_in s).2 = 0 ∧
            reset_fail inp.fail_now (reset_done K inp.done_in s).1 ≠ 0))) ∧
    ((main_pass K E inp s).2 = none ∨ (main_pass K E inp s).2 = some 0 ∨
      (main_pass K E inp s).2 = some 1) ∧
    ((main_pass sample_K sample_E (sample_loop (sample_pass 5040 5 1301))
        (sample_reset 0 0 [sample_slot 1 0 3 0 0 5040 3])).2 = some 0 ∧
      reset_fail (fun _ => 1301)
        (reset_done sample_K (sample_pass 5040 5 1301)
          (sample_reset 0 0 [sample_slot 1 0 3 0 0 5040 3])).1 = 1) := by
  rw [main_pass_exit]
  refine ⟨?_, ?_, ?_, by decide⟩
  · by_cases h1 : inp.poll_rv = -1 ∧ inp.poll_eintr = true
    · simp [h1]
    · by_cases h2 : inp.poll_rv < 0
      · rw [if_neg h1, if_pos h2]
        simp [EXIT_FAILURE, h1]
        omega
      · by_cases h3 : (reset_done K inp.done_in s).2 ≠ 0
        · rw [if_neg h1, if_neg h2, if_pos h3]
          simp [EXIT_SUCCESS, h1, h3]
          omega
        · rw [if_neg h1, if_neg h2, if_neg h3]
          split_ifs <;> simp [EXIT_FAILURE, h3]
  · by_cases h1 : inp.poll_rv = -1 ∧ inp.poll_eintr = true
    · simp [h1]
    · by_cases h2 : inp.poll_rv < 0
      · rw [if_neg h1, if_pos h2]
        simp [EXIT_FAILURE, h1, h2]
      · by_cases h3 : (reset_done K inp.done_in s).2 ≠ 0
        · rw [if_neg h1, if_neg h2, if_pos h3]
          simp [EXIT_SUCCESS, h1, h2, h3]
        · rw [if_neg h1, if_neg h2, if_neg h3]
          have h3b : (reset_done K inp.done_in s).2 = 0 := by
            simpa using h3
          by_cases h4 : reset_fail inp.fail_now (reset_done K inp.done_in s).1 ≠ 0
          · rw [if_pos h4]
            simp [EXIT_FAILURE, h1, h2, h3b, h4]
          · rw [if_neg h4]
            simp [h1, h2, h3b, h4]
  · split_ifs <;> simp [EXIT_SUCCESS, EXIT_FAILURE]
set_option maxRecDepth 100000 in
/-- C24, counterexample: one open channel to host 2 with three renewals counted
and no reply seen; `poll` reports the channel readable and a `RESETTING` event
from host 2 waits on it.  The pass observes a fourth renewal and ends the
operation with exit status 1; had the event been drained first, `reset_done`
and `reset_fail` would both have returned 0. -/
theorem fourth_renewal_before_pending_reply :
    (sample_loop_events (sample_pass 5060 3 1100) sample_resetting_events).revents 0 &&& POLLIN
      ≠ 0 ∧
    (main_pass sample_K sample_E
      (sample_loop_events (sample_pass 5060 3 1100) sample_resetting_events)
      (sample_reset 0 90 [sample_slot 0 0 3 0 0 5040 3])).2 = some 1 ∧
    (reset_done sample_K (sample_pass 5060 3 1100)
      (get_events sample_E 0 sample_resetting_events
        (sample_reset 0 90 [sample_slot 0 0 3 0 0 5040 3]))).2 = 0 ∧
    reset_fail (fun _ => 1100)
      (reset_done sample_K (sample_pass 5060 3 1100)
        (get_events sample_E 0 sample_resetting_events
          (sample_reset 0 90 [sample_slot 0 0 3 0 0 5040 3]))).1 = 0 := by
  decide

/-- C24, amended: in a pass of the poll loop the done/fail decision is taken
before the events of that pass are drained.  The exit status of the pass is
the same for every choice of the readable channels and of the events waiting
on them; a pass that ends the operation drains no event (the state is the one
before the pass or the one `reset_done` leaves); a pass after which the loop
goes on drains the events on the state `reset_done` leaves, so they count from
the next pass on. -/
theorem decision_before_events (K : sanlock_h) (E : sanlk_reset_h) (inp : loop_input)
    (s : reset_state) :
    (∀ inp2 : loop_input, inp2.poll_rv = inp.poll_rv → inp2.poll_eintr = inp.poll_eintr →
      inp2.done_in = inp.done_in → inp2.fail_now = inp.fail_now →
      (main_pass K E inp2 s).2 = (main_pass K E inp s).2) ∧
    ((main_pass K E inp s).2 ≠ none →
      (main_pass K E inp s).1 = s ∨
        (main_pass K E inp s).1 = (reset_done K inp.done_in s).1) ∧
    ((main_pass K E inp s).2 = none → ¬ (inp.poll_rv = -1 ∧ inp.poll_eintr = true) →
      (main_pass K E inp s).1 =
        dispatch_loop E inp (List.range MAX_LS) (reset_done K inp.done_in s).1) := by
  refine ⟨?_, ?_, ?_⟩
  · intro inp2 h1 h2 h3 h4
    rw [main_pass_exit, main_pass_exit, h1, h2, h3, h4]
  · rw [main_pass_eq]
    split_ifs <;> simp
  · rw [main_pass_eq]
    intro h hp
    rw [if_neg hp] at h ⊢
    split_ifs at h ⊢
    simp_all
/-- The first loop of `reset_done` gives the same result for two inputs whose
answers make its body do the same on every entry. -/
theorem get_hosts_loop_congr (inp inp2 : done_input) (ls : List ls_slot) :
    ∀ (k : Nat) (nt : Int),
      (∀ (j : Nat) (sl : ls_slot), ls[j]? = some sl → ∀ n,
        get_hosts_step (inp2.get_hosts (k + j)) sl n = get_hosts_step (inp.get_hosts (k + j)) sl n) →
      get_hosts_loop inp2 k ls nt = get_hosts_loop inp k ls nt := by
  induction ls with
  | nil =>
    intro k nt _
    rfl
  | cons sl rest ih =>
    intro k nt h
    have h0 := h 0 sl (by simp)
    simp only [Nat.add_zero] at h0
    have hr := ih (k + 1) (get_hosts_step (inp.get_hosts k) sl nt).2
      (fun j x hx n => by
        have := h (j + 1) x (by simpa using hx) n
        rw [show k + (j + 1) = k + 1 + j by omega] at this
        exact this)
    simp only [get_hosts_loop, h0, hr]

theorem get_hosts_step_skip (r : hosts_reply) (sl : ls_slot) (nt : Int)
    (hbad : r.rv < 0 ∨ r.hs = none ∨ r.hs_count ≠ 1 ∨
      ∃ hs, r.hs = some hs ∧ hs.host_id ≠ u64_of_int sl.ls_hostids) :
    get_hosts_step r sl nt = (sl, nt) := by
  unfold get_hosts_step
  cases hn : sl.ls_names with
  | none => rfl
  | some nm =>
    simp only
    by_cases h1 : r.rv < 0
    · rw [if_pos h1]
    · rw [if_neg h1]
      cases hh : r.hs with
      | none => rfl
      | some hs =>
        simp only
        by_cases h2 : r.hs_count ≠ 1
        · rw [if_pos h2]
        · rw [if_neg h2]
          rcases hbad with hb | hb | hb | ⟨hs2, hb1, hb2⟩
          · exact absurd hb h1
          · rw [hh] at hb
            exact absurd hb (by simp)
          · exact absurd hb h2
          · rw [hh] at hb1
            have e : hs = hs2 := Option.some.inj hb1
            subst e
            rw [if_pos hb2]

theorem get_hosts_step_same (r : hosts_reply) (sl : ls_slot) (nt : Int) (hs : sanlk_host)
    (h0 : r.rv = 0) (hh : r.hs = some hs) (hc : r.hs_count = 1)
    (hid : hs.host_id = u64_of_int sl.ls_hostids) (ht : hs.timestamp = sl.ls_timestamp)
    (hf : hs.flags = sl.ls_host_flags) (hio : hs.io_timeout = 10) :
    get_hosts_step r sl nt = (sl, nt) := by
  unfold get_hosts_step
  cases hn : sl.ls_names with
  | none => rfl
  | some nm =>
    simp only
    have hA : ¬ (sl.ls_timestamp ≠ 0 ∧ sl.ls_timestamp ≠ sl.ls_timestamp) := by simp
    have hB : ¬ (sl.ls_timestamp ≠ 0 ∧ hs.io_timeout ≠ 10 ∧ nt ≠ 0) := by simp [hio]
    rw [if_neg (by omega), hh]
    simp only
    rw [if_neg (by simp [hc]), if_neg (by simp [hid]), ht, hf, if_neg hA, if_neg hB]

set_option maxRecDepth 100000 in
/-- C25, counterexample: every `sanlock_get_hosts` call of the pass fails.  A
channel that saw `RESETTING` 100 seconds ago, with a stored timestamp 40 after
the first one, still makes `reset_done` return done (native timeout); with a
stored timestamp 80 after the first one it sets `watchdog_failed_to_fire`. -/
theorem failed_get_hosts_still_decides :
    (reset_done sample_K (sample_pass_error 1100)
      (sample_reset 0 90 [sample_slot 1 0 3 1000 5000 5040 3])).2 = 1 ∧
    (reset_done sample_K (sample_pass_error 1100)
      (sample_reset 0 90 [sample_slot 1 0 3 1000 5000 5080 3])).1.watchdog_failed_to_fire
      = 1 := by
  decide

/-- C25, amended: a channel whose `sanlock_get_hosts` call fails or answers with
no record, a count other than 1 or another host id is skipped by the first loop
of `reset_done` in that pass: `ls_timestamp[i]`, `ls_host_flags[i]` and
`ls_renewals[i]` are unchanged and the answer does not change
`native_timeout`.  The native timeout check and the host status check of the
pass still run for the channel, on the values stored before: the pass leaves
the same state and returns the same value as a pass in which the call reports
the stored timestamp and flags again, with `io_timeout` 10. -/
theorem get_hosts_failure_skips (K : sanlock_h) (inp : done_input) (s : reset_state) (i : Nat)
    (sl : ls_slot) (hi : s.ls[i]? = some sl)
    (hbad : (inp.get_hosts i).rv < 0 ∨ (inp.get_hosts i).hs = none ∨
      (inp.get_hosts i).hs_count ≠ 1 ∨
      ∃ hs, (inp.get_hosts i).hs = some hs ∧ hs.host_id ≠ u64_of_int sl.ls_hostids) :
    (∃ sl2, (reset_done K inp s).1.ls[i]? = some sl2 ∧
      sl2.ls_timestamp = sl.ls_timestamp ∧ sl2.ls_host_flags = sl.ls_host_flags ∧
      sl2.ls_renewals = sl.ls_renewals) ∧
    (∀ nt, get_hosts_step (inp.get_hosts i) sl nt = (sl, nt)) ∧
    (∀ (inp2 : done_input) (hs : sanlk_host),
      (∀ j, j ≠ i → inp2.get_hosts j = inp.get_hosts j) → inp2.now = inp.now →
      (inp2.get_hosts i).rv = 0 → (inp2.get_hosts i).hs = some hs →
      (inp2.get_hosts i).hs_count = 1 → hs.host_id = u64_of_int sl.ls_hostids →
      hs.timestamp = sl.ls_timestamp → hs.flags = sl.ls_host_flags → hs.io_timeout = 10 →
      reset_done K inp2 s = reset_done K inp s) := by
  have hskip := fun nt => get_hosts_step_skip (inp.get_hosts i) sl nt hbad
  refine ⟨?_, hskip, ?_⟩
  · obtain ⟨sl2, e1, _, _, e4, e5, e6⟩ := reset_done_obs_fields K inp s i sl hi
    rw [hskip 0] at e4 e5 e6
    exact ⟨sl2, e1, e5, e6, e4⟩
  · intro inp2 hs hj hnow h0 hh hc hid ht hf hio
    have hg : ∀ nt, get_hosts_loop inp2 0 s.ls nt = get_hosts_loop inp 0 s.ls nt := by
      intro nt
      apply get_hosts_loop_congr
      intro j x hx n
      simp only [Nat.zero_add]
      by_cases hji : j = i
      · subst hji
        rw [hi] at hx
        have e : sl = x := Option.some.inj hx
        subst e
        rw [get_hosts_step_same _ sl n hs h0 hh hc hid ht hf hio, hskip n]
      · rw [hj j hji]
    have hn : ∀ nt nr k ls acc, native_timeout_loop inp2 nt nr k ls acc =
        native_timeout_loop inp nt nr k ls acc := by
      intro nt nr k ls acc
      induction ls generalizing k acc with
      | nil => rfl
      | cons x rest ih => simp only [native_timeout_loop, hnow, ih]
    simp only [reset_done, hg, hn]

set_option maxRecDepth 100000 in
theorem get_hosts_failure_skips_witness :
    ∃ sl2, (reset_done sample_K (sample_pass_error 1100)
        (sample_reset 0 90 [sample_slot 0 0 3 0 0 5040 3])).1.ls[0]? = some sl2 ∧
      sl2.ls_timestamp = 5040 ∧ sl2.ls_host_flags = 3 ∧ sl2.ls_renewals = 3 :=
  (get_hosts_failure_skips sample_K (sample_pass_error 1100)
    (sample_reset 0 90 [sample_slot 0 0 3 0 0 5040 3]) 0 (sample_slot 0 0 3 0 0 5040 3)
    (by decide) (Or.inl (by decide))).1
theorem set_event_step_calls (A : sanlock_admin_h) (event tg : Nat) (rv : Int) (i : Nat)
    (st : reset_state × List set_event_call) :
    (set_event_step A event tg rv i st).2 = st.2 ∨
      ∃ nm hid, (set_event_step A event tg rv i st).2 = st.2 ++
        [{ ls_name := nm,
           he := { host_id := hid, generation := tg, event := event, data := 0 },
           flags := if tg ≠ 0 then A.SANLK_SETEV_CUR_GENERATION else 0 }] := by
  unfold set_event_step
  cases h : st.1.ls[i]? with
  | none => exact Or.inl rfl
  | some sl =>
    simp only
    cases hn : sl.ls_names with
    | none => exact Or.inl rfl
    | some nm =>
      simp only
      by_cases hf : sl.ls_fd = -1
      · rw [if_pos hf]
        exact Or.inl rfl
      · rw [if_neg hf]
        right
        refine ⟨nm, u64_of_int sl.ls_hostids, ?_⟩
        split_ifs <;> rfl

theorem set_event_loop_calls (A : sanlock_admin_h) (event tg : Nat) (rv : Nat → Int)
    (l : List Nat) :
    ∀ (st : reset_state × List set_event_call),
      (∀ c ∈ st.2, c.he.generation = tg ∧ c.he.event = event ∧
        c.flags = if tg ≠ 0 then A.SANLK_SETEV_CUR_GENERATION else 0) →
      ∀ c ∈ (set_event_loop A event tg rv l st).2, c.he.generation = tg ∧ c.he.event = event ∧
        c.flags = if tg ≠ 0 then A.SANLK_SETEV_CUR_GENERATION else 0 := by
  induction l with
  | nil =>
    intro st h
    exact h
  | cons i rest ih =>
    intro st h
    unfold set_event_loop
    apply ih
    intro c hc
    rcases set_event_step_calls A event tg (rv i) i st with e | ⟨nm, hid, e⟩
    · rw [e] at hc
      exact h c hc
    · rw [e, List.mem_append, List.mem_singleton] at hc
      rcases hc with hc | hc
      · exact h c hc
      · subst hc
        exact ⟨rfl, rfl, rfl⟩

set_option maxRecDepth 100000 in
/-- C26: every call of `sanlock_set_event` that `main` makes carries
`target_generation` as the generation of the event, and its flags are
`SANLK_SETEV_CUR_GENERATION` when `target_generation` is not 0 and 0 when it
is 0.  With one registered lockspace and no generation asked for, the one
call has generation 0 and flags 0; with generation 5 asked for it has
generation 5 and the flag. -/
theorem cur_generation_flag_inverted (A : sanlock_admin_h) (E : sanlk_reset_h)
    (use_watchdog use_sysrq_reboot : Int) (target_generation : Nat) (rv : Nat → Int)
    (s : reset_state) :
    (∀ c ∈ (post_events A E use_watchdog use_sysrq_reboot target_generation rv s).2,
      c.he.generation = target_generation ∧
      c.flags = if target_generation ≠ 0 then A.SANLK_SETEV_CUR_GENERATION else 0) ∧
    (post_events sample_A sample_E 1 0 0 (fun _ => 0)
        (sample_reset 0 90 [sample_slot 0 0 0 0 0 0 0])).2 =
      [{ ls_name := "ls1", he := { host_id := 2, generation := 0, event := 1, data := 0 },
         flags := 0 }] ∧
    (post_events sample_A sample_E 1 0 5 (fun _ => 0)
        (sample_reset 0 90 [sample_slot 0 0 0 0 0 0 0])).2 =
      [{ ls_name := "ls1", he := { host_id := 2, generation := 5, event := 1, data := 0 },
         flags := 1 }] := by
  refine ⟨?_, by decide, by decide⟩
  intro c hc
  have h := set_event_loop_calls A (reset_event E use_watchdog use_sysrq_reboot)
    target_generation rv (List.range MAX_LS) (s, []) (by simp) c hc
  exact ⟨h.1, h.2.2⟩
theorem native_timeout_step_is_done (now : Nat) (nt nr : Int) (sl : ls_slot) (acc : native_acc) :
    (native_timeout_step now nt nr sl acc).2.is_done = acc.is_done ∨
      ((native_timeout_step now nt nr sl acc).2.is_done = 1 ∧ sl.ls_names ≠ none ∧
        sl.ls_is_resetting ≠ 0) := by
  unfold native_timeout_step
  cases hn : sl.ls_names with
  | none => simp
  | some nm =>
    simp only
    by_cases hr : sl.ls_is_resetting = 0
    · simp [hr]
    · rw [if_neg hr]
      split_ifs <;> simp [hr]

theorem native_timeout_loop_is_done (inp : done_input) (nt nr : Int) (i : Nat)
    (ls : List ls_slot) (acc : native_acc) :
    (native_timeout_loop inp nt nr i ls acc).2.is_done = acc.is_done ∨
      ((native_timeout_loop inp nt nr i ls acc).2.is_done = 1 ∧
        ∃ sl ∈ ls, sl.ls_names ≠ none ∧ sl.ls_is_resetting ≠ 0) := by
  induction ls generalizing i acc with
  | nil => simp [native_timeout_loop]
  | cons sl rest ih =>
    simp only [native_timeout_loop]
    rcases ih (i + 1) (native_timeout_step (inp.now i) nt nr sl acc).2 with h | ⟨h1, x, hx, h2⟩
    · rcases native_timeout_step_is_done (inp.now i) nt nr sl acc with h3 | ⟨h3, h4, h5⟩
      · left
        rw [h, h3]
      · right
        rw [h, h3]
        exact ⟨rfl, sl, List.mem_cons_self sl rest, h4, h5⟩
    · right
      exact ⟨h1, x, List.mem_cons_of_mem sl hx, h2⟩

theorem get_hosts_step_names (r : hosts_reply) (sl : ls_slot) :
    (get_hosts_step r sl 0).1.ls_names = sl.ls_names ∧
    (get_hosts_step r sl 0).1.ls_is_resetting = sl.ls_is_resetting :=
  ⟨(get_hosts_step_frame r sl 0).1, (get_hosts_step_frame r sl 0).2.2.1⟩

/-- C29: with `resource_mode = 0`, whether the native timeout is enabled or
not, `reset_done` returns a non-zero value only if an open channel has
`ls_is_resetting` set. -/
theorem reset_done_needs_reply (K : sanlock_h) (inp : done_input) (s : reset_state)
    (hrm : s.resource_mode = 0) (hd : (reset_done K inp s).2 ≠ 0) :
    ∃ (j : Nat) (sl : ls_slot), s.ls[j]? = some sl ∧ sl.ls_names ≠ none ∧
      sl.ls_is_resetting ≠ 0 := by
  have hg : ∀ nt j, (get_hosts_loop inp 0 s.ls nt).1[j]? =
      (s.ls[j]?).map (fun sl => (get_hosts_step (inp.get_hosts j) sl 0).1) := by
    intro nt j
    have := get_hosts_loop_getElem inp 0 s.ls nt j
    simpa using this
  have hback : ∀ nt, (∃ sl ∈ (get_hosts_loop inp 0 s.ls nt).1,
      sl.ls_names ≠ none ∧ sl.ls_is_resetting ≠ 0) →
      ∃ (j : Nat) (sl : ls_slot), s.ls[j]? = some sl ∧ sl.ls_names ≠ none ∧
        sl.ls_is_resetting ≠ 0 := by
    intro nt ⟨sl, hm, h1, h2⟩
    obtain ⟨j, hj⟩ := List.mem_iff_getElem?.mp hm
    rw [hg nt j] at hj
    cases hl : s.ls[j]? with
    | none => simp [hl] at hj
    | some sl0 =>
      rw [hl] at hj
      simp only [Option.map_some', Option.some.injEq] at hj
      subst hj
      have hf := get_hosts_step_names (inp.get_hosts j) sl0
      exact ⟨j, sl0, hl, by rw [← hf.1]; exact h1, by rw [← hf.2]; exact h2⟩
  have hhs : ∀ (ls : List ls_slot) (d : Int), (host_status_loop K 0 ls d).2 ≠ 0 →
      d ≠ 0 ∨ ∃ sl ∈ ls, sl.ls_names ≠ none ∧ sl.ls_is_resetting ≠ 0 := by
    intro ls d hne
    obtain ⟨h1, h2⟩ := host_status_loop_snd K 0 ls d
    rcases h1 with h1 | h1
    · rcases h2.mp h1 with h3 | h3
      · left
        rw [h3]
        decide
      · right
        obtain ⟨sl, hm, h4, _, h6⟩ := (host_status_loop_fst K 0 ls d).mp h3
        have h7 : sl.ls_is_resetting ≠ 0 := by
          rcases h6 with h6 | h6
          · exact absurd rfl h6
          · exact h6
        exact ⟨sl, hm, h4, h7⟩
    · left
      rw [h1] at hne
      exact hne
  rcases reset_done_cases K inp s with ⟨_, e⟩ | ⟨_, _, e⟩ | ⟨_, _, e⟩
  · rw [e, hrm] at hd
    simp only at hd
    rcases hhs _ _ hd with h | h
    · exact absurd rfl h
    · exact hback _ h
  · rw [e] at hd
    exact absurd rfl hd
  · rw [e, hrm] at hd
    simp only at hd
    rcases hhs _ _ hd with h | ⟨sl, hm, h1, h2⟩
    · rcases native_timeout_loop_is_done inp (get_hosts_loop inp 0 s.ls s.native_timeout).2
          s.native_renewal 0 (get_hosts_loop inp 0 s.ls s.native_timeout).1
          { watchdog_failed_to_fire := s.watchdog_failed_to_fire, is_done := 0 } with h3 | ⟨_, h4⟩
      · rw [h3] at h
        exact absurd rfl h
      · exact hback _ h4
    · obtain ⟨j, hj⟩ := List.mem_iff_getElem?.mp hm
      rw [native_timeout_loop_getElem] at hj
      cases hl : (get_hosts_loop inp 0 s.ls s.native_timeout).1[j]? with
      | none => simp [hl] at hj
      | some sl0 =>
        rw [hl] at hj
        simp only [Option.map_some', Option.some.injEq] at hj
        subst hj
        have hf := native_begin_frame (inp.now (0 + j)) sl0
        exact hback _ ⟨sl0, List.mem_iff_getElem?.mpr ⟨j, hl⟩, by rw [← hf.1]; exact h1,
          by rw [← hf.2.2.2.2.1]; exact h2⟩

set_option maxRecDepth 100000 in
theorem reset_done_needs_reply_witness :
    ∃ (j : Nat) (sl : ls_slot),
      (sample_reset 0 90 [sample_slot 1 1 3 1000 5000 5040 5]).ls[j]? = some sl ∧
      sl.ls_names ≠ none ∧ sl.ls_is_resetting ≠ 0 :=
  reset_done_needs_reply sample_K (sample_pass 5040 5 1050)
    (sample_reset 0 90 [sample_slot 1 1 3 1000 5000 5040 5]) rfl (by decide)

end SanlkReset

namespace Client

theorem find_host_eq (owner : SanlkReset.sanlk_host) (hosts : List SanlkReset.sanlk_host) :
    find_host owner hosts = matched_host owner hosts := by
  unfold matched_host
  induction hosts with
  | nil => rfl
  | cons host rest ih =>
    unfold find_host
    by_cases h : owner.host_id = host.host_id
    · have h2 : ¬ owner.host_id ≠ host.host_id := fun hn => hn h
      rw [if_neg h2]
      simp [List.find?_cons, h]
    · rw [if_pos h, ih]
      have h3 : ¬ host.host_id = owner.host_id := fun e => h e.symm
      simp [List.find?_cons, h3]

/-- The outer loop in the words of the specification. -/
theorem test_owners_loop_spec (H : sanlock_host_h) (hosts : List SanlkReset.sanlk_host)
    (hd : ∀ a ∈ [H.SANLK_HOST_FREE, H.SANLK_HOST_DEAD],
      a ∉ [H.SANLK_HOST_LIVE, H.SANLK_HOST_FAIL, H.SANLK_HOST_UNKNOWN])
    (owners : List SanlkReset.sanlk_host) :
    ∀ fail : Int, test_owners_loop H hosts owners fail =
      if owners.any (owner_invalid H hosts) = true then Except.error (-EINVAL)
      else Except.ok (if owners.any (owner_fails H hosts) = true then 1 else fail) := by
  have hF := hd H.SANLK_HOST_FREE (by simp)
  have hD := hd H.SANLK_HOST_DEAD (by simp)
  simp only [List.mem_cons, List.mem_singleton, List.not_mem_nil, or_false, not_or] at hF hD
  induction owners with
  | nil =>
    intro fail
    rfl
  | cons owner rest ih =>
    intro fail
    unfold test_owners_loop
    rw [find_host_eq]
    cases hm : matched_host owner hosts with
    | none =>
      have h1 : owner_invalid H hosts owner = false := by simp [owner_invalid, hm]
      have h2 : owner_fails H hosts owner = false := by simp [owner_fails, hm]
      simp only [List.any_cons, h1, h2, Bool.false_or]
      exact ih fail
    | some host =>
      simp only
      by_cases hg : host.generation > owner.generation
      · have h1 : owner_invalid H hosts owner = false := by
          simp [owner_invalid, hm]
          omega
        have h2 : owner_fails H hosts owner = false := by
          simp [owner_fails, hm]
          omega
        rw [if_pos hg]
        simp only [List.any_cons, h1, h2, Bool.false_or]
        exact ih fail
      · rw [if_neg hg]
        by_cases hl : host.generation < owner.generation
        · have h1 : owner_invalid H hosts owner = true := by
            simp [owner_invalid, hm, hl]
          rw [if_pos hl]
          simp [List.any_cons, h1]
        · have he : host.generation = owner.generation := by omega
          rw [if_neg hl]
          by_cases hs1 : host.flags &&& H.SANLK_HOST_MASK = H.SANLK_HOST_FREE ∨
              host.flags &&& H.SANLK_HOST_MASK = H.SANLK_HOST_DEAD
          · have h1 : owner_invalid H hosts owner = false := by
              simp [owner_invalid, hm, he]
              rcases hs1 with e | e <;> simp [e]
            have h2 : owner_fails H hosts owner = false := by
              simp [owner_fails, hm, he]
              rcases hs1 with e | e
              · rw [e]
                exact ⟨hF.1, hF.2.1, hF.2.2⟩
              · rw [e]
                exact ⟨hD.1, hD.2.1, hD.2.2⟩
            rw [if_pos hs1]
            simp only [List.any_cons, h1, h2, Bool.false_or]
            exact ih fail
          · rw [if_neg hs1]
            by_cases hs2 : host.flags &&& H.SANLK_HOST_MASK = H.SANLK_HOST_LIVE ∨
                host.flags &&& H.SANLK_HOST_MASK = H.SANLK_HOST_FAIL ∨
                host.flags &&& H.SANLK_HOST_MASK = H.SANLK_HOST_UNKNOWN
            · have h1 : owner_invalid H hosts owner = false := by
                simp [owner_invalid, hm, he]
                rcases hs2 with e | e | e <;> simp [e]
              have h2 : owner_fails H hosts owner = true := by
                simp [owner_fails, hm, he]
                exact hs2
              rw [if_pos hs2, ih 1]
              simp [List.any_cons, h1, h2]
            · have h1 : owner_invalid H hosts owner = true := by
                simp [owner_invalid, hm, he]
                simp only [not_or] at hs1 hs2
                exact ⟨hs1.1, hs1.2, hs2.1, hs2.2.1, hs2.2.2⟩
              rw [if_neg hs2]
              simp [List.any_cons, h1]

/-- C30: `sanlock_test_resource_owners`, for every list of owners and of hosts.
Each owner is matched with the first host entry of the same host id.  The call
returns `-EINVAL` (with `test_flags` 0) when some owner's matched host has a
lower generation, or the same generation and a state outside `FREE`, `DEAD`,
`LIVE`, `FAIL`, `UNKNOWN`; otherwise it returns 0, and `test_flags` is
`SANLK_TRF_FAIL` if some owner's matched host has the same generation and the
state `LIVE`, `FAIL` or `UNKNOWN`, and 0 if not.  The state constants `FREE`
and `DEAD` differ from `LIVE`, `FAIL` and `UNKNOWN`, as the labels of one
`switch` do. -/
theorem test_resource_owners_spec (H : sanlock_host_h)
    (owners hosts : List SanlkReset.sanlk_host)
    (hd : ∀ a ∈ [H.SANLK_HOST_FREE, H.SANLK_HOST_DEAD],
      a ∉ [H.SANLK_HOST_LIVE, H.SANLK_HOST_FAIL, H.SANLK_HOST_UNKNOWN]) :
    sanlock_test_resource_owners H owners hosts =
      (if owners.any (owner_invalid H hosts) = true then (-EINVAL, 0)
      else (0, if owners.any (owner_fails H hosts) = true then H.SANLK_TRF_FAIL else 0)) ∧
    (∀ owner : SanlkReset.sanlk_host,
      (matched_host owner hosts = none ∨
        ∃ host, matched_host owner hosts = some host ∧ host.generation > owner.generation) →
      owner_fails H hosts owner = false ∧ owner_invalid H hosts owner = false) := by
  constructor
  · unfold sanlock_test_resource_owners
    rw [test_owners_loop_spec H hosts hd owners 0]
    by_cases h1 : owners.any (owner_invalid H hosts) = true
    · rw [if_pos h1, if_pos h1]
    · rw [if_neg h1, if_neg h1]
      by_cases h2 : owners.any (owner_fails H hosts) = true
      · simp [h2]
      · simp [h2]
  · rintro owner (hm | ⟨host, hm, hg⟩)
    · simp [owner_fails, owner_invalid, hm]
    · simp [owner_fails, owner_invalid, hm]
      omega

theorem test_resource_owners_spec_witness :
    sanlock_test_resource_owners sample_host_h
        [sample_owner 1 4 0, sample_owner 2 7 0, sample_owner 3 2 0, sample_owner 9 1 0]
        [sample_owner 1 4 5, sample_owner 2 7 3, sample_owner 2 7 5, sample_owner 3 6 3]
      = (0, 1) ∧
    sanlock_test_resource_owners sample_host_h
        [sample_owner 1 4 0, sample_owner 3 2 0, sample_owner 9 1 0]
        [sample_owner 1 4 5, sample_owner 2 7 3, sample_owner 3 6 3]
      = (0, 0) ∧
    sanlock_test_resource_owners sample_host_h
        [sample_owner 2 7 0, sample_owner 1 4 0]
        [sample_owner 1 3 5, sample_owner 2 7 3]
      = (-22, 0) :=
  ⟨(test_resource_owners_spec sample_host_h _ _ (by decide)).1.trans (by decide),
   (test_resource_owners_spec sample_host_h _ _ (by decide)).1.trans (by decide),
   (test_resource_owners_spec sample_host_h _ _ (by decide)).1.trans (by decide)⟩
/-- The loop of `sanlock_path_export` on a source without NUL bytes that does
not end in a lone backslash, in a buffer that has one byte more than the
escaped source needs: it writes the escaped source. -/
theorem path_export_loop_exact (dstlen : Nat) (p : List Nat) :
    ∀ (pre : List Nat) (n : Nat), (∀ b ∈ p, b ≠ 0) → dstlen < 2 ^ 64 →
      pre.length + n = dstlen → (path_escape p).length + 1 ≤ n →
      ends_in_escape p = false →
      path_export_loop dstlen p pre.length (pre ++ List.replicate n 0) =
        pre ++ path_escape p ++ List.replicate (n - (path_escape p).length) 0 := by
  induction p using path_escape.induct with
  | case1 =>
    intro pre n _ _ _ _ _
    simp [path_export_loop, path_escape]
  | case2 =>
    intro pre n _ _ _ _ he
    simp [ends_in_escape] at he
  | case3 c2 rest2 ih =>
    intro pre n h0 hd hn hfit he
    rw [ends_in_escape_pair] at he
    rw [path_escape_pair] at hfit ⊢
    simp only [List.length_cons] at hfit
    obtain ⟨k, rfl⟩ : ∃ k, n = k + 2 := ⟨n - 2, by omega⟩
    have hc2 : c2 ≠ 0 := h0 c2 (by simp)
    have e : List.replicate (k + 2) 0 = 0 :: 0 :: List.replicate k 0 := rfl
    rw [path_export_loop_pair, u64_sub_of_le dstlen 3 (by omega) hd,
      if_neg (by omega), e, set_two, getD_two, if_neg hc2]
    have h := ih (pre ++ [92, c2]) k (fun b hb => h0 b (by simp [hb])) hd
      (by simp; omega) (by omega) he
    simp only [List.length_append, List.length_cons, List.length_nil, List.append_assoc,
      List.cons_append, List.nil_append] at h
    rw [h]
    simp
  | case4 c rest hc hc2 ih =>
    intro pre n h0 hd hn hfit he
    rw [ends_in_escape_other c rest hc] at he
    rw [path_escape_special c rest hc2] at hfit ⊢
    simp only [List.length_cons] at hfit
    obtain ⟨k, rfl⟩ : ∃ k, n = k + 2 := ⟨n - 2, by omega⟩
    have hc0 : c ≠ 0 := h0 c (by simp)
    have e : List.replicate (k + 2) 0 = 0 :: 0 :: List.replicate k 0 := rfl
    rw [path_export_loop_special dstlen _ c rest _ hc2, u64_sub_of_le dstlen 3 (by omega) hd,
      if_neg (by omega), e, set_two, getD_two, if_neg hc0]
    have h := ih (pre ++ [92, c]) k (fun b hb => h0 b (by simp [hb])) hd
      (by simp; omega) (by omega) he
    simp only [List.length_append, List.length_cons, List.length_nil, List.append_assoc,
      List.cons_append, List.nil_append] at h
    rw [h]
    simp
  | case5 c rest hc hc2 ih =>
    intro pre n h0 hd hn hfit he
    rw [ends_in_escape_other c rest hc] at he
    rw [path_escape_plain c rest hc hc2] at hfit ⊢
    simp only [List.length_cons] at hfit
    obtain ⟨k, rfl⟩ : ∃ k, n = k + 1 := ⟨n - 1, by omega⟩
    have hc0 : c ≠ 0 := h0 c (by simp)
    have e : List.replicate (k + 1) 0 = 0 :: List.replicate k 0 := rfl
    rw [path_export_loop_plain dstlen _ c rest _ hc0 hc hc2,
      u64_sub_of_le dstlen 2 (by omega) hd, if_neg (by omega), e, set_append_length,
      getD_append_length, if_neg hc0]
    have h := ih (pre ++ [c]) k (fun b hb => h0 b (by simp [hb])) hd
      (by simp; omega) (by omega) he
    simp only [List.length_append, List.length_cons, List.length_nil, List.append_assoc,
      List.cons_append, List.nil_append] at h
    rw [h]
    simp

theorem sanlock_path_export_exact (p dst : List Nat) (dstlen : Nat) (h0 : ∀ b ∈ p, b ≠ 0)
    (hl : dst.length = dstlen) (hd : dstlen < 2 ^ 64)
    (hfit : (path_escape p).length + 1 ≤ dstlen) (he : ends_in_escape p = false) :
    cstr (sanlock_path_export dst p dstlen).1 = path_escape p := by
  have hm : memset_zero dst dstlen = [] ++ List.replicate dstlen 0 := by
    unfold memset_zero
    rw [List.drop_of_length_le (by omega)]
    simp
  have hx : path_export_loop dstlen p 0 (memset_zero dst dstlen) =
      path_escape p ++ List.replicate (dstlen - (path_escape p).length) 0 := by
    rw [hm]
    have h := path_export_loop_exact dstlen p [] dstlen h0 hd (by simp) hfit he
    simpa using h
  obtain ⟨k, hk⟩ : ∃ k, dstlen - (path_escape p).length = k + 1 :=
    ⟨dstlen - (path_escape p).length - 1, by omega⟩
  unfold sanlock_path_export
  simp only
  rw [hx, hk]
  exact cstr_append_zero _ _ (path_escape_ne_zero p h0)

theorem unescaped_separator_pair (c2 : Nat) (rest2 : List Nat) :
    unescaped_separator (92 :: c2 :: rest2) = unescaped_separator rest2 := by
  simp [unescaped_separator]

theorem unescaped_separator_plain (c : Nat) (rest : List Nat) (hc : ¬ c = 92)
    (hc2 : ¬ (c = 32 ∨ c = 58)) :
    unescaped_separator (c :: rest) = unescaped_separator rest := by
  cases rest <;> simp [unescaped_separator, hc, hc2]

theorem unescaped_separator_path_escape (p : List Nat) :
    unescaped_separator (path_escape p) = false := by
  induction p using path_escape.induct with
  | case1 => rfl
  | case2 => rfl
  | case3 c2 rest2 ih => rw [path_escape_pair, unescaped_separator_pair, ih]
  | case4 c rest hc hc2 ih => rw [path_escape_special c rest hc2, unescaped_separator_pair, ih]
  | case5 c rest hc hc2 ih =>
    rw [path_escape_plain c rest hc hc2, unescaped_separator_plain c _ hc hc2, ih]

/-- C22, counterexample: the source `a\` (it ends in a backslash) and a buffer of
three bytes, which has room for `a\` and its NUL.  `sanlock_path_export` leaves
the backslash out: it writes `a` and returns 1. -/
theorem path_export_drops_last_backslash :
    path_escape [97, 92] = [97, 92] ∧
    cstr (sanlock_path_export (List.replicate 3 0) [97, 92] 3).1 = [97] ∧
    (sanlock_path_export (List.replicate 3 0) [97, 92] 3).2 = 1 := by
  decide

/-- C22, amended: for every source string (no NUL byte inside) and every buffer
that has two bytes more than the escaped source, or one byte more when the
source does not end in a backslash that escapes nothing, `sanlock_path_export`
writes the escaped source: a backslash together with the byte after it is
copied, a space or colon that no such backslash precedes gets one backslash in
front, every other byte is copied.  The return value is the length of the
output, and the output has no space or colon without an escaping backslash in
front. -/
theorem path_export_escapes (src dst : List Nat) (dstlen : Nat) (h0 : ∀ b ∈ src, b ≠ 0)
    (hl : dst.length = dstlen) (hd : dstlen < 2 ^ 64)
    (hfit : (path_escape src).length + 2 ≤ dstlen ∨
      ((path_escape src).length + 1 ≤ dstlen ∧ ends_in_escape src = false)) :
    cstr (sanlock_path_export dst src dstlen).1 = path_escape src ∧
    (sanlock_path_export dst src dstlen).2 = (path_escape src).length ∧
    unescaped_separator (cstr (sanlock_path_export dst src dstlen).1) = false := by
  have hc : cstr (sanlock_path_export dst src dstlen).1 = path_escape src := by
    rcases hfit with h | ⟨h, he⟩
    · exact sanlock_path_export_cstr src dst dstlen h0 hl hd h
    · exact sanlock_path_export_exact src dst dstlen h0 hl hd h he
  refine ⟨hc, ?_, ?_⟩
  · show strlen _ = _
    unfold strlen
    have := hc
    unfold sanlock_path_export at this
    simp only at this
    rw [this]
  · rw [hc]
    exact unescaped_separator_path_escape src

theorem path_export_escapes_witness :
    cstr (sanlock_path_export (List.replicate 11 7) [47, 97, 32, 98, 92, 58, 99, 58] 11).1 =
      [47, 97, 92, 32, 98, 92, 58, 99, 92, 58] ∧
    (sanlock_path_export (List.replicate 11 7) [47, 97, 32, 98, 92, 58, 99, 58] 11).2 = 10 :=
  ⟨(path_export_escapes [47, 97, 32, 98, 92, 58, 99, 58] (List.replicate 11 7) 11
      (by decide) (by decide) (by decide) (Or.inr (by decide))).1,
    (path_export_escapes [47, 97, 32, 98, 92, 58, 99, 58] (List.replicate 11 7) 11
      (by decide) (by decide) (by decide) (Or.inr (by decide))).2.1⟩

end Client

namespace Wdmd

theorem test_pass_client (inp : pass_input) (s : wdmd_state) :
    (test_pass inp s).client = s.client := by
  unfold test_pass
  split_ifs <;> simp [pet_watchdog, open_dev, close_watchdog_unclean] <;> split_ifs <;> rfl

/-- A pass in which an armed client is within `TEST_INTERVAL` of its expire time
counts at least one failure. -/
theorem pass_fail_count_of_late (inp : pass_input) (s : wdmd_state) (c : client)
    (hc : c ∈ s.client) (hu : c.used ≠ 0) (h10 : 10 ≤ c.expire) (hE : c.expire < 2 ^ 64)
    (ht : c.expire ≤ inp.t_clients + 10) : pass_fail_count inp s ≠ 0 := by
  unfold pass_fail_count
  rw [test_clients_eq_countP]
  have hf : client_fails inp.t_clients c = true := by
    unfold client_fails
    rw [Client.u64_sub_of_le c.expire DEFAULT_TEST_INTERVAL h10 hE]
    simp only [DEFAULT_TEST_INTERVAL, decide_eq_true_eq]
    refine ⟨hu, by omega, ?_⟩
    omega
  have hpos : 0 < s.client.countP (client_fails inp.t_clients) :=
    List.countP_pos_iff.mpr ⟨c, hc, hf⟩
  omega

/-- A pass that counts no failure reads a time more than `TEST_INTERVAL` before
the expire time of every armed client. -/
theorem pass_early_of_no_failure (inp : pass_input) (s : wdmd_state) (c : client)
    (hc : c ∈ s.client) (hu : c.used ≠ 0) (h10 : 10 ≤ c.expire) (hE : c.expire < 2 ^ 64)
    (h0 : pass_fail_count inp s = 0) : inp.t_clients + 10 < c.expire := by
  by_contra hn
  exact pass_fail_count_of_late inp s c hc hu h10 hE (by omega) h0

/-- A pass that counts a failure: no keepalive; the device is closed if it was
open, and the time of the close is recorded. -/
theorem test_pass_of_failure (inp : pass_input) (s : wdmd_state)
    (h : pass_fail_count inp s ≠ 0) :
    (test_pass inp s).dev_fd = -1 ∧
    (test_pass inp s).last_keepalive = s.last_keepalive ∧
    (test_pass inp s).log = s.log ++ (if s.dev_fd = -1 then [] else [sys_op.close s.dev_fd]) ∧
    (test_pass inp s).last_closeunclean =
      (if s.dev_fd = -1 then s.last_closeunclean else inp.t_dev) := by
  unfold test_pass
  simp only [h, if_false, close_watchdog_unclean]
  by_cases hd : s.dev_fd = -1
  · simp [hd]
  · simp [hd]

/-- A pass that counts no failure sends one keepalive and records its time. -/
theorem test_pass_of_no_failure (inp : pass_input) (s : wdmd_state)
    (h : pass_fail_count inp s = 0) :
    (test_pass inp s).last_keepalive = inp.t_dev ∧
    (test_pass inp s).last_closeunclean = s.last_closeunclean := by
  unfold test_pass
  rw [if_pos h]
  unfold pet_watchdog open_dev
  split_ifs <;> exact ⟨rfl, rfl⟩

/-- Passes on a closed device with an armed client within `TEST_INTERVAL` of its
expire time send nothing to the device. -/
theorem run_passes_silent (c : client) (hu : c.used ≠ 0) (h10 : 10 ≤ c.expire)
    (hE : c.expire < 2 ^ 64) (inps : List pass_input) :
    ∀ s : wdmd_state, c ∈ s.client → s.dev_fd = -1 →
      (∀ q ∈ inps, c.expire ≤ q.t_clients + 10) →
      (run_passes inps s).dev_fd = -1 ∧ (run_passes inps s).log = s.log ∧
      (run_passes inps s).last_keepalive = s.last_keepalive ∧
      (run_passes inps s).last_closeunclean = s.last_closeunclean := by
  induction inps with
  | nil =>
    intro s _ hd _
    exact ⟨hd, rfl, rfl, rfl⟩
  | cons q rest ih =>
    intro s hc hd hq
    have hf := pass_fail_count_of_late q s c hc hu h10 hE (hq q (List.mem_cons_self q rest))
    obtain ⟨f1, f2, f3, f4⟩ := test_pass_of_failure q s hf
    rw [if_pos hd] at f3 f4
    obtain ⟨i1, i2, i3, i4⟩ := ih (test_pass q s) (by rw [test_pass_client]; exact hc) f1
      (fun x hx => hq x (List.mem_cons_of_mem q hx))
    unfold run_passes
    rw [i2, i3, i4, f2, f3, f4]
    exact ⟨i1, by simp, rfl, rfl⟩

/-- Passes that keep their keepalive or close within `TEST_INTERVAL` of the time
they read, all read more than `TEST_INTERVAL` before the expire time: the last
keepalive and the last unclean close stay at or before the expire time. -/
theorem run_passes_early (c : client) (inps : List pass_input) :
    ∀ s : wdmd_state, s.last_keepalive ≤ c.expire → s.last_closeunclean ≤ c.expire →
      (∀ q ∈ inps, q.t_clients + 10 < c.expire ∧ q.t_dev ≤ q.t_clients + 10) →
      (run_passes inps s).last_keepalive ≤ c.expire ∧
      (run_passes inps s).last_closeunclean ≤ c.expire ∧
      (run_passes inps s).client = s.client := by
  induction inps with
  | nil =>
    intro s h1 h2 _
    exact ⟨h1, h2, rfl⟩
  | cons q rest ih =>
    intro s h1 h2 hq
    have hq0 := hq q (List.mem_cons_self q rest)
    have hstep : (test_pass q s).last_keepalive ≤ c.expire ∧
        (test_pass q s).last_closeunclean ≤ c.expire := by
      by_cases hf : pass_fail_count q s = 0
      · obtain ⟨f1, f2⟩ := test_pass_of_no_failure q s hf
        rw [f1, f2]
        exact ⟨by omega, h2⟩
      · obtain ⟨_, f2, _, f4⟩ := test_pass_of_failure q s hf
        rw [f2, f4]
        refine ⟨h1, ?_⟩
        split_ifs
        · exact h2
        · omega
    obtain ⟨i1, i2, i3⟩ := ih (test_pass q s) hstep.1 hstep.2
      (fun x hx => hq x (List.mem_cons_of_mem q hx))
    unfold run_passes
    exact ⟨i1, i2, by rw [i3, test_pass_client]⟩

theorem run_passes_append (l1 l2 : List pass_input) (s : wdmd_state) :
    run_passes (l1 ++ l2) s = run_passes l2 (run_passes l1 s) := by
  induction l1 generalizing s with
  | nil => rfl
  | cons q rest ih =>
    rw [List.cons_append]
    simp only [run_passes]
    exact ih _
/-- C21, counterexample: a client armed with the expire time 1005 while the last
test pass was at 1000 (`test_interval` 10, last keepalive at 1000, device open).
At 1005 no pass is due.  The pass at 1010 fails the client and closes the
device: the close, and with it the last ping the device sees, is at 1010, after
the expire time. -/
theorem close_ping_after_expire :
    (sample_client 7 0 1 995 1005).expire = 1005 ∧
    (sample_state [sample_client 7 0 1 995 1005]).last_keepalive = 1000 ∧
    test_loop_step 1005 1005 (sample_pass_at 1005) (sample_state [sample_client 7 0 1 995 1005])
      = some (sample_state [sample_client 7 0 1 995 1005]) ∧
    (test_loop_step 1010 1010 (sample_pass_at 1010)
        (sample_state [sample_client 7 0 1 995 1005])).map
      (fun s => (s.log, s.last_closeunclean, s.last_keepalive))
      = some ([sys_op.close 3], 1010, 1000) := by
  decide

/-- C21, amended: a client armed with the expire time `E` (`10 ≤ E`) that is not
renewed, and a sequence of test passes.  A pass that sends a keepalive read a
time more than `TEST_INTERVAL` before `E`.  If the keepalives and closes so far
are at or before `E`, every pass that reads a time more than `TEST_INTERVAL`
before `E` finishes within `TEST_INTERVAL` of that time, and the first pass
that reads a later time closes the device at or before `E`, then after all
passes the last keepalive and the last unclean close are at or before `E`,
the device is closed, and the passes after that first late one have sent
nothing to it. -/
theorem keepalive_window (s : wdmd_state) (c : client) (pre post : List pass_input)
    (p : pass_input) (hc : c ∈ s.client) (hu : c.used ≠ 0) (h10 : 10 ≤ c.expire)
    (hE : c.expire < 2 ^ 64) (hk : s.last_keepalive ≤ c.expire)
    (hcu : s.last_closeunclean ≤ c.expire)
    (hpre : ∀ q ∈ pre, q.t_clients + 10 < c.expire ∧ q.t_dev ≤ q.t_clients + 10)
    (hp : c.expire ≤ p.t_clients + 10) (hpd : p.t_dev ≤ c.expire)
    (hpost : ∀ q ∈ post, c.expire ≤ q.t_clients + 10) :
    (run_passes (pre ++ p :: post) s).last_keepalive ≤ c.expire ∧
    (run_passes (pre ++ p :: post) s).last_closeunclean ≤ c.expire ∧
    (run_passes (pre ++ p :: post) s).dev_fd = -1 ∧
    (run_passes (pre ++ p :: post) s).log = (run_passes (pre ++ [p]) s).log ∧
    (∀ (inp : pass_input) (s2 : wdmd_state), c ∈ s2.client → pass_fail_count inp s2 = 0 →
      inp.t_clients + 10 < c.expire) := by
  obtain ⟨a1, a2, a3⟩ := run_passes_early c pre s hk hcu hpre
  have hcA : c ∈ (run_passes pre s).client := by
    rw [a3]
    exact hc
  have hf := pass_fail_count_of_late p (run_passes pre s) c hcA hu h10 hE hp
  obtain ⟨f1, f2, _, f4⟩ := test_pass_of_failure p (run_passes pre s) hf
  obtain ⟨g1, g2, g3, g4⟩ := run_passes_silent c hu h10 hE post
    (test_pass p (run_passes pre s)) (by rw [test_pass_client]; exact hcA) f1 hpost
  have e1 : run_passes (pre ++ p :: post) s =
      run_passes post (test_pass p (run_passes pre s)) := by
    rw [run_passes_append]
    rfl
  have e2 : run_passes (pre ++ [p]) s = test_pass p (run_passes pre s) := by
    rw [run_passes_append]
    rfl
  rw [e1, e2, g2, g3, g4, f2, f4]
  refine ⟨a1, ?_, g1, rfl, ?_⟩
  · split_ifs
    · exact a2
    · exact hpd
  · intro inp s2 hc2 h0
    exact pass_early_of_no_failure inp s2 c hc2 hu h10 hE h0

theorem keepalive_window_witness :
    (run_passes ([sample_pass_at 1050, sample_pass_at 1060] ++
        sample_pass_at 1070 :: [sample_pass_at 1071, sample_pass_at 1072])
      (sample_state [sample_client 7 0 1 1000 1080])).last_keepalive ≤ 1080 ∧
    (run_passes ([sample_pass_at 1050, sample_pass_at 1060] ++
        sample_pass_at 1070 :: [sample_pass_at 1071, sample_pass_at 1072])
      (sample_state [sample_client 7 0 1 1000 1080])).last_closeunclean ≤ 1080 ∧
    (run_passes ([sample_pass_at 1050, sample_pass_at 1060] ++
        sample_pass_at 1070 :: [sample_pass_at 1071, sample_pass_at 1072])
      (sample_state [sample_client 7 0 1 1000 1080])).dev_fd = -1 :=
  have h := keepalive_window (sample_state [sample_client 7 0 1 1000 1080])
    (sample_client 7 0 1 1000 1080) [sample_pass_at 1050, sample_pass_at 1060]
    [sample_pass_at 1071, sample_pass_at 1072] (sample_pass_at 1070)
    (by decide) (by decide) (by decide) (by decide) (by decide) (by decide) (by decide)
    (by decide) (by decide) (by decide)
  ⟨h.1, h.2.1, h.2.2.1⟩

end Wdmd

namespace Wdmd

/-! ## Scripts that cannot be started -/

/-- The first loop of `test_scripts` treats each entry by itself. -/
theorem start_loop_getElem (P : Nat) (inp : scripts_input) (l : List script_status)
    (i j : Nat) :
    (start_loop P inp i l)[j]? = (l[j]?).map (start_script P inp (i + j)) := by
  induction l generalizing i j with
  | nil => simp [start_loop]
  | cons sc rest ih =>
    cases j with
    | zero => simp [start_loop]
    | succ j =>
      simp only [start_loop, List.getElem?_cons_succ]
      rw [ih (i + 1) j]
      have h : i + 1 + j = i + (j + 1) := by omega
      rw [h]

/-- An entry that was set to zero stays as it is in the first loop. -/
theorem start_script_zero (P : Nat) (inp : scripts_input) (i : Nat) :
    start_script P inp i (script_zero P) = script_zero P := by
  have h : (script_zero P).name.headD 0 = 0 := by
    unfold script_zero
    cases P <;> simp [List.replicate]
  unfold start_script
  rw [if_pos h]

/-- A script that is due and cannot be started is set to zero. -/
theorem start_script_removed (P : Nat) (inp : scripts_input) (i : Nat) (sc : script_status)
    (hname : sc.name.headD 0 ≠ 0) (hpid : sc.pid = 0)
    (hdue : ¬ (sc.last_result = 0 ∧ u64_sub inp.begin sc.start < DEFAULT_TEST_INTERVAL - 1))
    (hrun : run_script (inp.probe i) ≤ 0) :
    start_script P inp i sc = script_zero P := by
  unfold start_script
  rw [if_neg hname, if_neg (by simpa using hpid), if_neg hdue]
  simp only
  rw [if_pos hrun]

/-- The name buffer of a zeroed entry starts with a zero byte. -/
theorem script_zero_name (P : Nat) : (script_zero P).name.headD 0 = 0 := by
  unfold script_zero
  cases P <;> simp [List.replicate]

/-- Setting to zero an entry that is due and cannot be started does not change
what the first loop leaves. -/
theorem start_loop_set (P : Nat) (inp : scripts_input) (l : List script_status)
    (i : Nat) (sc : script_status) (hi : l[i]? = some sc)
    (hname : sc.name.headD 0 ≠ 0) (hpid : sc.pid = 0)
    (hdue : ¬ (sc.last_result = 0 ∧ u64_sub inp.begin sc.start < DEFAULT_TEST_INTERVAL - 1))
    (hrun : run_script (inp.probe i) ≤ 0) :
    start_loop P inp 0 (l.set i (script_zero P)) = start_loop P inp 0 l := by
  apply List.ext_getElem?
  intro j
  rw [start_loop_getElem, start_loop_getElem, List.getElem?_set]
  by_cases hj : i = j
  · subst hj
    have hlt : i < l.length := by
      rcases Nat.lt_or_ge i l.length with h | h
      · exact h
      · rw [List.getElem?_eq_none h] at hi
        cases hi
    rw [if_pos rfl, if_pos hlt, hi]
    simp only [Option.map_some', Nat.zero_add]
    rw [start_script_zero, start_script_removed P inp i sc hname hpid hdue hrun]
  · rw [if_neg hj]

/-- The first loop leaves a table without names as it is. -/
theorem start_loop_idle (P : Nat) (inp : scripts_input) (l : List script_status) :
    ∀ i : Nat, (∀ sc ∈ l, sc.name.headD 0 = 0) → start_loop P inp i l = l := by
  induction l with
  | nil =>
    intro i _
    rfl
  | cons sc rest ih =>
    intro i h
    have h0 : sc.name.headD 0 = 0 := h sc (List.mem_cons_self sc rest)
    have hr : ∀ x ∈ rest, x.name.headD 0 = 0 :=
      fun x hx => h x (List.mem_cons_of_mem sc hx)
    simp only [start_loop]
    rw [ih (i + 1) hr]
    unfold start_script
    rw [if_pos h0]

/-- A round of the waiting loop leaves a table without names as it is and counts
nothing. -/
theorem wait_round_loop_idle (k : Int) (r : wait_round) (l : List script_status) :
    ∀ (i : Nat) (a : wait_acc), (∀ sc ∈ l, sc.name.headD 0 = 0) →
      wait_round_loop k r i l a = (l, a) := by
  induction l with
  | nil =>
    intro i a _
    rfl
  | cons sc rest ih =>
    intro i a h
    have h0 : sc.name.headD 0 = 0 := h sc (List.mem_cons_self sc rest)
    have hr : ∀ x ∈ rest, x.name.headD 0 = 0 :=
      fun x hx => h x (List.mem_cons_of_mem sc hx)
    have hw : wait_script k (r.waitpid i) (r.t_kill i) sc a = (sc, a) := by
      unfold wait_script
      rw [if_pos h0]
    simp only [wait_round_loop]
    rw [hw, ih (i + 1) a hr]

/-- With no name in the table `test_scripts` returns 0 after the first round of
waiting and changes nothing. -/
theorem test_scripts_idle (P : Nat) (inp : scripts_input) (s : scripts_state)
    (hallow : s.allow_scripts ≠ 0) (hr : inp.rounds ≠ [])
    (h : ∀ sc ∈ s.scripts, sc.name.headD 0 = 0) :
    test_scripts P inp s = some (s, 0) := by
  unfold test_scripts
  rw [if_neg hallow]
  simp only
  rw [start_loop_idle P inp s.scripts 0 h]
  cases hrounds : inp.rounds with
  | nil => exact absurd hrounds hr
  | cons r rest =>
    simp only [wait_loop]
    rw [wait_round_loop_idle s.kill_script_sec r s.scripts 0 _ h]
    simp

/-- The waiting loop ends when one of the rounds given reads a clock value that
is `DEFAULT_TEST_INTERVAL - 1` or more after `begin`. -/
theorem wait_loop_returns (k : Int) (b : Nat) (rounds : List wait_round) :
    ∀ (l : List script_status) (a : wait_acc),
      (∃ r ∈ rounds, u64_sub r.t_end b ≥ DEFAULT_TEST_INTERVAL - 1) →
      (wait_loop k b rounds l a).isSome = true := by
  induction rounds with
  | nil =>
    intro l a h
    obtain ⟨r, hr, _⟩ := h
    cases hr
  | cons r rest ih =>
    intro l a h
    simp only [wait_loop]
    split_ifs with h1 h2
    · rfl
    · rfl
    · apply ih
      obtain ⟨q, hq, hq2⟩ := h
      rcases List.mem_cons.mp hq with e | e
      · subst e
        exact absurd hq2 h2
      · exact ⟨q, e, hq2⟩

/-- The function `test_scripts` returns when one of the rounds given reads a
clock value that is `DEFAULT_TEST_INTERVAL - 1` or more after `begin`. -/
theorem test_scripts_returns (P : Nat) (inp : scripts_input) (s : scripts_state)
    (h : ∃ r ∈ inp.rounds, u64_sub r.t_end inp.begin ≥ DEFAULT_TEST_INTERVAL - 1) :
    (test_scripts P inp s).isSome = true := by
  unfold test_scripts
  split_ifs with h0
  · rfl
  · have hw := wait_loop_returns s.kill_script_sec inp.begin inp.rounds
      (start_loop P inp 0 s.scripts) { running := 0, fail_count := 0, kills := s.kills } h
    simp only
    cases hx : wait_loop s.kill_script_sec inp.begin inp.rounds
        (start_loop P inp 0 s.scripts) { running := 0, fail_count := 0, kills := s.kills } with
    | none =>
      rw [hx] at hw
      cases hw
    | some x =>
      simp only
      split_ifs <;> rfl

/-- A started script whose child leaves with a nonzero exit status is counted as
one failure by the round of the waiting loop that sees it. -/
theorem wait_script_exit_failure (k : Int) (w : wait_result) (t : Nat) (sc : script_status)
    (a : wait_acc) (code : Nat) (hname : sc.name.headD 0 ≠ 0) (hpid : 0 < sc.pid)
    (hrv : w.rv = sc.pid) (hst : w.status = wait_status.exited code) (hcode : code ≠ 0) :
    (wait_script k w t sc a).2.fail_count = a.fail_count + 1 ∧
    (wait_script k w t sc a).2.running = a.running ∧
    (wait_script k w t sc a).1.pid = 0 ∧
    (wait_script k w t sc a).1.last_result = code := by
  have h1 : ¬ w.rv < 0 := by omega
  have h2 : ¬ w.rv = 0 := by omega
  have h3 : ¬ sc.pid = 0 := by omega
  unfold wait_script
  rw [if_neg hname, if_neg h3]
  simp only
  rw [if_neg h1, if_neg h2, if_pos hrv, hst]
  simp only
  rw [if_pos hcode]
  simp

/-- The core of the removal: a due script that cannot be started is set to zero
by the first loop, and the call goes on as if the entry had been empty. -/
theorem test_scripts_set (P : Nat) (inp : scripts_input) (s : scripts_state)
    (i : Nat) (sc : script_status) (hallow : s.allow_scripts ≠ 0)
    (hi : s.scripts[i]? = some sc)
    (hname : sc.name.headD 0 ≠ 0) (hpid : sc.pid = 0)
    (hdue : ¬ (sc.last_result = 0 ∧ u64_sub inp.begin sc.start < DEFAULT_TEST_INTERVAL - 1))
    (hrun : run_script (inp.probe i) ≤ 0) :
    test_scripts P inp s =
      test_scripts P inp { s with scripts := s.scripts.set i (script_zero P) } := by
  unfold test_scripts
  simp only
  rw [start_loop_set P inp s.scripts i sc hi hname hpid hdue hrun, if_neg hallow,
    if_neg hallow]

/-- When the script that cannot be started is the only one with a name,
`test_scripts` returns 0 and leaves the table with that entry set to zero. -/
theorem test_scripts_only (P : Nat) (inp : scripts_input) (s : scripts_state)
    (i : Nat) (sc : script_status) (hallow : s.allow_scripts ≠ 0)
    (hi : s.scripts[i]? = some sc)
    (hname : sc.name.headD 0 ≠ 0) (hpid : sc.pid = 0)
    (hdue : ¬ (sc.last_result = 0 ∧ u64_sub inp.begin sc.start < DEFAULT_TEST_INTERVAL - 1))
    (hrun : run_script (inp.probe i) ≤ 0)
    (hothers : ∀ (j : Nat) (x : script_status), j ≠ i → s.scripts[j]? = some x →
      x.name.headD 0 = 0)
    (hr : inp.rounds ≠ []) :
    test_scripts P inp s =
      some ({ s with scripts := s.scripts.set i (script_zero P) }, 0) := by
  rw [test_scripts_set P inp s i sc hallow hi hname hpid hdue hrun]
  refine test_scripts_idle P inp
    { s with scripts := s.scripts.set i (script_zero P) } hallow hr ?_
  intro x hx
  obtain ⟨j, hj⟩ := List.mem_iff_getElem?.mp hx
  simp only at hj
  rw [List.getElem?_set] at hj
  by_cases hij : i = j
  · rw [if_pos hij] at hj
    split_ifs at hj with hlt
    cases hj
    exact script_zero_name P
  · rw [if_neg hij] at hj
    exact hothers j x (fun e => hij e.symm) hj

/-- The sample table has no name but the one of its first entry. -/
theorem sample_scripts_others (j : Nat) (x : script_status) (hj : j ≠ 0)
    (h : sample_scripts.scripts[j]? = some x) : x.name.headD 0 = 0 := by
  cases j with
  | zero => exact absurd rfl hj
  | succ j =>
    have hx : x ∈ List.replicate 7 (script_zero sample_path_max) := by
      have h2 : (List.replicate 7 (script_zero sample_path_max))[j]? = some x := by
        simpa only [sample_scripts, List.getElem?_cons_succ] using h
      exact List.mem_iff_getElem?.mpr ⟨j, h2⟩
    rw [List.eq_of_mem_replicate hx]
    exact script_zero_name sample_path_max

/-- The call of `test_scripts` on the sample table when `stat` does not find the
file of the script. -/
theorem sample_scripts_missing :
    test_scripts sample_path_max (sample_scripts_input sample_probe_missing) sample_scripts =
      some ({ sample_scripts with
              scripts := List.replicate 8 (script_zero sample_path_max) }, 0) :=
  test_scripts_only sample_path_max (sample_scripts_input sample_probe_missing)
    sample_scripts 0 sample_script (by decide) rfl (by decide) rfl (by decide) (by decide)
    sample_scripts_others (by simp [sample_scripts_input])

/-- A table whose only script is `chk`, which is due; `stat` does not find its
file, so `run_script` returns `-2`: `test_scripts` sets the entry to zero and
returns 0, and the pass, in which nothing else fails, sends a keepalive to the
device. -/
theorem unstartable_script_not_counted :
    run_script sample_probe_missing = -2 ∧
    test_scripts sample_path_max (sample_scripts_input sample_probe_missing) sample_scripts =
      some ({ sample_scripts with
              scripts := List.replicate 8 (script_zero sample_path_max) }, 0) ∧
    (test_pass_scripts sample_path_max (sample_scripts_input sample_probe_missing)
      (sample_pass_at 1010) sample_scripts (sample_state [])).map (fun r => r.2.log) =
      some [sys_op.ioctl_keepalive 3] := by
  refine ⟨by decide, sample_scripts_missing, ?_⟩
  unfold test_pass_scripts
  rw [sample_scripts_missing]
  decide

/-- A pass in which nothing fails ends with a keepalive on the open device and
records its time. -/
theorem test_pass_pets (inp : pass_input) (s : wdmd_state)
    (h : pass_fail_count inp s = 0) :
    (test_pass inp s).last_keepalive = inp.t_dev ∧
    (test_pass inp s).log.getLast? =
      some (sys_op.ioctl_keepalive (test_pass inp s).dev_fd) := by
  unfold test_pass
  rw [if_pos h]
  unfold pet_watchdog open_dev
  split_ifs <;> simp

/-- Claim C27, amended.  A registered script that is due in a test pass and
cannot be started (`run_script` returns a value `≤ 0`) is not counted: the
first loop of `test_scripts` sets its entry to zero, and the call returns what
it returns for the table with that entry empty; it returns when one of the
rounds of waiting reads a clock value `DEFAULT_TEST_INTERVAL - 1` or more after
`begin`.  When no other entry has a name, `test_scripts` returns 0, and a pass
in which no file and no client fails sends a keepalive to the device.  A script
that was started is counted as one failure in the round in which `waitpid`
reports that its child left with a nonzero exit status, as the child does when
`execlp` fails. -/
theorem unstartable_script_removed (P : Nat) (inp : scripts_input) (s : scripts_state)
    (i : Nat) (sc : script_status) (hallow : s.allow_scripts ≠ 0)
    (hi : s.scripts[i]? = some sc)
    (hname : sc.name.headD 0 ≠ 0) (hpid : sc.pid = 0)
    (hdue : ¬ (sc.last_result = 0 ∧ u64_sub inp.begin sc.start < DEFAULT_TEST_INTERVAL - 1))
    (hrun : run_script (inp.probe i) ≤ 0) :
    (start_loop P inp 0 s.scripts)[i]? = some (script_zero P) ∧
    test_scripts P inp s =
      test_scripts P inp { s with scripts := s.scripts.set i (script_zero P) } ∧
    ((∃ r ∈ inp.rounds, u64_sub r.t_end inp.begin ≥ DEFAULT_TEST_INTERVAL - 1) →
      (test_scripts P inp s).isSome = true) ∧
    ((∀ (j : Nat) (x : script_status), j ≠ i → s.scripts[j]? = some x →
        x.name.headD 0 = 0) → inp.rounds ≠ [] →
      test_scripts P inp s =
        some ({ s with scripts := s.scripts.set i (script_zero P) }, 0) ∧
      ∀ (q : pass_input) (st : wdmd_state), q.test_files = 0 →
        test_clients q.t_clients st.client = 0 →
        test_pass_scripts P inp q s st =
          some ({ s with scripts := s.scripts.set i (script_zero P) },
            test_pass { q with test_scripts := 0 } st) ∧
        (test_pass { q with test_scripts := 0 } st).last_keepalive = q.t_dev ∧
        (test_pass { q with test_scripts := 0 } st).log.getLast? =
          some (sys_op.ioctl_keepalive (test_pass { q with test_scripts := 0 } st).dev_fd)) ∧
    (∀ (k : Int) (w : wait_result) (t : Nat) (x : script_status) (a : wait_acc) (code : Nat),
      x.name.headD 0 ≠ 0 → 0 < x.pid → w.rv = x.pid →
      w.status = wait_status.exited code → code ≠ 0 →
      (wait_script k w t x a).2.fail_count = a.fail_count + 1 ∧
      (wait_script k w t x a).1.pid = 0 ∧
      (wait_script k w t x a).1.last_result = code) := by
  refine ⟨?_, test_scripts_set P inp s i sc hallow hi hname hpid hdue hrun,
    test_scripts_returns P inp s, ?_, ?_⟩
  · rw [start_loop_getElem, hi]
    simp only [Option.map_some', Nat.zero_add]
    rw [start_script_removed P inp i sc hname hpid hdue hrun]
  · intro hothers hr
    have ht := test_scripts_only P inp s i sc hallow hi hname hpid hdue hrun hothers hr
    refine ⟨ht, ?_⟩
    intro q st hf hc
    have h0 : pass_fail_count { q with test_scripts := 0 } st = 0 := by
      unfold pass_fail_count
      simp only
      omega
    refine ⟨?_, test_pass_pets { q with test_scripts := 0 } st h0⟩
    unfold test_pass_scripts
    rw [ht]
    rfl
  · intro k w t x a code h1 h2 h3 h4 h5
    have h := wait_script_exit_failure k w t x a code h1 h2 h3 h4 h5
    exact ⟨h.1, h.2.2.1, h.2.2.2⟩

/-- The sample table, whose only script is not found by `stat`: the entry is
set to zero and `test_scripts` returns 0. -/
theorem unstartable_script_removed_witness :
    (sample_scripts.allow_scripts ≠ 0 ∧ sample_scripts.scripts[0]? = some sample_script ∧
      run_script ((sample_scripts_input sample_probe_missing).probe 0) ≤ 0) ∧
    (start_loop sample_path_max (sample_scripts_input sample_probe_missing) 0
      sample_scripts.scripts)[0]? = some (script_zero sample_path_max) ∧
    test_scripts sample_path_max (sample_scripts_input sample_probe_missing) sample_scripts =
      some ({ sample_scripts with
              scripts := sample_scripts.scripts.set 0 (script_zero sample_path_max) }, 0) :=
  have h := unstartable_script_removed sample_path_max
    (sample_scripts_input sample_probe_missing) sample_scripts 0 sample_script
    (by decide) rfl (by decide) rfl (by decide) (by decide)
  ⟨⟨by decide, rfl, by decide⟩, h.1,
    (h.2.2.2.1 sample_scripts_others (by simp [sample_scripts_input])).1⟩

end Wdmd
